import Mathlib

/-!
A shallow embedding of SkyEmu's texture-atlas packer (src/atlas.cpp).

This file models the data structures and operations of `atlas.cpp`:

* `atlas_t` (the packing engine) with its pixel buffer, packing cursor,
  growth-by-doubling and queued repacking,
* `atlas_map_t` (one atlas per tile size, outstanding-request counter),
* the global registry of maps, the image cache, the deferred GPU-image
  deletion queue, and the asynchronous fetch/decode completion callbacks.

Modelling conventions:

* `uint32_t` values are `Nat` together with an explicit `% 2^32` at every
  arithmetic step that the C++ performs in 32 bits.  Every state carries a
  ghost `overflow : Bool` that is set as soon as any such step wrapped, so
  theorems can hypothesise exact arithmetic by requiring the flag to be
  `false` at the end of a run (the flag is monotone).
* the pixel buffers (`std::vector<uint8_t> data`, `stbi` image data) are
  total functions `Nat → Nat` from byte index to byte value; `data.resize`
  zero-fills, which the model reflects by resetting to `fun _ => 0`.
* the `float` UV coordinates of `atlas_tile_t` are rationals.  Every value
  the code ever stores in them is `offset / dimension` with `dimension` a
  power of two, which IEEE-754 single precision represents exactly for all
  atlas dimensions the code supports (≤ 2^24), so `ℚ` is a faithful model.
* `atlas_error` calls `exit(1)`; the model records the message in a ghost
  `fatal` field and freezes the state (a dead process performs no further
  transitions).
* `std::unordered_map` is an association list; the claims checked here do
  not depend on iteration order.
* heap-allocated `atlas_tile_t` objects are entries of an explicit tile
  heap `List (Nat × TileM)`; `delete` removes the entry.
* mutex-protected critical sections execute as single atomic steps of the
  event relation, which is exactly the serialisation the locks provide.
-/

namespace AtlasModel

/-- 2^32, the modulus of the `uint32_t` arithmetic used throughout atlas.cpp. -/
def U32 : Nat := 4294967296

/-- Fixed inter-tile padding: `constexpr static uint32_t padding = 4` (atlas.cpp:72). -/
def padding : Nat := 4

/-- A decoded RGBA image (`cached_image_t`): width, height, and the byte
buffer produced by `stbi_load_from_memory`, as a total function from byte
index to byte value. -/
structure Image where
  width : Nat
  height : Nat
  data : Nat → Nat

/-- `atlas_tile_t`: the tile handle shared between the packer and readers.
`atlas_id` is the `sg_image` id of the owning atlas (0 = `SG_INVALID_ID`,
the not-ready sentinel); `x1 y1 x2 y2` are the UV rectangle. -/
structure TileM where
  atlas_id : Nat
  x1 : ℚ
  y1 : ℚ
  x2 : ℚ
  y2 : ℚ

/-- `new atlas_tile_t()` value-initialises the atomics to zero. -/
def TileM.init : TileM := ⟨0, 0, 0, 0, 0⟩

/-- The heap of live `atlas_tile_t` objects, keyed by an allocation id. -/
abbrev Heap := List (Nat × TileM)

/-- Association-list lookup (model of map `find`). -/
def alookup {α β : Type} [DecidableEq α] (l : List (α × β)) (k : α) : Option β :=
  match l with
  | [] => none
  | p :: r => if p.1 = k then some p.2 else alookup r k

/-- Association-list insert-or-assign (model of `map[k] = v`): replaces the
entry if the key is present, otherwise appends it. -/
def assocSet {α β : Type} [DecidableEq α] (l : List (α × β)) (k : α) (v : β) :
    List (α × β) :=
  match l with
  | [] => [(k, v)]
  | p :: r => if p.1 = k then (k, v) :: r else p :: assocSet r k v

/-- Remove a key (model of `delete` for heap entries). -/
def assocErase {α β : Type} [DecidableEq α] (l : List (α × β)) (k : α) :
    List (α × β) :=
  l.filter (fun p => p.1 ≠ k)

/-- Update the value at a key in place, if present. -/
def hmodify (h : Heap) (k : Nat) (f : TileM → TileM) : Heap :=
  h.map (fun p => if p.1 = k then (k, f p.2) else p)

/-- Raw (pre-wrap) flat index computed by the copy loop (atlas.cpp:154):
`((tile_offset_x + x) * 4) + (((tile_offset_y + y) * atlas_dimension) * 4)`. -/
def atlasOffset (dim tox toy x y : Nat) : Nat :=
  ((tox + x) * 4) + (((toy + y) * dim) * 4)

/-- Raw index into the source image (atlas.cpp:155):
`x * 4 + (y * 4 * tile_width)`. -/
def tileOffset (tw x y : Nat) : Nat := x * 4 + (y * 4 * tw)

/-- Single byte store into a modelled byte buffer. -/
def bstore (d : Nat → Nat) (i v : Nat) : Nat → Nat := fun j => if j = i then v else d j

/-- The four component stores for one pixel (atlas.cpp:157-160), with the
`uint32_t` wrap on each computed index. -/
def writePixel (dim tox toy tw : Nat) (src : Nat → Nat) (d : Nat → Nat) (x y : Nat) :
    Nat → Nat :=
  let ao := atlasOffset dim tox toy x y
  let t := tileOffset tw x y
  bstore (bstore (bstore (bstore d ((ao + 0) % U32) (src ((t + 0) % U32)))
    ((ao + 1) % U32) (src ((t + 1) % U32)))
    ((ao + 2) % U32) (src ((t + 2) % U32)))
    ((ao + 3) % U32) (src ((t + 3) % U32))

/-- The nested pixel-copy loops (atlas.cpp:152-162): `y` outer over
`tile_height`, `x` inner over `tile_width`. -/
def writeTileData (dim tox toy tw th : Nat) (src : Nat → Nat) (d : Nat → Nat) :
    Nat → Nat :=
  (List.range th).foldl
    (fun acc y => (List.range tw).foldl
      (fun acc2 x => writePixel dim tox toy tw src acc2 x y) acc) d

/-- `true` when some index computed by the copy loops exceeds `uint32_t`
range (both index expressions are monotone in `x` and `y`, so checking the
last pixel suffices). -/
def copyOverflow (dim tox toy tw th : Nat) : Bool :=
  decide (0 < tw) && decide (0 < th) &&
    (decide (U32 ≤ atlasOffset dim tox toy (tw - 1) (th - 1) + 3) ||
     decide (U32 ≤ tileOffset tw (tw - 1) (th - 1) + 3))

/-- Ghost record of one `copy_to_data` placement into the *current* pixel
buffer: the url whose tile was copied, the cursor position
(`tile_offset_x`, `tile_offset_y`) it was copied at, and the source bytes
that were copied.  The list is cleared when growth replaces the buffer. -/
structure Prec where
  url : String
  px : Nat
  py : Nat
  bytes : Nat → Nat

/-- `atlas_t` (atlas.cpp:37-73).  `images` maps url → tile heap id.
`placements`, `uploads`, `fatal` and `overflow` are ghost fields (see the
file header). -/
structure AtlasM where
  tile_width : Nat
  tile_height : Nat
  atlas_image_id : Nat
  atlas_dimension : Nat
  offset_x : Nat
  offset_y : Nat
  data : Nat → Nat
  images : List (String × Nat)
  images_to_add : List String
  dirty : Bool
  resized : Bool
  placements : List Prec
  uploads : Nat
  fatal : Option String
  overflow : Bool

/-- The constructor loop (atlas.cpp:112-114):
`while (atlas_dimension < minimum_width || atlas_dimension < minimum_height) atlas_dimension *= 2`
in `uint32_t` arithmetic.  The fuel (64 in `mkAtlas`) exceeds the number of
doublings possible before a wrap, and the returned flag records fuel
exhaustion (a diverging C++ loop) or a wrap. -/
def initLoop : Nat → Nat → Nat → Nat → Nat × Bool
  | 0, d, mw, mh => (d, decide (d < mw) || decide (d < mh))
  | f + 1, d, mw, mh =>
    if d < mw ∨ d < mh then
      let r := initLoop f ((d * 2) % U32) mw mh
      (r.1, r.2 || decide (U32 ≤ d * 2))
    else (d, false)

/-- `atlas_t::atlas_t` (atlas.cpp:103-117). -/
def mkAtlas (tw th : Nat) : AtlasM :=
  let mw := (tw + padding) % U32
  let mh := (th + padding) % U32
  let r := initLoop 64 16 mw mh
  { tile_width := tw
    tile_height := th
    atlas_image_id := 0
    atlas_dimension := r.1
    offset_x := 0
    offset_y := 0
    data := fun _ => 0
    images := []
    images_to_add := []
    dirty := false
    resized := false
    placements := []
    uploads := 0
    fatal := none
    overflow := r.2 || decide (U32 ≤ tw + padding) || decide (U32 ≤ th + padding) }

/-- `atlas_t::has_tile` (atlas.cpp:50-53). -/
def has_tile (a : AtlasM) (url : String) : Bool := (alookup a.images url).isSome

/-- `atlas_t::copy_to_data` (atlas.cpp:128-169).  `tid`/`img` are `none`
for null pointers (the fatal checks at the top).  Writes the pixel block,
advances the cursor, and finalises the tile's fields in the heap. -/
def copy_to_data (heap : Heap) (a : AtlasM) (url : String) (tid : Option Nat)
    (img : Option Image) : Heap × AtlasM :=
  if a.fatal.isSome then (heap, a) else
  match tid with
  | none => (heap, { a with fatal := some "Tile is null" })
  | some tid =>
    match img with
    | none => (heap, { a with fatal := some "Cached image data is null" })
    | some img =>
      if img.width ≠ a.tile_width ∨ img.height ≠ a.tile_height then
        (heap, { a with fatal := some "Image dimensions do not match atlas tile dimensions" })
      else
        let dim := a.atlas_dimension
        let tox := a.offset_x
        let toy := a.offset_y
        let rawOx := a.offset_x + a.tile_width + padding
        let ox := rawOx % U32
        let rawCmp := ox + a.tile_width
        let rawOy := a.offset_y + a.tile_height + padding
        let wrapRow : Bool := decide (dim < rawCmp % U32)
        let ox2 := if wrapRow then 0 else ox
        let oy2 := if wrapRow then rawOy % U32 else a.offset_y
        let ovf := decide (U32 ≤ rawOx) || decide (U32 ≤ rawCmp) ||
          (wrapRow && decide (U32 ≤ rawOy)) ||
          copyOverflow dim tox toy a.tile_width a.tile_height ||
          decide (U32 ≤ tox + a.tile_width) || decide (U32 ≤ toy + a.tile_height)
        let tile : TileM :=
          { atlas_id := a.atlas_image_id
            x1 := (tox : ℚ) / (dim : ℚ)
            y1 := (toy : ℚ) / (dim : ℚ)
            x2 := ((((tox + a.tile_width) % U32 : Nat) : ℚ)) / (dim : ℚ)
            y2 := ((((toy + a.tile_height) % U32 : Nat) : ℚ)) / (dim : ℚ) }
        (assocSet heap tid tile,
          { a with
            dirty := true
            data := writeTileData dim tox toy a.tile_width a.tile_height img.data a.data
            offset_x := ox2
            offset_y := oy2
            placements := ⟨url, tox, toy, img.data⟩ :: a.placements
            overflow := a.overflow || ovf })

/-- `atlas_t::add_tile` (atlas.cpp:171-201): growth check (double the
dimension, fresh zeroed buffer, cursor reset, queue every packed key for
repacking), insert the tile into `images`, then `copy_to_data`. -/
def add_tile (heap : Heap) (a : AtlasM) (url : String) (tid : Nat) (img : Image) :
    Heap × AtlasM :=
  if a.fatal.isSome then (heap, a) else
  let rawMinX := a.offset_x + a.tile_width + padding
  let rawMinY := a.offset_y + a.tile_height + padding
  let a1 := { a with overflow := a.overflow || decide (U32 ≤ rawMinX) || decide (U32 ≤ rawMinY) }
  if a1.atlas_dimension < rawMinX % U32 ∨ a1.atlas_dimension < rawMinY % U32 then
    copy_to_data heap
      { a1 with
        resized := true
        overflow := a1.overflow || decide (U32 ≤ a1.atlas_dimension * 2)
        atlas_dimension := (a1.atlas_dimension * 2) % U32
        data := fun _ => 0
        offset_x := 0
        offset_y := 0
        images_to_add := a1.images_to_add ++ a1.images.map Prod.fst
        placements := []
        images := assocSet a1.images url tid }
      url (some tid) (some img)
  else
    copy_to_data heap { a1 with images := assocSet a1.images url tid }
      url (some tid) (some img)

/-- The repack loop of `atlas_t::upload` (atlas.cpp:236-240): for every
queued url, look up `image_cache[url]` and `images[url]` and re-copy the
tile at the current cursor ( `none` lookups reproduce the null-pointer
fatal checks inside `copy_to_data`). -/
def repackFold (cache : List (String × Image)) (hp : Heap × AtlasM)
    (urls : List String) : Heap × AtlasM :=
  urls.foldl
    (fun (p : Heap × AtlasM) url =>
      copy_to_data p.1 p.2 url (alookup p.2.images url) (alookup cache url))
    hp

/-- The finalise loop of `atlas_t::upload` (atlas.cpp:248-251): write the
(new) texture id into every tracked tile. -/
def setAllTileIds (images : List (String × Nat)) (id : Nat) (h : Heap) : Heap :=
  images.foldl (fun hh p => hmodify hh p.2 (fun t => { t with atlas_id := id })) h

/-- The final `if (dirty)` step of `atlas_t::upload` (atlas.cpp:254-260):
push the buffer to the GPU and clear the flag. -/
def finishDirty (a : AtlasM) : AtlasM :=
  if a.dirty then { a with dirty := false } else a

/-- `atlas_image = sg_make_image(desc)` (atlas.cpp:231): install a texture id. -/
def setImageId (a : AtlasM) (i : Nat) : AtlasM := { a with atlas_image_id := i }

/-- End of the repack block (atlas.cpp:243-245): clear the queue and the
resized flag. -/
def clearQueue (a : AtlasM) : AtlasM := { a with images_to_add := [], resized := false }

/-- Ghost bookkeeping: one more `upload()` call ran to completion. -/
def bumpUploads (a : AtlasM) : AtlasM := { a with uploads := a.uploads + 1 }

/-- `atlas_t::upload` (atlas.cpp:203-261).  `cache` models the global
`image_cache` the repack loop reads; `nid` is the id `sg_make_image` would
return.  Returns the heap, the atlas, the list of ids passed to
`sg_destroy_image`, and the next fresh image id.  If a repack step hits an
`atlas_error` the state freezes there (the process exited). -/
def upload (heap : Heap) (a : AtlasM) (cache : List (String × Image)) (nid : Nat) :
    Heap × AtlasM × List Nat × Nat :=
  if a.fatal.isSome then (heap, a, [], nid) else
  let des := if a.resized then [a.atlas_image_id] else []
  let a0 := if a.resized then { a with atlas_image_id := 0 } else a
  if a0.atlas_image_id = 0 then
    let a1 := setImageId a0 nid
    let hp2 :=
      if a1.resized then
        let hp := repackFold cache (heap, a1) a1.images_to_add
        if hp.2.fatal.isSome then hp
        else (hp.1, clearQueue hp.2)
      else (heap, a1)
    if hp2.2.fatal.isSome then (hp2.1, hp2.2, des, nid + 1) else
    (setAllTileIds hp2.2.images hp2.2.atlas_image_id hp2.1,
      bumpUploads (finishDirty hp2.2), des, nid + 1)
  else
    (heap, bumpUploads (finishDirty a0), des, nid)

/-- A single-atlas run: the heap of caller-allocated tiles, the fresh tile
allocator, and the atlas. -/
structure APack where
  heap : Heap
  nextTile : Nat
  atlas : AtlasM

/-- Operations a run performs against one atlas: a caller allocating a
fresh `atlas_tile_t` and calling `add_tile` with a decoded image, or the
frame thread calling `upload` (with the current image cache and the id a
successful `sg_make_image` returns). -/
inductive AOp where
  | add (url : String) (img : Image)
  | up (cache : List (String × Image)) (nid : Nat)

def stepA (p : APack) : AOp → APack
  | .add url img =>
    let tid := p.nextTile
    let h0 := assocSet p.heap tid TileM.init
    let ha := add_tile h0 p.atlas url tid img
    ⟨ha.1, p.nextTile + 1, ha.2⟩
  | .up cache nid =>
    let ha := upload p.heap p.atlas cache nid
    ⟨ha.1, p.nextTile, ha.2.1⟩

def initPack (tw th : Nat) : APack := ⟨[], 0, mkAtlas tw th⟩

def runA (p : APack) (ops : List AOp) : APack := ops.foldl stepA p

/-- `atlas_get_tile_id` (atlas.cpp:406-412): `none` models a null
`atlas_tile_t*`, for which the function returns 0 instead of dereferencing. -/
def atlas_get_tile_id (tile : Option TileM) : Nat :=
  match tile with
  | none => 0
  | some t => t.atlas_id

/-! ## Basic lemmas about the helper structures -/

lemma U32_eq : U32 = 2 ^ 32 := by norm_num [U32]

lemma U32_pos : 0 < U32 := by norm_num [U32]

lemma bstore_same (d : Nat → Nat) (i v : Nat) : bstore d i v i = v := by
  simp [bstore]

lemma bstore_ne (d : Nat → Nat) (i v j : Nat) (h : j ≠ i) : bstore d i v j = d j := by
  simp [bstore, h]

lemma alookup_cons {α β : Type} [DecidableEq α] (p : α × β) (r : List (α × β)) (k : α) :
    alookup (p :: r) k = if p.1 = k then some p.2 else alookup r k := rfl

lemma alookup_assocSet_self {α β : Type} [DecidableEq α] (l : List (α × β)) (k : α) (v : β) :
    alookup (assocSet l k v) k = some v := by
  induction l with
  | nil => simp [assocSet, alookup]
  | cons p r ih =>
    by_cases hp : p.1 = k
    · simp [assocSet, hp, alookup]
    · simp [assocSet, hp, alookup_cons, ih]

lemma alookup_assocSet_ne {α β : Type} [DecidableEq α] (l : List (α × β)) (k : α) (v : β)
    (j : α) (hj : j ≠ k) : alookup (assocSet l k v) j = alookup l j := by
  have hkj : ¬ k = j := fun h => hj h.symm
  induction l with
  | nil => simp [assocSet, alookup, hkj]
  | cons p r ih =>
    by_cases hp : p.1 = k
    · have hpj : ¬ p.1 = j := by rw [hp]; exact hkj
      simp [assocSet, hp, alookup_cons, hkj, hpj]
    · simp [assocSet, hp, alookup_cons, ih]

lemma alookup_assocSet_isSome {α β : Type} [DecidableEq α] (l : List (α × β)) (k : α)
    (v : β) (j : α) (h : (alookup l j).isSome) :
    (alookup (assocSet l k v) j).isSome := by
  by_cases hj : j = k
  · subst hj; simp [alookup_assocSet_self]
  · rwa [alookup_assocSet_ne l k v j hj]

lemma hmodify_cons (p : Nat × TileM) (r : Heap) (k : Nat) (f : TileM → TileM) :
    hmodify (p :: r) k f =
      (if p.1 = k then (k, f p.2) else p) :: hmodify r k f := rfl

lemma alookup_hmodify (h : Heap) (k : Nat) (f : TileM → TileM) (j : Nat) :
    alookup (hmodify h k f) j =
      if j = k then (alookup h k).map f else alookup h j := by
  induction h with
  | nil => simp [hmodify, alookup]
  | cons p r ih =>
    rw [hmodify_cons]
    by_cases hp : p.1 = k
    · by_cases hjk : j = k
      · subst hjk; simp [hp, alookup_cons]
      · have hkj : ¬ k = j := fun hh => hjk hh.symm
        simp [hp, alookup_cons, hjk, hkj, ih]
    · by_cases hjk : j = k
      · subst hjk; simp [hp, alookup_cons, ih]
      · simp [hp, alookup_cons, hjk, ih]

/-- Generic forward preservation along a left fold. -/
lemma foldl_preserve {α β : Type} (f : β → α → β) (P : β → Prop)
    (hstep : ∀ b a, P b → P (f b a)) :
    ∀ (l : List α) (b : β), P b → P (l.foldl f b) := by
  intro l
  induction l with
  | nil => intro b hb; simpa using hb
  | cons a r ih => intro b hb; simpa using ih (f b a) (hstep b a hb)

/-- Generic backward propagation along a left fold (for monotone ghost flags). -/
lemma foldl_reverse {α β : Type} (f : β → α → β) (Q : β → Prop)
    (hstep : ∀ b a, Q (f b a) → Q b) :
    ∀ (l : List α) (b : β), Q (l.foldl f b) → Q b := by
  intro l
  induction l with
  | nil => intro b hb; simpa using hb
  | cons a r ih => intro b hb; exact hstep b a (ih (f b a) (by simpa using hb))

/-! ## Field preservation and ghost-flag monotonicity -/

lemma copy_to_data_const (h : Heap) (a : AtlasM) (url : String) (t : Option Nat)
    (i : Option Image) :
    ((copy_to_data h a url t i).2).tile_width = a.tile_width ∧
    ((copy_to_data h a url t i).2).tile_height = a.tile_height ∧
    ((copy_to_data h a url t i).2).atlas_dimension = a.atlas_dimension ∧
    ((copy_to_data h a url t i).2).images = a.images ∧
    ((copy_to_data h a url t i).2).images_to_add = a.images_to_add ∧
    ((copy_to_data h a url t i).2).uploads = a.uploads ∧
    ((copy_to_data h a url t i).2).atlas_image_id = a.atlas_image_id ∧
    ((copy_to_data h a url t i).2).resized = a.resized := by
  unfold copy_to_data
  repeat' split
  all_goals simp

lemma copy_to_data_overflow_rev (h : Heap) (a : AtlasM) (url : String) (t : Option Nat)
    (i : Option Image) :
    ((copy_to_data h a url t i).2).overflow = false → a.overflow = false := by
  unfold copy_to_data
  repeat' split
  all_goals intro hh
  all_goals simp_all

lemma copy_to_data_fatal_rev (h : Heap) (a : AtlasM) (url : String) (t : Option Nat)
    (i : Option Image) :
    ((copy_to_data h a url t i).2).fatal = none → a.fatal = none := by
  unfold copy_to_data
  repeat' split
  all_goals intro hh
  all_goals simp_all

lemma copy_to_data_frozen (h : Heap) (a : AtlasM) (url : String) (t : Option Nat)
    (i : Option Image) (hf : a.fatal.isSome) : copy_to_data h a url t i = (h, a) := by
  unfold copy_to_data
  simp [hf]

lemma repackFold_images (cache : List (String × Image)) (hp : Heap × AtlasM)
    (urls : List String) : (repackFold cache hp urls).2.images = hp.2.images := by
  unfold repackFold
  exact foldl_preserve _ (fun q => q.2.images = hp.2.images)
    (fun b u hb => ((copy_to_data_const b.1 b.2 u _ _).2.2.2.1).trans hb) urls hp rfl

lemma repackFold_dim (cache : List (String × Image)) (hp : Heap × AtlasM)
    (urls : List String) :
    (repackFold cache hp urls).2.atlas_dimension = hp.2.atlas_dimension := by
  unfold repackFold
  exact foldl_preserve _ (fun q => q.2.atlas_dimension = hp.2.atlas_dimension)
    (fun b u hb => ((copy_to_data_const b.1 b.2 u _ _).2.2.1).trans hb) urls hp rfl

lemma repackFold_tw (cache : List (String × Image)) (hp : Heap × AtlasM)
    (urls : List String) : (repackFold cache hp urls).2.tile_width = hp.2.tile_width := by
  unfold repackFold
  exact foldl_preserve _ (fun q => q.2.tile_width = hp.2.tile_width)
    (fun b u hb => ((copy_to_data_const b.1 b.2 u _ _).1).trans hb) urls hp rfl

lemma repackFold_th (cache : List (String × Image)) (hp : Heap × AtlasM)
    (urls : List String) :
    (repackFold cache hp urls).2.tile_height = hp.2.tile_height := by
  unfold repackFold
  exact foldl_preserve _ (fun q => q.2.tile_height = hp.2.tile_height)
    (fun b u hb => ((copy_to_data_const b.1 b.2 u _ _).2.1).trans hb) urls hp rfl

lemma repackFold_overflow_rev (cache : List (String × Image)) (hp : Heap × AtlasM)
    (urls : List String) :
    (repackFold cache hp urls).2.overflow = false → hp.2.overflow = false := by
  unfold repackFold
  exact foldl_reverse _ (fun q => q.2.overflow = false)
    (fun b u hb => copy_to_data_overflow_rev b.1 b.2 u _ _ hb) urls hp

lemma repackFold_fatal_rev (cache : List (String × Image)) (hp : Heap × AtlasM)
    (urls : List String) :
    (repackFold cache hp urls).2.fatal = none → hp.2.fatal = none := by
  unfold repackFold
  exact foldl_reverse _ (fun q => q.2.fatal = none)
    (fun b u hb => copy_to_data_fatal_rev b.1 b.2 u _ _ hb) urls hp

lemma upload_images (h : Heap) (a : AtlasM) (cache : List (String × Image)) (nid : Nat) :
    ((upload h a cache nid).2.1).images = a.images := by
  unfold upload
  dsimp only
  repeat' split
  all_goals simp_all [repackFold_images, bumpUploads, finishDirty, setImageId, clearQueue]
  all_goals split <;> simp_all

lemma upload_dim (h : Heap) (a : AtlasM) (cache : List (String × Image)) (nid : Nat) :
    ((upload h a cache nid).2.1).atlas_dimension = a.atlas_dimension := by
  unfold upload
  dsimp only
  repeat' split
  all_goals simp_all [repackFold_dim, bumpUploads, finishDirty, setImageId, clearQueue]
  all_goals split <;> simp_all

lemma upload_tw (h : Heap) (a : AtlasM) (cache : List (String × Image)) (nid : Nat) :
    ((upload h a cache nid).2.1).tile_width = a.tile_width := by
  unfold upload
  dsimp only
  repeat' split
  all_goals simp_all [repackFold_tw, bumpUploads, finishDirty, setImageId, clearQueue]
  all_goals split <;> simp_all

lemma upload_th (h : Heap) (a : AtlasM) (cache : List (String × Image)) (nid : Nat) :
    ((upload h a cache nid).2.1).tile_height = a.tile_height := by
  unfold upload
  dsimp only
  repeat' split
  all_goals simp_all [repackFold_th, bumpUploads, finishDirty, setImageId, clearQueue]
  all_goals split <;> simp_all

lemma upload_overflow_rev (h : Heap) (a : AtlasM) (cache : List (String × Image))
    (nid : Nat) : ((upload h a cache nid).2.1).overflow = false → a.overflow = false := by
  unfold upload
  dsimp only
  repeat' split
  all_goals intro hh
  all_goals simp_all [bumpUploads, finishDirty, setImageId, clearQueue]
  all_goals
    first
    | exact repackFold_overflow_rev _ _ _ hh
    | (split at hh <;> simp_all) 
    | skip
  all_goals
    first
    | exact repackFold_overflow_rev _ _ _ hh
    | (revert hh; split <;> (intro hh; simp_all) <;>
        exact repackFold_overflow_rev _ _ _ hh)

lemma add_tile_frozen (h : Heap) (a : AtlasM) (url : String) (tid : Nat) (img : Image)
    (hf : a.fatal.isSome) : add_tile h a url tid img = (h, a) := by
  unfold add_tile
  simp [hf]

lemma add_tile_tw (h : Heap) (a : AtlasM) (url : String) (tid : Nat) (img : Image) :
    ((add_tile h a url tid img).2).tile_width = a.tile_width := by
  unfold add_tile
  dsimp only
  split
  · rfl
  split <;> rw [(copy_to_data_const _ _ _ _ _).1]

lemma add_tile_th (h : Heap) (a : AtlasM) (url : String) (tid : Nat) (img : Image) :
    ((add_tile h a url tid img).2).tile_height = a.tile_height := by
  unfold add_tile
  dsimp only
  split
  · rfl
  split <;> rw [(copy_to_data_const _ _ _ _ _).2.1]

lemma add_tile_overflow_rev (h : Heap) (a : AtlasM) (url : String) (tid : Nat)
    (img : Image) : ((add_tile h a url tid img).2).overflow = false →
      a.overflow = false := by
  unfold add_tile
  dsimp only
  split
  · exact fun hh => hh
  split
  all_goals intro hh
  all_goals have hr := copy_to_data_overflow_rev _ _ _ _ _ hh
  all_goals simp only [Bool.or_eq_false_iff] at hr
  all_goals tauto

lemma add_tile_images (h : Heap) (a : AtlasM) (url : String) (tid : Nat) (img : Image)
    (hf : a.fatal = none) :
    ((add_tile h a url tid img).2).images = assocSet a.images url tid := by
  unfold add_tile
  dsimp only
  simp only [hf, Option.isSome_none, Bool.false_eq_true, if_false]
  split
  all_goals rw [(copy_to_data_const _ _ _ _ _).2.2.2.1]

lemma add_tile_dim (h : Heap) (a : AtlasM) (url : String) (tid : Nat) (img : Image)
    (hov : ((add_tile h a url tid img).2).overflow = false) :
    ((add_tile h a url tid img).2).atlas_dimension = a.atlas_dimension ∨
      ((add_tile h a url tid img).2).atlas_dimension = 2 * a.atlas_dimension := by
  unfold add_tile at hov ⊢
  dsimp only at hov ⊢
  split_ifs at hov ⊢ with h1 h2
  · left; rfl
  · right
    rw [(copy_to_data_const _ _ _ _ _).2.2.1]
    have hr := copy_to_data_overflow_rev _ _ _ _ _ hov
    simp only [Bool.or_eq_false_iff, decide_eq_false_iff_not, not_le] at hr
    have h3 : a.atlas_dimension * 2 < U32 := hr.2
    simp only [Nat.mod_eq_of_lt h3]
    ring
  · left
    exact (copy_to_data_const _ _ _ _ _).2.2.1

lemma stepA_overflow_rev (p : APack) (op : AOp) :
    (stepA p op).atlas.overflow = false → p.atlas.overflow = false := by
  cases op with
  | add url img => exact fun hh => add_tile_overflow_rev _ _ _ _ _ hh
  | up cache nid => exact fun hh => upload_overflow_rev _ _ _ _ hh

lemma runA_overflow_rev (p : APack) (ops : List AOp) :
    (runA p ops).atlas.overflow = false → p.atlas.overflow = false := by
  unfold runA
  exact foldl_reverse _ (fun q => q.atlas.overflow = false)
    (fun b op hb => stepA_overflow_rev b op hb) ops p

lemma stepA_dim (p : APack) (op : AOp) (hov : (stepA p op).atlas.overflow = false) :
    (stepA p op).atlas.atlas_dimension = p.atlas.atlas_dimension ∨
      (stepA p op).atlas.atlas_dimension = 2 * p.atlas.atlas_dimension := by
  cases op with
  | add url img =>
    rcases add_tile_dim _ p.atlas url p.nextTile img hov with h1 | h1
    · left; exact h1
    · right; exact h1
  | up cache nid => left; exact upload_dim _ _ _ _

lemma stepA_tw (p : APack) (op : AOp) :
    (stepA p op).atlas.tile_width = p.atlas.tile_width := by
  cases op with
  | add url img => exact add_tile_tw _ _ _ _ _
  | up cache nid => exact upload_tw _ _ _ _

lemma stepA_th (p : APack) (op : AOp) :
    (stepA p op).atlas.tile_height = p.atlas.tile_height := by
  cases op with
  | add url img => exact add_tile_th _ _ _ _ _
  | up cache nid => exact upload_th _ _ _ _

lemma has_tile_stepA (p : APack) (op : AOp) (url : String)
    (ht : has_tile p.atlas url = true) : has_tile (stepA p op).atlas url = true := by
  cases op with
  | add u2 img =>
    by_cases hf : p.atlas.fatal.isSome
    · show has_tile (add_tile _ p.atlas u2 p.nextTile img).2 url = true
      rw [add_tile_frozen _ _ _ _ _ hf]
      exact ht
    · show has_tile (add_tile _ p.atlas u2 p.nextTile img).2 url = true
      have hf2 : p.atlas.fatal = none := Option.not_isSome_iff_eq_none.mp hf
      unfold has_tile at ht ⊢
      rw [add_tile_images _ _ _ _ _ hf2]
      exact alookup_assocSet_isSome _ _ _ _ ht
  | up cache nid =>
    unfold has_tile at ht ⊢
    show (alookup ((upload p.heap p.atlas cache nid).2.1).images url).isSome = true
    rw [upload_images]
    exact ht

lemma has_tile_runA (p : APack) (ops : List AOp) (url : String)
    (ht : has_tile p.atlas url = true) : has_tile (runA p ops).atlas url = true := by
  unfold runA
  exact foldl_preserve _ (fun q => has_tile q.atlas url = true)
    (fun b op hb => has_tile_stepA b op url hb) ops p ht

/-! ## The constructor loop: smallest power of two from 16 -/

lemma initLoop_spec (f : Nat) :
    ∀ d mw mh : Nat, (∃ k, d = 16 * 2 ^ k) →
    (∀ m, (∃ i, m = 16 * 2 ^ i) → m < d → m < mw ∨ m < mh) →
    mw ≤ 2 ^ 31 → mh ≤ 2 ^ 31 → mw ≤ d * 2 ^ f → mh ≤ d * 2 ^ f →
    (initLoop f d mw mh).2 = false ∧
    mw ≤ (initLoop f d mw mh).1 ∧ mh ≤ (initLoop f d mw mh).1 ∧
    (∃ k, (initLoop f d mw mh).1 = 16 * 2 ^ k) ∧
    (∀ m, (∃ i, m = 16 * 2 ^ i) → mw ≤ m → mh ≤ m → (initLoop f d mw mh).1 ≤ m) := by
  induction f with
  | zero =>
    intro d mw mh hd hmin hmw hmh hfw hfh
    simp only [pow_zero, mul_one] at hfw hfh
    have h1 : ¬ d < mw := not_lt.mpr hfw
    have h2 : ¬ d < mh := not_lt.mpr hfh
    refine ⟨by simp [initLoop, h1, h2], hfw, hfh, hd, ?_⟩
    intro m hm hmw2 hmh2
    by_contra hlt
    push_neg at hlt
    rcases hmin m hm hlt with h | h
    · exact absurd hmw2 (not_le.mpr h)
    · exact absurd hmh2 (not_le.mpr h)
  | succ f ih =>
    intro d mw mh hd hmin hmw hmh hfw hfh
    by_cases hc : d < mw ∨ d < mh
    · have hdlt : d < 2 ^ 31 := by
        rcases hc with h | h
        · exact lt_of_lt_of_le h hmw
        · exact lt_of_lt_of_le h hmh
      have hdu : d * 2 < U32 := by
        rw [U32_eq]
        calc d * 2 < 2 ^ 31 * 2 := by omega
        _ = 2 ^ 32 := by norm_num
      have hmod : (d * 2) % U32 = d * 2 := Nat.mod_eq_of_lt hdu
      obtain ⟨k, hk⟩ := hd
      have hmin2 : ∀ m, (∃ i, m = 16 * 2 ^ i) → m < d * 2 → m < mw ∨ m < mh := by
        intro m hm hlt
        obtain ⟨i, hi⟩ := hm
        have hle : m ≤ d := by
          rw [hi, hk] at hlt ⊢
          have h2d : 16 * 2 ^ k * 2 = 16 * 2 ^ (k + 1) := by ring
          rw [h2d] at hlt
          have hik : i < k + 1 := by
            by_contra hik
            push_neg at hik
            exact absurd hlt (not_lt.mpr (Nat.mul_le_mul_left 16
              (Nat.pow_le_pow_right (by norm_num) hik)))
          exact Nat.mul_le_mul_left 16 (Nat.pow_le_pow_right (by norm_num) (by omega))
        rcases lt_or_eq_of_le hle with h | h
        · exact hmin m ⟨i, hi⟩ h
        · rw [h]; exact hc
      have hih := ih (d * 2) mw mh ⟨k + 1, by rw [hk]; ring⟩ hmin2 hmw hmh
        (by calc mw ≤ d * 2 ^ (f + 1) := hfw
            _ = d * 2 * 2 ^ f := by ring)
        (by calc mh ≤ d * 2 ^ (f + 1) := hfh
            _ = d * 2 * 2 ^ f := by ring)
      have heq : initLoop (f + 1) d mw mh =
          ((initLoop f ((d * 2) % U32) mw mh).1,
            (initLoop f ((d * 2) % U32) mw mh).2 || decide (U32 ≤ d * 2)) := by
        simp [initLoop, hc]
      rw [heq, hmod]
      have hdec : decide (U32 ≤ d * 2) = false := decide_eq_false (not_le.mpr hdu)
      rw [hdec, Bool.or_false]
      exact hih
    · push_neg at hc
      have heq : initLoop (f + 1) d mw mh = (d, false) := by
        simp [initLoop, not_or.mpr ⟨not_lt.mpr hc.1, not_lt.mpr hc.2⟩]
      rw [heq]
      refine ⟨rfl, hc.1, hc.2, hd, ?_⟩
      intro m hm hmw2 hmh2
      by_contra hlt
      push_neg at hlt
      rcases hmin m hm hlt with h | h
      · exact absurd hmw2 (not_le.mpr h)
      · exact absurd hmh2 (not_le.mpr h)

lemma initLoop_false (f : Nat) :
    ∀ d mw mh : Nat, (∃ k, d = 16 * 2 ^ k) →
    (initLoop f d mw mh).2 = false →
    mw ≤ (initLoop f d mw mh).1 ∧ mh ≤ (initLoop f d mw mh).1 ∧
    (∃ k, (initLoop f d mw mh).1 = 16 * 2 ^ k) := by
  induction f with
  | zero =>
    intro d mw mh hd hfl
    simp only [initLoop, Bool.or_eq_false_iff, decide_eq_false_iff_not, not_lt] at hfl
    exact ⟨hfl.1, hfl.2, hd⟩
  | succ f ih =>
    intro d mw mh hd hfl
    by_cases hc : d < mw ∨ d < mh
    · have heq : initLoop (f + 1) d mw mh =
          ((initLoop f ((d * 2) % U32) mw mh).1,
            (initLoop f ((d * 2) % U32) mw mh).2 || decide (U32 ≤ d * 2)) := by
        simp [initLoop, hc]
      rw [heq] at hfl ⊢
      simp only [Bool.or_eq_false_iff, decide_eq_false_iff_not, not_le] at hfl
      have hmod : (d * 2) % U32 = d * 2 := Nat.mod_eq_of_lt hfl.2
      obtain ⟨k, hk⟩ := hd
      have := ih ((d * 2) % U32) mw mh ⟨k + 1, by rw [hmod, hk]; ring⟩ hfl.1
      exact this
    · have heq : initLoop (f + 1) d mw mh = (d, false) := by
        push_neg at hc
        simp [initLoop, not_or.mpr ⟨not_lt.mpr hc.1, not_lt.mpr hc.2⟩]
      rw [heq]
      push_neg at hc
      exact ⟨hc.1, hc.2, hd⟩

/-- `overflow = false` after construction already forces the minimum sizes
to have been representable and the loop to have terminated cleanly. -/
lemma mkAtlas_false_dims (tw th : Nat) (hov : (mkAtlas tw th).overflow = false) :
    tw + padding ≤ (mkAtlas tw th).atlas_dimension ∧
    th + padding ≤ (mkAtlas tw th).atlas_dimension ∧
    (∃ k, (mkAtlas tw th).atlas_dimension = 16 * 2 ^ k) := by
  unfold mkAtlas at hov ⊢
  dsimp only at hov ⊢
  simp only [Bool.or_eq_false_iff, decide_eq_false_iff_not, not_le] at hov
  have hmw : (tw + padding) % U32 = tw + padding := Nat.mod_eq_of_lt hov.1.2
  have hmh : (th + padding) % U32 = th + padding := Nat.mod_eq_of_lt hov.2
  rw [hmw, hmh] at hov ⊢
  exact initLoop_false 64 16 (tw + padding) (th + padding) ⟨0, by norm_num⟩ hov.1.1

lemma mkAtlas_dim (tw th : Nat) (h1 : tw + padding ≤ 2 ^ 31)
    (h2 : th + padding ≤ 2 ^ 31) :
    (mkAtlas tw th).overflow = false ∧
    (∃ k, (mkAtlas tw th).atlas_dimension = 16 * 2 ^ k) ∧
    tw + padding ≤ (mkAtlas tw th).atlas_dimension ∧
    th + padding ≤ (mkAtlas tw th).atlas_dimension ∧
    (∀ m, (∃ i, m = 16 * 2 ^ i) → tw + padding ≤ m → th + padding ≤ m →
      (mkAtlas tw th).atlas_dimension ≤ m) := by
  have hu : (2 : Nat) ^ 31 < U32 := by rw [U32_eq]; norm_num
  have hmw : (tw + padding) % U32 = tw + padding :=
    Nat.mod_eq_of_lt (lt_of_le_of_lt h1 hu)
  have hmh : (th + padding) % U32 = th + padding :=
    Nat.mod_eq_of_lt (lt_of_le_of_lt h2 hu)
  have hmin : ∀ m, (∃ i, m = 16 * 2 ^ i) → m < 16 → m < tw + padding ∨ m < th + padding := by
    intro m hm hlt
    obtain ⟨i, hi⟩ := hm
    have : (16 : Nat) ≤ m := by
      rw [hi]
      calc (16 : Nat) = 16 * 1 := by norm_num
      _ ≤ 16 * 2 ^ i := Nat.mul_le_mul_left 16 (Nat.one_le_two_pow)
    omega
  have hfw : tw + padding ≤ 16 * 2 ^ 64 := le_trans h1 (by norm_num)
  have hfh : th + padding ≤ 16 * 2 ^ 64 := le_trans h2 (by norm_num)
  have hspec := initLoop_spec 64 16 (tw + padding) (th + padding) ⟨0, by norm_num⟩
    hmin h1 h2 hfw hfh
  unfold mkAtlas
  dsimp only
  rw [hmw, hmh]
  refine ⟨?_, hspec.2.2.2.1, hspec.2.1, hspec.2.2.1, hspec.2.2.2.2⟩
  rw [hspec.1]
  simp only [Bool.false_or, Bool.or_eq_false_iff, decide_eq_false_iff_not, not_le]
  exact ⟨lt_of_le_of_lt h1 hu, lt_of_le_of_lt h2 hu⟩

/-! ## Trace-level dimension lemmas -/

lemma runA_append (p : APack) (l1 l2 : List AOp) :
    runA p (l1 ++ l2) = runA (runA p l1) l2 := by
  simp [runA, List.foldl_append]

lemma runA_cons (p : APack) (op : AOp) (rest : List AOp) :
    runA p (op :: rest) = runA (stepA p op) rest := rfl

lemma runA_pow2 (p : APack) (ops : List AOp)
    (hpow : ∃ k, p.atlas.atlas_dimension = 16 * 2 ^ k)
    (hov : (runA p ops).atlas.overflow = false) :
    ∃ k, (runA p ops).atlas.atlas_dimension = 16 * 2 ^ k := by
  induction ops generalizing p with
  | nil => exact hpow
  | cons op rest ih =>
    rw [runA_cons] at hov ⊢
    have hstepov : (stepA p op).atlas.overflow = false :=
      runA_overflow_rev _ _ hov
    obtain ⟨k, hk⟩ := hpow
    rcases stepA_dim p op hstepov with hdim | hdim
    · exact ih (stepA p op) ⟨k, hdim.trans hk⟩ hov
    · exact ih (stepA p op) ⟨k + 1, by rw [hdim, hk]; ring⟩ hov

/-! ## Characterising the pixel-copy loops -/

lemma atlasOffset_decode (dim tox toy x y c : Nat) (hcol : tox + x < dim) (hc : c < 4) :
    (atlasOffset dim tox toy x y + c) % 4 = c ∧
    ((atlasOffset dim tox toy x y + c) / 4) % dim = tox + x ∧
    ((atlasOffset dim tox toy x y + c) / 4) / dim = toy + y := by
  have hdim : 0 < dim := lt_of_le_of_lt (Nat.zero_le _) hcol
  have h4 : atlasOffset dim tox toy x y + c =
      4 * ((tox + x) + (toy + y) * dim) + c := by
    unfold atlasOffset; ring
  rw [h4]
  refine ⟨?_, ?_, ?_⟩
  · rw [Nat.mul_add_mod]
    exact Nat.mod_eq_of_lt hc
  · rw [Nat.mul_add_div (by norm_num), Nat.div_eq_of_lt hc, Nat.add_zero,
      Nat.add_mul_mod_self_right]
    exact Nat.mod_eq_of_lt hcol
  · rw [Nat.mul_add_div (by norm_num), Nat.div_eq_of_lt hc, Nat.add_zero,
      Nat.add_mul_div_right _ _ hdim, Nat.div_eq_of_lt hcol, Nat.zero_add]

lemma atlasOffset_inj (dim tox toy x y c tox2 toy2 x2 y2 c2 : Nat)
    (h1 : tox + x < dim) (h2 : tox2 + x2 < dim) (hc : c < 4) (hc2 : c2 < 4)
    (he : atlasOffset dim tox toy x y + c = atlasOffset dim tox2 toy2 x2 y2 + c2) :
    tox + x = tox2 + x2 ∧ toy + y = toy2 + y2 ∧ c = c2 := by
  have d1 := atlasOffset_decode dim tox toy x y c h1 hc
  have d2 := atlasOffset_decode dim tox2 toy2 x2 y2 c2 h2 hc2
  rw [he] at d1
  exact ⟨d1.2.1.symm.trans d2.2.1, d1.2.2.symm.trans d2.2.2, d1.1.symm.trans d2.1⟩

lemma atlasOffset_le (dim tox toy : Nat) (x y x2 y2 : Nat) (hx : x ≤ x2) (hy : y ≤ y2) :
    atlasOffset dim tox toy x y ≤ atlasOffset dim tox toy x2 y2 := by
  unfold atlasOffset
  have h1 : (tox + x) * 4 ≤ (tox + x2) * 4 :=
    Nat.mul_le_mul_right 4 (Nat.add_le_add_left hx tox)
  have h2 : ((toy + y) * dim) * 4 ≤ ((toy + y2) * dim) * 4 :=
    Nat.mul_le_mul_right 4 (Nat.mul_le_mul_right dim (Nat.add_le_add_left hy toy))
  omega

lemma tileOffset_le (tw : Nat) (x y x2 y2 : Nat) (hx : x ≤ x2) (hy : y ≤ y2) :
    tileOffset tw x y ≤ tileOffset tw x2 y2 := by
  unfold tileOffset
  have h1 : y * 4 * tw ≤ y2 * 4 * tw :=
    Nat.mul_le_mul_right tw (Nat.mul_le_mul_right 4 hy)
  omega

/-- With `copyOverflow = false`, every index the loops compute is below 2^32. -/
lemma copyOverflow_bounds (dim tox toy tw th : Nat)
    (hc : copyOverflow dim tox toy tw th = false) :
    ∀ x, x < tw → ∀ y, y < th →
      atlasOffset dim tox toy x y + 3 < U32 ∧ tileOffset tw x y + 3 < U32 := by
  intro x hx y hy
  have htw : 0 < tw := lt_of_le_of_lt (Nat.zero_le _) hx
  have hth : 0 < th := lt_of_le_of_lt (Nat.zero_le _) hy
  unfold copyOverflow at hc
  rw [decide_eq_true htw, decide_eq_true hth, Bool.true_and, Bool.true_and] at hc
  simp only [Bool.or_eq_false_iff, decide_eq_false_iff_not, not_le] at hc
  constructor
  · have hmono := atlasOffset_le dim tox toy x y (tw - 1) (th - 1) (by omega) (by omega)
    omega
  · have hmono := tileOffset_le tw x y (tw - 1) (th - 1) (by omega) (by omega)
    omega

lemma writePixel_at (dim tox toy tw : Nat) (src d : Nat → Nat) (x y c : Nat)
    (hc : c < 4)
    (hao : atlasOffset dim tox toy x y + 3 < U32)
    (hto : tileOffset tw x y + 3 < U32) :
    writePixel dim tox toy tw src d x y (atlasOffset dim tox toy x y + c) =
      src (tileOffset tw x y + c) := by
  unfold writePixel
  have m0 : ∀ k, k ≤ 3 → (atlasOffset dim tox toy x y + k) % U32 =
      atlasOffset dim tox toy x y + k := fun k hk => Nat.mod_eq_of_lt (by omega)
  have m1 : ∀ k, k ≤ 3 → (tileOffset tw x y + k) % U32 = tileOffset tw x y + k :=
    fun k hk => Nat.mod_eq_of_lt (by omega)
  rw [m0 0 (by norm_num), m0 1 (by norm_num), m0 2 (by norm_num), m0 3 (by norm_num),
    m1 0 (by norm_num), m1 1 (by norm_num), m1 2 (by norm_num), m1 3 (by norm_num)]
  interval_cases c
  · rw [bstore_ne _ _ _ _ (by omega), bstore_ne _ _ _ _ (by omega),
      bstore_ne _ _ _ _ (by omega)]
    simp [bstore]
  · rw [bstore_ne _ _ _ _ (by omega), bstore_ne _ _ _ _ (by omega), bstore_same]
  · rw [bstore_ne _ _ _ _ (by omega), bstore_same]
  · rw [bstore_same]

lemma writePixel_ne (dim tox toy tw : Nat) (src d : Nat → Nat) (x y : Nat) (j : Nat)
    (hao : atlasOffset dim tox toy x y + 3 < U32)
    (hj : ∀ c, c < 4 → j ≠ atlasOffset dim tox toy x y + c) :
    writePixel dim tox toy tw src d x y j = d j := by
  unfold writePixel
  have m0 : ∀ k, k ≤ 3 → (atlasOffset dim tox toy x y + k) % U32 =
      atlasOffset dim tox toy x y + k := fun k hk => Nat.mod_eq_of_lt (by omega)
  rw [m0 0 (by norm_num), m0 1 (by norm_num), m0 2 (by norm_num), m0 3 (by norm_num)]
  rw [bstore_ne _ _ _ _ (hj 3 (by norm_num)), bstore_ne _ _ _ _ (hj 2 (by norm_num)),
    bstore_ne _ _ _ _ (hj 1 (by norm_num)), bstore_ne _ _ _ _ (by
      have := hj 0 (by norm_num)
      simpa using this)]

/-- The first `m` rows of the copy loop. -/
def rowsCopy (dim tox toy tw : Nat) (src : Nat → Nat) (d : Nat → Nat) (m : Nat) :
    Nat → Nat :=
  (List.range m).foldl
    (fun acc y => (List.range tw).foldl
      (fun acc2 x => writePixel dim tox toy tw src acc2 x y) acc) d

lemma writeTileData_eq_rowsCopy (dim tox toy tw th : Nat) (src d : Nat → Nat) :
    writeTileData dim tox toy tw th src d = rowsCopy dim tox toy tw src d th := rfl

/-- One row of the copy loop, first `n` columns. -/
def rowCopy (dim tox toy tw : Nat) (src : Nat → Nat) (y : Nat) (d : Nat → Nat)
    (n : Nat) : Nat → Nat :=
  (List.range n).foldl (fun acc2 x => writePixel dim tox toy tw src acc2 x y) d

lemma rowsCopy_succ (dim tox toy tw : Nat) (src d : Nat → Nat) (m : Nat) :
    rowsCopy dim tox toy tw src d (m + 1) =
      rowCopy dim tox toy tw src m (rowsCopy dim tox toy tw src d m) tw := by
  unfold rowsCopy rowCopy
  rw [List.range_succ, List.foldl_append]
  rfl

lemma rowCopy_succ (dim tox toy tw : Nat) (src : Nat → Nat) (y : Nat) (d : Nat → Nat)
    (n : Nat) :
    rowCopy dim tox toy tw src y d (n + 1) =
      writePixel dim tox toy tw src (rowCopy dim tox toy tw src y d n) n y := by
  unfold rowCopy
  rw [List.range_succ, List.foldl_append]
  rfl

lemma rowCopy_ne (dim tox toy tw : Nat) (src : Nat → Nat) (y : Nat) (d : Nat → Nat)
    (n : Nat) (j : Nat)
    (hb : ∀ x, x < n → atlasOffset dim tox toy x y + 3 < U32 ∧
      tileOffset tw x y + 3 < U32)
    (hj : ∀ x, x < n → ∀ c, c < 4 → j ≠ atlasOffset dim tox toy x y + c) :
    rowCopy dim tox toy tw src y d n j = d j := by
  induction n with
  | zero => rfl
  | succ n ih =>
    rw [rowCopy_succ, writePixel_ne _ _ _ _ _ _ _ _ _ (hb n (by omega)).1
      (hj n (by omega))]
    exact ih (fun x hx => hb x (by omega)) (fun x hx => hj x (by omega))

lemma rowCopy_at (dim tox toy tw : Nat) (src : Nat → Nat) (y : Nat) (d : Nat → Nat)
    (n : Nat) (x c : Nat) (hx : x < n) (hn : n ≤ tw) (hc : c < 4)
    (hfit : tox + tw ≤ dim)
    (hb : ∀ x2, x2 < n → atlasOffset dim tox toy x2 y + 3 < U32 ∧
      tileOffset tw x2 y + 3 < U32) :
    rowCopy dim tox toy tw src y d n (atlasOffset dim tox toy x y + c) =
      src (tileOffset tw x y + c) := by
  induction n with
  | zero => omega
  | succ n ih =>
    rw [rowCopy_succ]
    by_cases hxn : x = n
    · subst hxn
      exact writePixel_at _ _ _ _ _ _ _ _ _ hc (hb x (by omega)).1 (hb x (by omega)).2
    · have hxlt : x < n := by omega
      rw [writePixel_ne _ _ _ _ _ _ _ _ _ (hb n (by omega)).1 ?hne]
      · exact ih hxlt (by omega) (fun x2 hx2 => hb x2 (by omega))
      case hne =>
        intro c2 hc2 heq
        have hcol1 : tox + x < dim := by omega
        have hcol2 : tox + n < dim := by omega
        have := atlasOffset_inj dim tox toy x y c tox toy n y c2 hcol1 hcol2 hc hc2 heq
        omega

lemma rowsCopy_ne (dim tox toy tw : Nat) (src d : Nat → Nat) (m : Nat) (j : Nat)
    (hb : ∀ x, x < tw → ∀ y, y < m → atlasOffset dim tox toy x y + 3 < U32 ∧
      tileOffset tw x y + 3 < U32)
    (hj : ∀ x, x < tw → ∀ y, y < m → ∀ c, c < 4 →
      j ≠ atlasOffset dim tox toy x y + c) :
    rowsCopy dim tox toy tw src d m j = d j := by
  induction m with
  | zero => rfl
  | succ m ih =>
    rw [rowsCopy_succ]
    rw [rowCopy_ne _ _ _ _ _ _ _ _ _ (fun x hx => hb x hx m (by omega))
      (fun x hx => hj x hx m (by omega))]
    exact ih (fun x hx y hy => hb x hx y (by omega)) (fun x hx y hy => hj x hx y (by omega))

lemma rowsCopy_at (dim tox toy tw : Nat) (src d : Nat → Nat) (m : Nat) (x y c : Nat)
    (hx : x < tw) (hy : y < m) (hc : c < 4) (hfit : tox + tw ≤ dim)
    (hb : ∀ x2, x2 < tw → ∀ y2, y2 < m → atlasOffset dim tox toy x2 y2 + 3 < U32 ∧
      tileOffset tw x2 y2 + 3 < U32) :
    rowsCopy dim tox toy tw src d m (atlasOffset dim tox toy x y + c) =
      src (tileOffset tw x y + c) := by
  induction m with
  | zero => omega
  | succ m ih =>
    rw [rowsCopy_succ]
    by_cases hym : y = m
    · subst hym
      exact rowCopy_at _ _ _ _ _ _ _ _ _ _ hx le_rfl hc hfit
        (fun x2 hx2 => hb x2 hx2 y (by omega))
    · have hylt : y < m := by omega
      rw [rowCopy_ne _ _ _ _ _ _ _ _ _ (fun x2 hx2 => hb x2 hx2 m (by omega)) ?hne]
      · exact ih hylt (fun x2 hx2 y2 hy2 => hb x2 hx2 y2 (by omega))
      case hne =>
        intro x2 hx2 c2 hc2 heq
        have hcol1 : tox + x < dim := by omega
        have hcol2 : tox + x2 < dim := by omega
        have := atlasOffset_inj dim tox toy x y c tox toy x2 m c2 hcol1 hcol2 hc hc2 heq
        omega

/-- Reading back the just-written tile block. -/
lemma writeTileData_at (dim tox toy tw th : Nat) (src d : Nat → Nat) (x y c : Nat)
    (hx : x < tw) (hy : y < th) (hc : c < 4) (hfit : tox + tw ≤ dim)
    (hcov : copyOverflow dim tox toy tw th = false) :
    writeTileData dim tox toy tw th src d (atlasOffset dim tox toy x y + c) =
      src (tileOffset tw x y + c) := by
  rw [writeTileData_eq_rowsCopy]
  exact rowsCopy_at dim tox toy tw src d th x y c hx hy hc hfit
    (fun x2 hx2 y2 hy2 => copyOverflow_bounds dim tox toy tw th hcov x2 hx2 y2 hy2)

/-- The copy loops leave every byte outside the written block unchanged. -/
lemma writeTileData_ne (dim tox toy tw th : Nat) (src d : Nat → Nat) (j : Nat)
    (hcov : copyOverflow dim tox toy tw th = false)
    (hj : ∀ x, x < tw → ∀ y, y < th → ∀ c, c < 4 →
      j ≠ atlasOffset dim tox toy x y + c) :
    writeTileData dim tox toy tw th src d j = d j := by
  rw [writeTileData_eq_rowsCopy]
  exact rowsCopy_ne dim tox toy tw src d th j
    (fun x hx y hy => copyOverflow_bounds dim tox toy tw th hcov x hx y hy) hj

/-- The main path of `copy_to_data` (no fatal, matching dimensions), with
every intermediate `let` spelled out. -/
lemma copy_to_data_eq (h : Heap) (a : AtlasM) (url : String) (tid : Nat) (img : Image)
    (hf : a.fatal = none) (hw : img.width = a.tile_width)
    (hht : img.height = a.tile_height) :
    copy_to_data h a url (some tid) (some img) =
      (assocSet h tid
        ⟨a.atlas_image_id,
          (a.offset_x : ℚ) / (a.atlas_dimension : ℚ),
          (a.offset_y : ℚ) / (a.atlas_dimension : ℚ),
          (((a.offset_x + a.tile_width) % U32 : Nat) : ℚ) / (a.atlas_dimension : ℚ),
          (((a.offset_y + a.tile_height) % U32 : Nat) : ℚ) / (a.atlas_dimension : ℚ)⟩,
       { a with
         dirty := true
         data := writeTileData a.atlas_dimension a.offset_x a.offset_y a.tile_width
           a.tile_height img.data a.data
         offset_x :=
           if decide (a.atlas_dimension <
               ((a.offset_x + a.tile_width + padding) % U32 + a.tile_width) % U32) = true
           then 0 else (a.offset_x + a.tile_width + padding) % U32
         offset_y :=
           if decide (a.atlas_dimension <
               ((a.offset_x + a.tile_width + padding) % U32 + a.tile_width) % U32) = true
           then (a.offset_y + a.tile_height + padding) % U32 else a.offset_y
         placements := ⟨url, a.offset_x, a.offset_y, img.data⟩ :: a.placements
         overflow := a.overflow ||
           (decide (U32 ≤ a.offset_x + a.tile_width + padding) ||
            decide (U32 ≤ (a.offset_x + a.tile_width + padding) % U32 + a.tile_width) ||
            (decide (a.atlas_dimension <
               ((a.offset_x + a.tile_width + padding) % U32 + a.tile_width) % U32) &&
             decide (U32 ≤ a.offset_y + a.tile_height + padding)) ||
            copyOverflow a.atlas_dimension a.offset_x a.offset_y a.tile_width
              a.tile_height ||
            decide (U32 ≤ a.offset_x + a.tile_width) ||
            decide (U32 ≤ a.offset_y + a.tile_height)) }) := by
  have hcond : ¬(img.width ≠ a.tile_width ∨ img.height ≠ a.tile_height) := by
    simp [hw, hht]
  unfold copy_to_data
  rw [if_neg (by simp [hf] : ¬ a.fatal.isSome = true)]
  dsimp only
  rw [if_neg hcond]

/-- Full characterisation of a successful `copy_to_data` call whose uint32
arithmetic did not wrap: the ghost placement pushed, the buffer described by
`writeTileData`, the finalised tile in the heap with exact UV fractions, and
the exact cursor advance with its row wrap. -/
lemma copy_to_data_spec (h : Heap) (a : AtlasM) (url : String) (tid : Nat) (img : Image)
    (hf : a.fatal = none) (hw : img.width = a.tile_width)
    (hht : img.height = a.tile_height)
    (hov : ((copy_to_data h a url (some tid) (some img)).2).overflow = false) :
    (copy_to_data h a url (some tid) (some img)).2.placements =
      ⟨url, a.offset_x, a.offset_y, img.data⟩ :: a.placements ∧
    (copy_to_data h a url (some tid) (some img)).2.dirty = true ∧
    (copy_to_data h a url (some tid) (some img)).2.fatal = none ∧
    (copy_to_data h a url (some tid) (some img)).2.data =
      writeTileData a.atlas_dimension a.offset_x a.offset_y a.tile_width a.tile_height
        img.data a.data ∧
    copyOverflow a.atlas_dimension a.offset_x a.offset_y a.tile_width a.tile_height =
      false ∧
    (copy_to_data h a url (some tid) (some img)).1 = assocSet h tid
      ⟨a.atlas_image_id,
        (a.offset_x : ℚ) / (a.atlas_dimension : ℚ),
        (a.offset_y : ℚ) / (a.atlas_dimension : ℚ),
        ((a.offset_x + a.tile_width : Nat) : ℚ) / (a.atlas_dimension : ℚ),
        ((a.offset_y + a.tile_height : Nat) : ℚ) / (a.atlas_dimension : ℚ)⟩ ∧
    ((a.atlas_dimension < a.offset_x + a.tile_width + padding + a.tile_width →
      (copy_to_data h a url (some tid) (some img)).2.offset_x = 0 ∧
      (copy_to_data h a url (some tid) (some img)).2.offset_y =
        a.offset_y + a.tile_height + padding) ∧
     (¬ a.atlas_dimension < a.offset_x + a.tile_width + padding + a.tile_width →
      (copy_to_data h a url (some tid) (some img)).2.offset_x =
        a.offset_x + a.tile_width + padding ∧
      (copy_to_data h a url (some tid) (some img)).2.offset_y = a.offset_y)) := by
  have heq := copy_to_data_eq h a url tid img hf hw hht
  rw [heq] at hov ⊢
  simp only at hov
  simp only [Bool.or_eq_false_iff, Bool.and_eq_false_iff, decide_eq_false_iff_not,
    not_le] at hov
  obtain ⟨hov0, ⟨⟨⟨⟨h1, h2⟩, h3⟩, h4⟩, h5⟩, h6⟩ := hov
  have hmOx : (a.offset_x + a.tile_width + padding) % U32 =
      a.offset_x + a.tile_width + padding := Nat.mod_eq_of_lt h1
  have hmCmp : ((a.offset_x + a.tile_width + padding) % U32 + a.tile_width) % U32 =
      a.offset_x + a.tile_width + padding + a.tile_width := by
    rw [hmOx] at h2 ⊢
    exact Nat.mod_eq_of_lt h2
  have hmX2 : (a.offset_x + a.tile_width) % U32 = a.offset_x + a.tile_width :=
    Nat.mod_eq_of_lt h5
  have hmY2 : (a.offset_y + a.tile_height) % U32 = a.offset_y + a.tile_height :=
    Nat.mod_eq_of_lt h6
  have hcov : copyOverflow a.atlas_dimension a.offset_x a.offset_y a.tile_width
      a.tile_height = false := by
    cases hcpo : copyOverflow a.atlas_dimension a.offset_x a.offset_y a.tile_width
      a.tile_height with
    | false => rfl
    | true => exact absurd hcpo (by simp [h4])
  refine ⟨rfl, rfl, hf, rfl, hcov, ?_, ?_, ?_⟩
  · rw [hmX2, hmY2]
  · intro hdim
    have hwr : decide (a.atlas_dimension <
        ((a.offset_x + a.tile_width + padding) % U32 + a.tile_width) % U32) = true := by
      rw [hmCmp]
      exact decide_eq_true hdim
    simp only [if_pos hwr]
    refine ⟨trivial, ?_⟩
    rcases h3 with h3 | h3
    · exact absurd hwr (by rw [decide_eq_false h3]; simp)
    · exact Nat.mod_eq_of_lt h3
  · intro hdim
    have hwr : decide (a.atlas_dimension <
        ((a.offset_x + a.tile_width + padding) % U32 + a.tile_width) % U32) = false := by
      rw [hmCmp]
      exact decide_eq_false hdim
    have hwrn : ¬ decide (a.atlas_dimension <
        ((a.offset_x + a.tile_width + padding) % U32 + a.tile_width) % U32) = true := by
      rw [hwr]
      simp
    simp only [if_neg hwrn]
    exact ⟨hmOx, trivial⟩

/-! ## The packing invariant -/

/-- Strict lexicographic order on (row, column) pairs. -/
def lexLt (p q : Nat × Nat) : Prop := p.1 < q.1 ∨ (p.1 = q.1 ∧ p.2 < q.2)

lemma lexLt_trans {p q r : Nat × Nat} (h1 : lexLt p q) (h2 : lexLt q r) : lexLt p r := by
  unfold lexLt at h1 h2 ⊢
  omega

lemma lexLt_ne {p q : Nat × Nat} (h : lexLt p q) : p ≠ q := by
  unfold lexLt at h
  intro he
  rw [he] at h
  omega

/-- A placement is grid-aligned and fits a row of a buffer of the given
dimension. -/
def alignedP (tw th dim : Nat) (r : Prec) : Prop :=
  (∃ i, r.px = i * (tw + padding)) ∧
  (∃ j, r.py = j * (th + padding)) ∧
  r.px + tw ≤ dim

/-- The buffer holds the placed bytes throughout the placed block. -/
def contentAt (dim tw th : Nat) (dat : Nat → Nat) (r : Prec) : Prop :=
  ∀ x, x < tw → ∀ y, y < th → ∀ c, c < 4 →
    dat (atlasOffset dim r.px r.py x y + c) = r.bytes (tileOffset tw x y + c)

lemma mul_grid_cancel (S x x2 i i2 : Nat) (hx : x < S) (hx2 : x2 < S)
    (he : i * S + x = i2 * S + x2) : i = i2 ∧ x = x2 := by
  have hS : 0 < S := lt_of_le_of_lt (Nat.zero_le _) hx
  have h1 : (i * S + x) / S = i := by
    rw [Nat.mul_comm i S, Nat.mul_add_div hS, Nat.div_eq_of_lt hx, Nat.add_zero]
  have h2 : (i2 * S + x2) / S = i2 := by
    rw [Nat.mul_comm i2 S, Nat.mul_add_div hS, Nat.div_eq_of_lt hx2, Nat.add_zero]
  have hi : i = i2 := by rw [← h1, ← h2, he]
  subst hi
  omega

/-- Two distinct grid-aligned placements write to disjoint sets of flat
buffer indices. -/
lemma region_indices_disjoint (dim tw th px py ox oy : Nat)
    (hpx : ∃ i, px = i * (tw + padding)) (hpy : ∃ j, py = j * (th + padding))
    (hox : ∃ i, ox = i * (tw + padding)) (hoy : ∃ j, oy = j * (th + padding))
    (hpfit : px + tw ≤ dim) (hofit : ox + tw ≤ dim)
    (hne : ¬(px = ox ∧ py = oy))
    (x y c x2 y2 c2 : Nat) (hx : x < tw) (hy : y < th) (hc : c < 4)
    (hx2 : x2 < tw) (hy2 : y2 < th) (hc2 : c2 < 4) :
    atlasOffset dim px py x y + c ≠ atlasOffset dim ox oy x2 y2 + c2 := by
  intro he
  have hi := atlasOffset_inj dim px py x y c ox oy x2 y2 c2 (by omega) (by omega)
    hc hc2 he
  obtain ⟨i, hpxe⟩ := hpx
  obtain ⟨j, hpye⟩ := hpy
  obtain ⟨i2, hoxe⟩ := hox
  obtain ⟨j2, hoye⟩ := hoy
  have hxcol : i * (tw + padding) + x = i2 * (tw + padding) + x2 := by
    rw [← hpxe, ← hoxe]; exact hi.1
  have hyrow : j * (th + padding) + y = j2 * (th + padding) + y2 := by
    rw [← hpye, ← hoye]; exact hi.2.1
  have hcx := mul_grid_cancel (tw + padding) x x2 i i2 (by unfold padding; omega)
    (by unfold padding; omega) hxcol
  have hcy := mul_grid_cancel (th + padding) y y2 j j2 (by unfold padding; omega)
    (by unfold padding; omega) hyrow
  exact hne ⟨by rw [hpxe, hoxe, hcx.1], by rw [hpye, hoye, hcy.1]⟩

/-- A successful, overflow-free `copy_to_data` at the cursor preserves the
whole geometric/content invariant, pushes the expected ghost placement, and
finalises the expected tile value in the heap. -/
lemma copy_core (h : Heap) (a : AtlasM) (url : String) (tid : Nat) (img : Image)
    (hf : a.fatal = none) (hw : img.width = a.tile_width)
    (hht : img.height = a.tile_height)
    (hov : ((copy_to_data h a url (some tid) (some img)).2).overflow = false)
    (hdimW : a.tile_width + padding ≤ a.atlas_dimension)
    (hdimH : a.tile_height + padding ≤ a.atlas_dimension)
    (hcurAX : ∃ i, a.offset_x = i * (a.tile_width + padding))
    (hcurAY : ∃ j, a.offset_y = j * (a.tile_height + padding))
    (hcurFit : a.offset_x + a.tile_width ≤ a.atlas_dimension)
    (hplA : ∀ r ∈ a.placements, alignedP a.tile_width a.tile_height a.atlas_dimension r)
    (hplLt : ∀ r ∈ a.placements, lexLt (r.py, r.px) (a.offset_y, a.offset_x))
    (hplOrd : a.placements.Pairwise (fun r1 r2 => lexLt (r2.py, r2.px) (r1.py, r1.px)))
    (hcontent : ∀ r ∈ a.placements,
      contentAt a.atlas_dimension a.tile_width a.tile_height a.data r) :
    ((∃ i, (copy_to_data h a url (some tid) (some img)).2.offset_x =
        i * (a.tile_width + padding)) ∧
     (∃ j, (copy_to_data h a url (some tid) (some img)).2.offset_y =
        j * (a.tile_height + padding)) ∧
     (copy_to_data h a url (some tid) (some img)).2.offset_x + a.tile_width ≤
        a.atlas_dimension) ∧
    (∀ r ∈ (copy_to_data h a url (some tid) (some img)).2.placements,
      alignedP a.tile_width a.tile_height a.atlas_dimension r ∧
      lexLt (r.py, r.px)
        ((copy_to_data h a url (some tid) (some img)).2.offset_y,
         (copy_to_data h a url (some tid) (some img)).2.offset_x)) ∧
    (copy_to_data h a url (some tid) (some img)).2.placements.Pairwise
      (fun r1 r2 => lexLt (r2.py, r2.px) (r1.py, r1.px)) ∧
    (∀ r ∈ (copy_to_data h a url (some tid) (some img)).2.placements,
      contentAt a.atlas_dimension a.tile_width a.tile_height
        (copy_to_data h a url (some tid) (some img)).2.data r) ∧
    (copy_to_data h a url (some tid) (some img)).2.placements =
      ⟨url, a.offset_x, a.offset_y, img.data⟩ :: a.placements ∧
    (copy_to_data h a url (some tid) (some img)).1 = assocSet h tid
      ⟨a.atlas_image_id,
        (a.offset_x : ℚ) / (a.atlas_dimension : ℚ),
        (a.offset_y : ℚ) / (a.atlas_dimension : ℚ),
        ((a.offset_x + a.tile_width : Nat) : ℚ) / (a.atlas_dimension : ℚ),
        ((a.offset_y + a.tile_height : Nat) : ℚ) / (a.atlas_dimension : ℚ)⟩ ∧
    (copy_to_data h a url (some tid) (some img)).2.fatal = none := by
  obtain ⟨hpl, hdirty, hfat, hdata, hcov, hheap, hcur⟩ :=
    copy_to_data_spec h a url tid img hf hw hht hov
  have hconst := copy_to_data_const h a url (some tid) (some img)
  have htw := hconst.1
  have hth := hconst.2.1
  have hdim := hconst.2.2.1
  obtain ⟨i0, hox⟩ := hcurAX
  obtain ⟨j0, hoy⟩ := hcurAY
  have hcurInfo :
      ((∃ i, (copy_to_data h a url (some tid) (some img)).2.offset_x =
          i * (a.tile_width + padding)) ∧
       (∃ j, (copy_to_data h a url (some tid) (some img)).2.offset_y =
          j * (a.tile_height + padding)) ∧
       (copy_to_data h a url (some tid) (some img)).2.offset_x + a.tile_width ≤
          a.atlas_dimension) ∧
      lexLt (a.offset_y, a.offset_x)
        ((copy_to_data h a url (some tid) (some img)).2.offset_y,
         (copy_to_data h a url (some tid) (some img)).2.offset_x) := by
    by_cases hwrap : a.atlas_dimension <
        a.offset_x + a.tile_width + padding + a.tile_width
    · obtain ⟨hx, hy⟩ := hcur.1 hwrap
      refine ⟨⟨⟨0, by rw [hx, Nat.zero_mul]⟩, ⟨j0 + 1, by rw [hy, hoy]; ring⟩, ?_⟩, ?_⟩
      · rw [hx]
        omega
      · left
        rw [hy]
        unfold padding
        omega
    · obtain ⟨hx, hy⟩ := hcur.2 hwrap
      push_neg at hwrap
      refine ⟨⟨⟨i0 + 1, by rw [hx, hox]; ring⟩, ⟨j0, by rw [hy, hoy]⟩, ?_⟩, ?_⟩
      · rw [hx]
        omega
      · right
        rw [hy, hx]
        unfold padding
        exact ⟨rfl, by omega⟩
  have hcurAlign := hcurInfo.1
  have hcurLt := hcurInfo.2
  refine ⟨hcurAlign, ?_, ?_, ?_, hpl, hheap, hfat⟩
  · intro r hr
    rw [hpl] at hr
    rcases List.mem_cons.mp hr with hr | hr
    · subst hr
      exact ⟨⟨⟨i0, hox⟩, ⟨j0, hoy⟩, hcurFit⟩, hcurLt⟩
    · exact ⟨hplA r hr, lexLt_trans (hplLt r hr) hcurLt⟩
  · rw [hpl]
    exact List.Pairwise.cons (fun r2 hr2 => hplLt r2 hr2) hplOrd
  · intro r hr
    rw [hpl] at hr
    unfold contentAt
    intro x hx y hy c hc
    rw [hdata]
    rcases List.mem_cons.mp hr with hr | hr
    · subst hr
      exact writeTileData_at a.atlas_dimension a.offset_x a.offset_y a.tile_width
        a.tile_height img.data a.data x y c hx hy hc hcurFit hcov
    · rw [writeTileData_ne a.atlas_dimension a.offset_x a.offset_y a.tile_width
        a.tile_height img.data a.data
        (atlasOffset a.atlas_dimension r.px r.py x y + c) hcov ?hne]
      · exact hcontent r hr x hx y hy c hc
      case hne =>
        intro x2 hx2 y2 hy2 c2 hc2 heq2
        have hA := hplA r hr
        have hLt := hplLt r hr
        exact region_indices_disjoint a.atlas_dimension a.tile_width a.tile_height
          r.px r.py a.offset_x a.offset_y hA.1 hA.2.1 ⟨i0, hox⟩ ⟨j0, hoy⟩ hA.2.2
          hcurFit (by
            intro hcon
            exact lexLt_ne hLt (Prod.ext_iff.mpr ⟨hcon.2, hcon.1⟩))
          x y c x2 y2 c2 hx hy hc hx2 hy2 hc2 heq2

/-- The tile value records exactly the UV rectangle of a placement, at the
given dimension. -/
def uvMatch (tw th dim : Nat) (r : Prec) (t : TileM) : Prop :=
  t.x1 = (r.px : ℚ) / (dim : ℚ) ∧
  t.y1 = (r.py : ℚ) / (dim : ℚ) ∧
  t.x2 = ((r.px + tw : Nat) : ℚ) / (dim : ℚ) ∧
  t.y2 = ((r.py + th : Nat) : ℚ) / (dim : ℚ)

/-- The tile registered for `url` is backed by a placement in the current
buffer whose UV rectangle it carries. -/
def linkAt (h : Heap) (a : AtlasM) (url : String) : Prop :=
  ∀ tid, alookup a.images url = some tid →
    ∃ r ∈ a.placements, r.url = url ∧ ∃ t, alookup h tid = some t ∧
      uvMatch a.tile_width a.tile_height a.atlas_dimension r t

/-- The geometric/content invariant of one atlas. -/
structure CoreInv (a : AtlasM) : Prop where
  dimW : a.tile_width + padding ≤ a.atlas_dimension
  dimH : a.tile_height + padding ≤ a.atlas_dimension
  curAX : ∃ i, a.offset_x = i * (a.tile_width + padding)
  curAY : ∃ j, a.offset_y = j * (a.tile_height + padding)
  curFit : a.offset_x + a.tile_width ≤ a.atlas_dimension
  plA : ∀ r ∈ a.placements, alignedP a.tile_width a.tile_height a.atlas_dimension r
  plLt : ∀ r ∈ a.placements, lexLt (r.py, r.px) (a.offset_y, a.offset_x)
  plOrd : a.placements.Pairwise (fun r1 r2 => lexLt (r2.py, r2.px) (r1.py, r1.px))
  content : ∀ r ∈ a.placements,
    contentAt a.atlas_dimension a.tile_width a.tile_height a.data r

/-- The full invariant of a single-atlas run. -/
structure AInv (p : APack) : Prop where
  core : CoreInv p.atlas
  tidBound : ∀ url tid, alookup p.atlas.images url = some tid → tid < p.nextTile
  tidInj : ∀ u1 u2 t, alookup p.atlas.images u1 = some t →
    alookup p.atlas.images u2 = some t → u1 = u2
  link : p.atlas.fatal = none → ∀ url, url ∉ p.atlas.images_to_add →
    linkAt p.heap p.atlas url

lemma alookup_mem_keys {α β : Type} [DecidableEq α] (l : List (α × β)) (u : α) (v : β)
    (h : alookup l u = some v) : u ∈ l.map Prod.fst := by
  induction l with
  | nil => simp [alookup] at h
  | cons p r ih =>
    rw [alookup_cons] at h
    by_cases hp : p.1 = u
    · simp [← hp]
    · rw [if_neg hp] at h
      simp [ih h]

lemma setAllTileIds_pres (imgs : List (String × Nat)) (id : Nat) (h : Heap) (j : Nat)
    (t : TileM) (ht : alookup h j = some t) :
    ∃ t2, alookup (setAllTileIds imgs id h) j = some t2 ∧ t2.x1 = t.x1 ∧
      t2.y1 = t.y1 ∧ t2.x2 = t.x2 ∧ t2.y2 = t.y2 := by
  unfold setAllTileIds
  have := foldl_preserve
    (fun (hh : Heap) (p : String × Nat) =>
      hmodify hh p.2 (fun tt => { tt with atlas_id := id }))
    (fun hh => ∃ t2, alookup hh j = some t2 ∧ t2.x1 = t.x1 ∧ t2.y1 = t.y1 ∧
      t2.x2 = t.x2 ∧ t2.y2 = t.y2)
    ?step imgs h ⟨t, ht, rfl, rfl, rfl, rfl⟩
  · exact this
  case step =>
    intro hh p hb
    obtain ⟨t2, hl, h1, h2, h3, h4⟩ := hb
    rw [alookup_hmodify]
    by_cases hj : j = p.2
    · subst hj
      rw [if_pos rfl, hl]
      exact ⟨{ t2 with atlas_id := id }, rfl, h1, h2, h3, h4⟩
    · rw [if_neg hj]
      exact ⟨t2, hl, h1, h2, h3, h4⟩

/-- Null-tile fatal path of `copy_to_data`. -/
lemma copy_to_data_tid_none (h : Heap) (a : AtlasM) (url : String) (i : Option Image)
    (hf : a.fatal = none) :
    copy_to_data h a url none i = (h, { a with fatal := some "Tile is null" }) := by
  unfold copy_to_data
  rw [if_neg (by simp [hf] : ¬ a.fatal.isSome = true)]

/-- Null-image fatal path of `copy_to_data`. -/
lemma copy_to_data_img_none (h : Heap) (a : AtlasM) (url : String) (tid : Nat)
    (hf : a.fatal = none) :
    copy_to_data h a url (some tid) none =
      (h, { a with fatal := some "Cached image data is null" }) := by
  unfold copy_to_data
  rw [if_neg (by simp [hf] : ¬ a.fatal.isSome = true)]

/-- Dimension-mismatch fatal path of `copy_to_data`. -/
lemma copy_to_data_mismatch (h : Heap) (a : AtlasM) (url : String) (tid : Nat)
    (img : Image) (hf : a.fatal = none)
    (hmis : img.width ≠ a.tile_width ∨ img.height ≠ a.tile_height) :
    copy_to_data h a url (some tid) (some img) =
      (h, { a with
        fatal := some "Image dimensions do not match atlas tile dimensions" }) := by
  unfold copy_to_data
  rw [if_neg (by simp [hf] : ¬ a.fatal.isSome = true)]
  dsimp only
  rw [if_pos hmis]

/-- Any `copy_to_data` call whose result did not overflow preserves the
geometric/content invariant. -/
lemma copy_any_core (h : Heap) (a : AtlasM) (url : String) (t : Option Nat)
    (i : Option Image) (hov : ((copy_to_data h a url t i).2).overflow = false)
    (hc : CoreInv a) : CoreInv (copy_to_data h a url t i).2 := by
  by_cases hf : a.fatal.isSome
  · rw [copy_to_data_frozen h a url t i hf]
    exact hc
  have hf2 : a.fatal = none := Option.not_isSome_iff_eq_none.mp hf
  match t with
  | none =>
    rw [copy_to_data_tid_none h a url i hf2]
    exact ⟨hc.dimW, hc.dimH, hc.curAX, hc.curAY, hc.curFit, hc.plA, hc.plLt,
      hc.plOrd, hc.content⟩
  | some tid =>
    match i with
    | none =>
      rw [copy_to_data_img_none h a url tid hf2]
      exact ⟨hc.dimW, hc.dimH, hc.curAX, hc.curAY, hc.curFit, hc.plA, hc.plLt,
        hc.plOrd, hc.content⟩
    | some img =>
      by_cases hmis : img.width ≠ a.tile_width ∨ img.height ≠ a.tile_height
      · rw [copy_to_data_mismatch h a url tid img hf2 hmis]
        exact ⟨hc.dimW, hc.dimH, hc.curAX, hc.curAY, hc.curFit, hc.plA, hc.plLt,
          hc.plOrd, hc.content⟩
      · push_neg at hmis
        have hcc := copy_core h a url tid img hf2 hmis.1 hmis.2 hov hc.dimW hc.dimH
          hc.curAX hc.curAY hc.curFit hc.plA hc.plLt hc.plOrd hc.content
        have hconst := copy_to_data_const h a url (some tid) (some img)
        refine ⟨?_, ?_, ?_, ?_, ?_, ?_, ?_, ?_, ?_⟩
        · rw [hconst.1, hconst.2.2.1]; exact hc.dimW
        · rw [hconst.2.1, hconst.2.2.1]; exact hc.dimH
        · rw [hconst.1]; exact hcc.1.1
        · rw [hconst.2.1]; exact hcc.1.2.1
        · rw [hconst.1, hconst.2.2.1]; exact hcc.1.2.2
        · rw [hconst.1, hconst.2.1, hconst.2.2.1]
          intro r hr
          exact (hcc.2.1 r hr).1
        · intro r hr
          exact (hcc.2.1 r hr).2
        · exact hcc.2.2.1
        · rw [hconst.1, hconst.2.1, hconst.2.2.1]
          exact hcc.2.2.2.1

lemma repackFold_cons (cache : List (String × Image)) (hp : Heap × AtlasM)
    (u : String) (rest : List String) :
    repackFold cache hp (u :: rest) =
      repackFold cache
        (copy_to_data hp.1 hp.2 u (alookup hp.2.images u) (alookup cache u)) rest := rfl

lemma repackFold_core (cache : List (String × Image)) (q : List String) :
    ∀ hp : Heap × AtlasM, CoreInv hp.2 →
    (repackFold cache hp q).2.overflow = false →
    CoreInv (repackFold cache hp q).2 := by
  induction q with
  | nil => exact fun hp hc _ => hc
  | cons u rest ih =>
    intro hp hc hov
    rw [repackFold_cons] at hov ⊢
    have hov1 := repackFold_overflow_rev _ _ _ hov
    exact ih _ (copy_any_core _ _ _ _ _ hov1 hc) hov

lemma repackFold_link (cache : List (String × Image)) (q : List String) :
    ∀ hp : Heap × AtlasM, CoreInv hp.2 →
    (∀ u1 u2 t2, alookup hp.2.images u1 = some t2 →
      alookup hp.2.images u2 = some t2 → u1 = u2) →
    (repackFold cache hp q).2.fatal = none →
    (repackFold cache hp q).2.overflow = false →
    ∀ url, (url ∈ q ∨ linkAt hp.1 hp.2 url) →
      linkAt (repackFold cache hp q).1 (repackFold cache hp q).2 url := by
  induction q with
  | nil =>
    intro hp _ _ _ _ url hu
    rcases hu with hu | hu
    · exact absurd hu (List.not_mem_nil url)
    · exact hu
  | cons u rest ih =>
    intro hp hc htid hfat hov url hu
    rw [repackFold_cons] at hfat hov ⊢
    have hfat1 := repackFold_fatal_rev _ _ _ hfat
    have hov1 := repackFold_overflow_rev _ _ _ hov
    have hfat0 : hp.2.fatal = none := copy_to_data_fatal_rev _ _ _ _ _ hfat1
    -- the copy for u must have taken the success path
    obtain ⟨tidu, htidu⟩ : ∃ tidu, alookup hp.2.images u = some tidu := by
      cases hx : alookup hp.2.images u with
      | none =>
        rw [hx, copy_to_data_tid_none _ _ _ _ hfat0] at hfat1
        exact absurd hfat1 (by simp)
      | some tidu => exact ⟨tidu, rfl⟩
    obtain ⟨imgu, himgu⟩ : ∃ imgu, alookup cache u = some imgu := by
      cases hx : alookup cache u with
      | none =>
        rw [htidu, hx, copy_to_data_img_none _ _ _ _ hfat0] at hfat1
        exact absurd hfat1 (by simp)
      | some imgu => exact ⟨imgu, rfl⟩
    have hdims : imgu.width = hp.2.tile_width ∧ imgu.height = hp.2.tile_height := by
      by_cases hmis : imgu.width ≠ hp.2.tile_width ∨ imgu.height ≠ hp.2.tile_height
      · rw [htidu, himgu, copy_to_data_mismatch _ _ _ _ _ hfat0 hmis] at hfat1
        exact absurd hfat1 (by simp)
      · push_neg at hmis
        exact hmis
    have hov1e : (copy_to_data hp.1 hp.2 u (some tidu) (some imgu)).2.overflow =
        false := by rw [← htidu, ← himgu]; exact hov1
    have hcc := copy_core hp.1 hp.2 u tidu imgu hfat0 hdims.1 hdims.2 hov1e hc.dimW
      hc.dimH hc.curAX hc.curAY hc.curFit hc.plA hc.plLt hc.plOrd hc.content
    have hconst := copy_to_data_const hp.1 hp.2 u (some tidu) (some imgu)
    have hcs : CoreInv (copy_to_data hp.1 hp.2 u (alookup hp.2.images u)
        (alookup cache u)).2 := copy_any_core _ _ _ _ _ hov1 hc
    have himgeq : (copy_to_data hp.1 hp.2 u (alookup hp.2.images u)
        (alookup cache u)).2.images = hp.2.images := by
      rw [htidu, himgu]
      exact hconst.2.2.2.1
    -- the copy establishes the link for u
    have hestab : linkAt (copy_to_data hp.1 hp.2 u (alookup hp.2.images u)
        (alookup cache u)).1
        (copy_to_data hp.1 hp.2 u (alookup hp.2.images u) (alookup cache u)).2 u := by
      intro tid hlook
      rw [himgeq, htidu] at hlook
      have htideq : tid = tidu := by
        injection hlook with hh
        exact hh.symm
      subst htideq
      rw [htidu, himgu]
      refine ⟨⟨u, hp.2.offset_x, hp.2.offset_y, imgu.data⟩, ?_, rfl, ?_⟩
      · rw [hcc.2.2.2.2.1]
        exact List.mem_cons_self _ _
      · refine ⟨⟨hp.2.atlas_image_id,
          (hp.2.offset_x : ℚ) / (hp.2.atlas_dimension : ℚ),
          (hp.2.offset_y : ℚ) / (hp.2.atlas_dimension : ℚ),
          ((hp.2.offset_x + hp.2.tile_width : Nat) : ℚ) / (hp.2.atlas_dimension : ℚ),
          ((hp.2.offset_y + hp.2.tile_height : Nat) : ℚ) /
            (hp.2.atlas_dimension : ℚ)⟩, ?_, ?_⟩
        · rw [hcc.2.2.2.2.2.1]
          exact alookup_assocSet_self _ _ _
        · rw [hconst.1, hconst.2.1, hconst.2.2.1]
          exact ⟨rfl, rfl, rfl, rfl⟩
    -- links for other urls survive the copy
    have hpres : ∀ url2, linkAt hp.1 hp.2 url2 →
        linkAt (copy_to_data hp.1 hp.2 u (alookup hp.2.images u)
          (alookup cache u)).1
          (copy_to_data hp.1 hp.2 u (alookup hp.2.images u) (alookup cache u)).2
          url2 := by
      intro url2 hl
      by_cases hu2 : url2 = u
      · subst hu2
        exact hestab
      intro tid hlook
      rw [himgeq] at hlook
      obtain ⟨r, hrmem, hrurl, t, htl, huv⟩ := hl tid hlook
      have htidne : tid ≠ tidu := by
        intro heqt
        exact hu2 (htid url2 u tidu (heqt ▸ hlook) htidu)
      refine ⟨r, ?_, hrurl, t, ?_, ?_⟩
      · rw [htidu, himgu, hcc.2.2.2.2.1]
        exact List.mem_cons_of_mem _ hrmem
      · rw [htidu, himgu, hcc.2.2.2.2.2.1, alookup_assocSet_ne _ _ _ _ htidne]
        exact htl
      · rw [htidu, himgu, hconst.1, hconst.2.1, hconst.2.2.1]
        exact huv
    refine ih _ hcs (by rw [himgeq]; exact htid) hfat hov url ?_
    rcases hu with hu | hu
    · rcases List.mem_cons.mp hu with hequ | hu2
      · subst hequ
        exact Or.inr hestab
      · exact Or.inl hu2
    · exact Or.inr (hpres url hu)

/-- The growth trigger of `add_tile` (atlas.cpp:179), in uint32 arithmetic. -/
def growCond (a : AtlasM) : Prop :=
  a.atlas_dimension < (a.offset_x + a.tile_width + padding) % U32 ∨
  a.atlas_dimension < (a.offset_y + a.tile_height + padding) % U32

instance (a : AtlasM) : Decidable (growCond a) := by
  unfold growCond
  infer_instance

/-- The grown atlas state `add_tile` hands to `copy_to_data` when the
growth trigger fires. -/
def grownAtlas (a : AtlasM) (url : String) (tid : Nat) : AtlasM :=
  { a with
    resized := true
    overflow := (a.overflow || decide (U32 ≤ a.offset_x + a.tile_width + padding) ||
      decide (U32 ≤ a.offset_y + a.tile_height + padding)) ||
      decide (U32 ≤ a.atlas_dimension * 2)
    atlas_dimension := a.atlas_dimension * 2 % U32
    data := fun _ => 0
    offset_x := 0
    offset_y := 0
    images_to_add := a.images_to_add ++ a.images.map Prod.fst
    placements := []
    images := assocSet a.images url tid }

/-- The ungrown atlas state `add_tile` hands to `copy_to_data` otherwise. -/
def ungrownAtlas (a : AtlasM) (url : String) (tid : Nat) : AtlasM :=
  { a with
    overflow := a.overflow || decide (U32 ≤ a.offset_x + a.tile_width + padding) ||
      decide (U32 ≤ a.offset_y + a.tile_height + padding)
    images := assocSet a.images url tid }

lemma add_tile_eq_grow (h : Heap) (a : AtlasM) (url : String) (tid : Nat) (img : Image)
    (hf : a.fatal = none) (hg : growCond a) :
    add_tile h a url tid img =
      copy_to_data h (grownAtlas a url tid) url (some tid) (some img) := by
  unfold add_tile grownAtlas
  rw [if_neg (by simp [hf] : ¬ a.fatal.isSome = true)]
  dsimp only
  have hg2 : a.atlas_dimension < (a.offset_x + a.tile_width + padding) % U32 ∨
      a.atlas_dimension < (a.offset_y + a.tile_height + padding) % U32 := hg
  rw [if_pos hg2]

lemma add_tile_eq_nogrow (h : Heap) (a : AtlasM) (url : String) (tid : Nat) (img : Image)
    (hf : a.fatal = none) (hg : ¬ growCond a) :
    add_tile h a url tid img =
      copy_to_data h (ungrownAtlas a url tid) url (some tid) (some img) := by
  unfold add_tile ungrownAtlas
  rw [if_neg (by simp [hf] : ¬ a.fatal.isSome = true)]
  dsimp only
  have hg2 : ¬ (a.atlas_dimension < (a.offset_x + a.tile_width + padding) % U32 ∨
      a.atlas_dimension < (a.offset_y + a.tile_height + padding) % U32) := hg
  rw [if_neg hg2]

lemma coreInv_transfer (a : AtlasM) (m : String) (hc : CoreInv a) :
    CoreInv { a with fatal := some m } :=
  ⟨hc.dimW, hc.dimH, hc.curAX, hc.curAY, hc.curFit, hc.plA, hc.plLt, hc.plOrd,
    hc.content⟩

lemma ungrown_core (a : AtlasM) (url : String) (tid : Nat) (hc : CoreInv a) :
    CoreInv (ungrownAtlas a url tid) :=
  ⟨hc.dimW, hc.dimH, hc.curAX, hc.curAY, hc.curFit, hc.plA, hc.plLt, hc.plOrd,
    hc.content⟩

lemma grown_core (a : AtlasM) (url : String) (tid : Nat) (hc : CoreInv a)
    (hov : (grownAtlas a url tid).overflow = false) :
    CoreInv (grownAtlas a url tid) := by
  have hle : U32 ≤ a.atlas_dimension * 2 → False := by
    intro hcon
    unfold grownAtlas at hov
    simp only [Bool.or_eq_false_iff, decide_eq_false_iff_not] at hov
    exact hov.2 hcon
  have hmod : a.atlas_dimension * 2 % U32 = a.atlas_dimension * 2 :=
    Nat.mod_eq_of_lt (by by_contra hcon; push_neg at hcon; exact hle hcon)
  have hd := hc.dimW
  have hd2 := hc.dimH
  refine ⟨?_, ?_, ⟨0, by simp [grownAtlas]⟩, ⟨0, by simp [grownAtlas]⟩, ?_, ?_, ?_, ?_, ?_⟩
  · show a.tile_width + padding ≤ a.atlas_dimension * 2 % U32
    rw [hmod]
    omega
  · show a.tile_height + padding ≤ a.atlas_dimension * 2 % U32
    rw [hmod]
    omega
  · show 0 + a.tile_width ≤ a.atlas_dimension * 2 % U32
    rw [hmod]
    unfold padding at hd
    omega
  · intro r hr
    exact absurd hr (List.not_mem_nil r)
  · intro r hr
    exact absurd hr (List.not_mem_nil r)
  · exact List.Pairwise.nil
  · intro r hr
    exact absurd hr (List.not_mem_nil r)

lemma assocSet_tidBound (imgs : List (String × Nat)) (url : String) (tid : Nat)
    (hb : ∀ u t, alookup imgs u = some t → t < tid) :
    ∀ u t, alookup (assocSet imgs url tid) u = some t → t < tid + 1 := by
  intro u t hl
  by_cases hu : u = url
  · subst hu
    rw [alookup_assocSet_self] at hl
    injection hl with hh
    omega
  · rw [alookup_assocSet_ne _ _ _ _ hu] at hl
    have := hb u t hl
    omega

lemma assocSet_tidInj (imgs : List (String × Nat)) (url : String) (tid : Nat)
    (hb : ∀ u t, alookup imgs u = some t → t < tid)
    (hinj : ∀ u1 u2 t, alookup imgs u1 = some t → alookup imgs u2 = some t → u1 = u2) :
    ∀ u1 u2 t, alookup (assocSet imgs url tid) u1 = some t →
      alookup (assocSet imgs url tid) u2 = some t → u1 = u2 := by
  intro u1 u2 t h1 h2
  by_cases hx1 : u1 = url <;> by_cases hx2 : u2 = url
  · rw [hx1, hx2]
  · subst hx1
    rw [alookup_assocSet_self] at h1
    rw [alookup_assocSet_ne _ _ _ _ hx2] at h2
    injection h1 with hh
    exact absurd (hb u2 t h2) (by omega)
  · subst hx2
    rw [alookup_assocSet_self] at h2
    rw [alookup_assocSet_ne _ _ _ _ hx1] at h1
    injection h2 with hh
    exact absurd (hb u1 t h1) (by omega)
  · rw [alookup_assocSet_ne _ _ _ _ hx1] at h1
    rw [alookup_assocSet_ne _ _ _ _ hx2] at h2
    exact hinj u1 u2 t h1 h2

/-- `stepA` preserves the run invariant on an `add` operation. -/
lemma AInv_step_add (p : APack) (url : String) (img : Image) (hInv : AInv p)
    (hov : (stepA p (AOp.add url img)).atlas.overflow = false) :
    AInv (stepA p (AOp.add url img)) := by
  show AInv ⟨(add_tile (assocSet p.heap p.nextTile TileM.init) p.atlas url
    p.nextTile img).1, p.nextTile + 1,
    (add_tile (assocSet p.heap p.nextTile TileM.init) p.atlas url p.nextTile img).2⟩
  have hovA : (add_tile (assocSet p.heap p.nextTile TileM.init) p.atlas url
      p.nextTile img).2.overflow = false := hov
  by_cases hf : p.atlas.fatal.isSome
  · rw [add_tile_frozen _ _ _ _ _ hf] at hovA ⊢
    refine ⟨hInv.core, ?_, hInv.tidInj, ?_⟩
    · intro u t hl
      have := hInv.tidBound u t hl
      show t < p.nextTile + 1
      omega
    · intro hfn
      rw [hfn] at hf
      exact absurd hf (by simp)
  have hf2 : p.atlas.fatal = none := Option.not_isSome_iff_eq_none.mp hf
  by_cases hg : growCond p.atlas
  case pos =>
    rw [add_tile_eq_grow _ _ _ _ _ hf2 hg] at hovA ⊢
    have hgfat : (grownAtlas p.atlas url p.nextTile).fatal = none := hf2
    have hgov : (grownAtlas p.atlas url p.nextTile).overflow = false :=
      copy_to_data_overflow_rev _ _ _ _ _ hovA
    have hgcore : CoreInv (grownAtlas p.atlas url p.nextTile) :=
      grown_core p.atlas url p.nextTile hInv.core hgov
    have hcore : CoreInv (copy_to_data (assocSet p.heap p.nextTile TileM.init)
        (grownAtlas p.atlas url p.nextTile) url (some p.nextTile) (some img)).2 :=
      copy_any_core _ _ _ _ _ hovA hgcore
    have hconst := copy_to_data_const (assocSet p.heap p.nextTile TileM.init)
      (grownAtlas p.atlas url p.nextTile) url (some p.nextTile) (some img)
    have himgs : (copy_to_data (assocSet p.heap p.nextTile TileM.init)
        (grownAtlas p.atlas url p.nextTile) url (some p.nextTile) (some img)).2.images =
        assocSet p.atlas.images url p.nextTile := hconst.2.2.2.1
    refine ⟨hcore, ?_, ?_, ?_⟩
    · intro u t hl
      rw [himgs] at hl
      exact assocSet_tidBound _ _ _ hInv.tidBound u t hl
    · intro u1 u2 t h1 h2
      rw [himgs] at h1 h2
      exact assocSet_tidInj _ _ _ hInv.tidBound hInv.tidInj u1 u2 t h1 h2
    · intro hfn url2 hnotin tid2 hlook
      rw [himgs] at hlook
      by_cases hu2 : url2 = url
      · rw [hu2] at hlook ⊢
        rw [alookup_assocSet_self] at hlook
        injection hlook with hh
        rw [← hh]
        by_cases hmis : img.width ≠ (grownAtlas p.atlas url p.nextTile).tile_width ∨
            img.height ≠ (grownAtlas p.atlas url p.nextTile).tile_height
        · rw [copy_to_data_mismatch _ _ _ _ _ hgfat hmis] at hfn
          exact absurd hfn (by simp)
        · push_neg at hmis
          have hcc := copy_core _ (grownAtlas p.atlas url p.nextTile) url p.nextTile
            img hgfat hmis.1 hmis.2 hovA hgcore.dimW hgcore.dimH hgcore.curAX
            hgcore.curAY hgcore.curFit hgcore.plA hgcore.plLt hgcore.plOrd
            hgcore.content
          refine ⟨⟨url, (grownAtlas p.atlas url p.nextTile).offset_x,
            (grownAtlas p.atlas url p.nextTile).offset_y, img.data⟩, ?_, rfl, ?_⟩
          · rw [hcc.2.2.2.2.1]
            exact List.mem_cons_self _ _
          · refine ⟨⟨(grownAtlas p.atlas url p.nextTile).atlas_image_id,
              ((grownAtlas p.atlas url p.nextTile).offset_x : ℚ) /
                ((grownAtlas p.atlas url p.nextTile).atlas_dimension : ℚ),
              ((grownAtlas p.atlas url p.nextTile).offset_y : ℚ) /
                ((grownAtlas p.atlas url p.nextTile).atlas_dimension : ℚ),
              (((grownAtlas p.atlas url p.nextTile).offset_x +
                (grownAtlas p.atlas url p.nextTile).tile_width : Nat) : ℚ) /
                ((grownAtlas p.atlas url p.nextTile).atlas_dimension : ℚ),
              (((grownAtlas p.atlas url p.nextTile).offset_y +
                (grownAtlas p.atlas url p.nextTile).tile_height : Nat) : ℚ) /
                ((grownAtlas p.atlas url p.nextTile).atlas_dimension : ℚ)⟩, ?_, ?_⟩
            · rw [hcc.2.2.2.2.2.1]
              exact alookup_assocSet_self _ _ _
            · rw [hconst.1, hconst.2.1, hconst.2.2.1]
              exact ⟨rfl, rfl, rfl, rfl⟩
      · rw [alookup_assocSet_ne _ _ _ _ hu2] at hlook
        have hmem := alookup_mem_keys _ _ _ hlook
        have hin : url2 ∈ (copy_to_data (assocSet p.heap p.nextTile TileM.init)
            (grownAtlas p.atlas url p.nextTile) url (some p.nextTile)
            (some img)).2.images_to_add := by
          rw [hconst.2.2.2.2.1]
          show url2 ∈ p.atlas.images_to_add ++ p.atlas.images.map Prod.fst
          exact List.mem_append.mpr (Or.inr hmem)
        exact absurd hin hnotin
  case neg =>
    rw [add_tile_eq_nogrow _ _ _ _ _ hf2 hg] at hovA ⊢
    have hufat : (ungrownAtlas p.atlas url p.nextTile).fatal = none := hf2
    have hucore : CoreInv (ungrownAtlas p.atlas url p.nextTile) :=
      ungrown_core p.atlas url p.nextTile hInv.core
    have hcore : CoreInv (copy_to_data (assocSet p.heap p.nextTile TileM.init)
        (ungrownAtlas p.atlas url p.nextTile) url (some p.nextTile) (some img)).2 :=
      copy_any_core _ _ _ _ _ hovA hucore
    have hconst := copy_to_data_const (assocSet p.heap p.nextTile TileM.init)
      (ungrownAtlas p.atlas url p.nextTile) url (some p.nextTile) (some img)
    have himgs : (copy_to_data (assocSet p.heap p.nextTile TileM.init)
        (ungrownAtlas p.atlas url p.nextTile) url (some p.nextTile)
        (some img)).2.images = assocSet p.atlas.images url p.nextTile :=
      hconst.2.2.2.1
    refine ⟨hcore, ?_, ?_, ?_⟩
    · intro u t hl
      rw [himgs] at hl
      exact assocSet_tidBound _ _ _ hInv.tidBound u t hl
    · intro u1 u2 t h1 h2
      rw [himgs] at h1 h2
      exact assocSet_tidInj _ _ _ hInv.tidBound hInv.tidInj u1 u2 t h1 h2
    · intro hfn url2 hnotin tid2 hlook
      rw [himgs] at hlook
      by_cases hmis : img.width ≠ (ungrownAtlas p.atlas url p.nextTile).tile_width ∨
          img.height ≠ (ungrownAtlas p.atlas url p.nextTile).tile_height
      · rw [copy_to_data_mismatch _ _ _ _ _ hufat hmis] at hfn
        exact absurd hfn (by simp)
      push_neg at hmis
      have hcc := copy_core _ (ungrownAtlas p.atlas url p.nextTile) url p.nextTile
        img hufat hmis.1 hmis.2 hovA hucore.dimW hucore.dimH hucore.curAX
        hucore.curAY hucore.curFit hucore.plA hucore.plLt hucore.plOrd
        hucore.content
      by_cases hu2 : url2 = url
      · rw [hu2] at hlook ⊢
        rw [alookup_assocSet_self] at hlook
        injection hlook with hh
        rw [← hh]
        refine ⟨⟨url, p.atlas.offset_x, p.atlas.offset_y, img.data⟩, ?_, rfl, ?_⟩
        · rw [hcc.2.2.2.2.1]
          exact List.mem_cons_self _ _
        · refine ⟨⟨p.atlas.atlas_image_id,
            (p.atlas.offset_x : ℚ) / (p.atlas.atlas_dimension : ℚ),
            (p.atlas.offset_y : ℚ) / (p.atlas.atlas_dimension : ℚ),
            ((p.atlas.offset_x + p.atlas.tile_width : Nat) : ℚ) /
              (p.atlas.atlas_dimension : ℚ),
            ((p.atlas.offset_y + p.atlas.tile_height : Nat) : ℚ) /
              (p.atlas.atlas_dimension : ℚ)⟩, ?_, ?_⟩
          · rw [hcc.2.2.2.2.2.1]
            exact alookup_assocSet_self _ _ _
          · rw [hconst.1, hconst.2.1, hconst.2.2.1]
            exact ⟨rfl, rfl, rfl, rfl⟩
      · rw [alookup_assocSet_ne _ _ _ _ hu2] at hlook
        have hnotin2 : url2 ∉ p.atlas.images_to_add := by
          intro hcon
          exact hnotin (by
            rw [hconst.2.2.2.2.1]
            exact hcon)
        obtain ⟨r, hrmem, hru, t, htl, huv⟩ :=
          hInv.link hf2 url2 hnotin2 tid2 hlook
        have htidlt : tid2 < p.nextTile := hInv.tidBound url2 tid2 hlook
        refine ⟨r, ?_, hru, t, ?_, ?_⟩
        · rw [hcc.2.2.2.2.1]
          exact List.mem_cons_of_mem _ hrmem
        · rw [hcc.2.2.2.2.2.1,
            alookup_assocSet_ne _ _ _ _ (by omega : tid2 ≠ p.nextTile),
            alookup_assocSet_ne _ _ _ _ (by omega : tid2 ≠ p.nextTile)]
          exact htl
        · rw [hconst.1, hconst.2.1, hconst.2.2.1]
          exact huv

lemma upload_eq_frozen (h : Heap) (a : AtlasM) (cache : List (String × Image))
    (nid : Nat) (hf : a.fatal.isSome) : upload h a cache nid = (h, a, [], nid) := by
  unfold upload
  simp [hf]

lemma upload_eq_noresize_valid (h : Heap) (a : AtlasM) (cache : List (String × Image))
    (nid : Nat) (hf : a.fatal = none) (hres : a.resized = false)
    (hid : a.atlas_image_id ≠ 0) :
    upload h a cache nid = (h, bumpUploads (finishDirty a), [], nid) := by
  unfold upload
  dsimp only
  split_ifs <;> first | rfl | (exfalso; simp_all [setImageId, clearQueue])

lemma upload_eq_noresize_invalid (h : Heap) (a : AtlasM)
    (cache : List (String × Image)) (nid : Nat) (hf : a.fatal = none)
    (hres : a.resized = false) (hid : a.atlas_image_id = 0) :
    upload h a cache nid =
      (setAllTileIds a.images nid h,
       bumpUploads (finishDirty (setImageId a nid)), [], nid + 1) := by
  unfold upload
  dsimp only
  split_ifs <;> first | rfl | (exfalso; simp_all [setImageId, clearQueue])

lemma upload_eq_resize_fatal (h : Heap) (a : AtlasM) (cache : List (String × Image))
    (nid : Nat) (hf : a.fatal = none) (hres : a.resized = true)
    (hrf : (repackFold cache (h, setImageId a nid)
      a.images_to_add).2.fatal.isSome) :
    upload h a cache nid =
      ((repackFold cache (h, setImageId a nid) a.images_to_add).1,
       (repackFold cache (h, setImageId a nid) a.images_to_add).2,
       [a.atlas_image_id], nid + 1) := by
  unfold upload
  dsimp only
  split_ifs <;> first | rfl | (exfalso; simp_all [setImageId, clearQueue])

lemma upload_eq_resize_ok (h : Heap) (a : AtlasM) (cache : List (String × Image))
    (nid : Nat) (hf : a.fatal = none) (hres : a.resized = true)
    (hrf : (repackFold cache (h, setImageId a nid)
      a.images_to_add).2.fatal = none) :
    upload h a cache nid =
      (setAllTileIds
        (repackFold cache (h, setImageId a nid) a.images_to_add).2.images
        (repackFold cache (h, setImageId a nid) a.images_to_add).2.atlas_image_id
        (repackFold cache (h, setImageId a nid) a.images_to_add).1,
       bumpUploads (finishDirty (clearQueue
         (repackFold cache (h, setImageId a nid) a.images_to_add).2)),
       [a.atlas_image_id], nid + 1) := by
  unfold upload
  dsimp only
  split_ifs <;> first | rfl | (exfalso; simp_all [setImageId, clearQueue])

lemma coreInv_of_eq (a a2 : AtlasM) (h1 : a2.tile_width = a.tile_width)
    (h2 : a2.tile_height = a.tile_height) (h3 : a2.atlas_dimension = a.atlas_dimension)
    (h4 : a2.offset_x = a.offset_x) (h5 : a2.offset_y = a.offset_y)
    (h6 : a2.placements = a.placements) (h7 : a2.data = a.data)
    (hc : CoreInv a) : CoreInv a2 :=
  ⟨by rw [h1, h3]; exact hc.dimW,
   by rw [h2, h3]; exact hc.dimH,
   by rw [h4, h1]; exact hc.curAX,
   by rw [h5, h2]; exact hc.curAY,
   by rw [h4, h1, h3]; exact hc.curFit,
   by rw [h6, h1, h2, h3]; exact hc.plA,
   by rw [h6, h5, h4]; exact hc.plLt,
   by rw [h6]; exact hc.plOrd,
   by rw [h6, h3, h1, h2, h7]; exact hc.content⟩

lemma finishDirty_eq (a : AtlasM) :
    (finishDirty a).tile_width = a.tile_width ∧
    (finishDirty a).tile_height = a.tile_height ∧
    (finishDirty a).atlas_dimension = a.atlas_dimension ∧
    (finishDirty a).offset_x = a.offset_x ∧
    (finishDirty a).offset_y = a.offset_y ∧
    (finishDirty a).placements = a.placements ∧
    (finishDirty a).data = a.data ∧
    (finishDirty a).images = a.images ∧
    (finishDirty a).images_to_add = a.images_to_add ∧
    (finishDirty a).fatal = a.fatal ∧
    (finishDirty a).overflow = a.overflow := by
  unfold finishDirty
  split <;> simp

lemma linkAt_transfer (h : Heap) (a a2 : AtlasM) (url : String)
    (h1 : a2.images = a.images) (h2 : a2.placements = a.placements)
    (h3 : a2.tile_width = a.tile_width) (h4 : a2.tile_height = a.tile_height)
    (h5 : a2.atlas_dimension = a.atlas_dimension)
    (hl : linkAt h a url) : linkAt h a2 url := by
  intro tid hlook
  rw [h1] at hlook
  obtain ⟨r, hr, hru, t, htl, huv⟩ := hl tid hlook
  exact ⟨r, h2 ▸ hr, hru, t, htl, by rw [h3, h4, h5]; exact huv⟩

lemma linkAt_setAllTileIds (hh : Heap) (imgs : List (String × Nat)) (id : Nat)
    (a : AtlasM) (url : String) (hl : linkAt hh a url) :
    linkAt (setAllTileIds imgs id hh) a url := by
  intro tid hlook
  obtain ⟨r, hr, hru, t, htl, huv⟩ := hl tid hlook
  obtain ⟨t2, htl2, e1, e2, e3, e4⟩ := setAllTileIds_pres imgs id hh tid t htl
  refine ⟨r, hr, hru, t2, htl2, ?_⟩
  unfold uvMatch at huv ⊢
  rw [e1, e2, e3, e4]
  exact huv

/-- `stepA` preserves the run invariant on an `up` operation. -/
lemma AInv_step_up (p : APack) (cache : List (String × Image)) (nid : Nat)
    (hInv : AInv p) (hov : (stepA p (AOp.up cache nid)).atlas.overflow = false) :
    AInv (stepA p (AOp.up cache nid)) := by
  show AInv ⟨(upload p.heap p.atlas cache nid).1, p.nextTile,
    (upload p.heap p.atlas cache nid).2.1⟩
  have hovU : (upload p.heap p.atlas cache nid).2.1.overflow = false := hov
  by_cases hf : p.atlas.fatal.isSome
  · rw [upload_eq_frozen _ _ _ _ hf] at hovU ⊢
    exact ⟨hInv.core, hInv.tidBound, hInv.tidInj, hInv.link⟩
  have hf2 : p.atlas.fatal = none := Option.not_isSome_iff_eq_none.mp hf
  cases hres : p.atlas.resized with
  | false =>
    by_cases hid : p.atlas.atlas_image_id = 0
    · rw [upload_eq_noresize_invalid _ _ _ _ hf2 hres hid] at hovU ⊢
      have hfe := finishDirty_eq (setImageId p.atlas nid)
      have himgF : (bumpUploads (finishDirty (setImageId p.atlas nid))).images =
          p.atlas.images := hfe.2.2.2.2.2.2.2.1
      have hqF : (bumpUploads (finishDirty (setImageId p.atlas nid))).images_to_add =
          p.atlas.images_to_add := hfe.2.2.2.2.2.2.2.2.1
      refine ⟨?_, ?_, ?_, ?_⟩
      · exact coreInv_of_eq p.atlas _ hfe.1 hfe.2.1 hfe.2.2.1 hfe.2.2.2.1
          hfe.2.2.2.2.1 hfe.2.2.2.2.2.1 hfe.2.2.2.2.2.2.1 hInv.core
      · intro u t hl
        show t < p.nextTile
        rw [himgF] at hl
        exact hInv.tidBound u t hl
      · intro u1 u2 t h1 h2
        rw [himgF] at h1 h2
        exact hInv.tidInj u1 u2 t h1 h2
      · intro hfn url hnotin
        rw [hqF] at hnotin
        exact linkAt_setAllTileIds _ _ _ _ _ (linkAt_transfer _ _ _ _
          himgF hfe.2.2.2.2.2.1 hfe.1 hfe.2.1 hfe.2.2.1 (hInv.link hf2 url hnotin))
    · rw [upload_eq_noresize_valid _ _ _ _ hf2 hres hid] at hovU ⊢
      have hfe := finishDirty_eq p.atlas
      have himgF : (bumpUploads (finishDirty p.atlas)).images = p.atlas.images :=
        hfe.2.2.2.2.2.2.2.1
      have hqF : (bumpUploads (finishDirty p.atlas)).images_to_add =
          p.atlas.images_to_add := hfe.2.2.2.2.2.2.2.2.1
      refine ⟨?_, ?_, ?_, ?_⟩
      · exact coreInv_of_eq p.atlas _ hfe.1 hfe.2.1 hfe.2.2.1 hfe.2.2.2.1
          hfe.2.2.2.2.1 hfe.2.2.2.2.2.1 hfe.2.2.2.2.2.2.1 hInv.core
      · intro u t hl
        show t < p.nextTile
        rw [himgF] at hl
        exact hInv.tidBound u t hl
      · intro u1 u2 t h1 h2
        rw [himgF] at h1 h2
        exact hInv.tidInj u1 u2 t h1 h2
      · intro hfn url hnotin
        rw [hqF] at hnotin
        exact linkAt_transfer _ _ _ _ himgF hfe.2.2.2.2.2.1 hfe.1 hfe.2.1 hfe.2.2.1
          (hInv.link hf2 url hnotin)
  | true =>
    have ha1core : CoreInv (setImageId p.atlas nid) :=
      coreInv_of_eq p.atlas _ rfl rfl rfl rfl rfl rfl rfl hInv.core
    by_cases hrf : (repackFold cache (p.heap, setImageId p.atlas nid)
        p.atlas.images_to_add).2.fatal.isSome
    · rw [upload_eq_resize_fatal _ _ _ _ hf2 hres hrf] at hovU ⊢
      have hcR := repackFold_core cache p.atlas.images_to_add
        (p.heap, setImageId p.atlas nid) ha1core hovU
      have himgR := repackFold_images cache
        (p.heap, setImageId p.atlas nid) p.atlas.images_to_add
      refine ⟨hcR, ?_, ?_, ?_⟩
      · intro u t hl
        show t < p.nextTile
        rw [himgR] at hl
        exact hInv.tidBound u t hl
      · intro u1 u2 t h1 h2
        rw [himgR] at h1 h2
        exact hInv.tidInj u1 u2 t h1 h2
      · intro hfn url hnotin
        rw [hfn] at hrf
        exact absurd hrf (by simp)
    · have hrf2 : (repackFold cache (p.heap, setImageId p.atlas nid)
          p.atlas.images_to_add).2.fatal = none :=
        Option.not_isSome_iff_eq_none.mp hrf
      rw [upload_eq_resize_ok _ _ _ _ hf2 hres hrf2] at hovU ⊢
      have hfe := finishDirty_eq (clearQueue (repackFold cache
        (p.heap, setImageId p.atlas nid) p.atlas.images_to_add).2)
      have himgR := repackFold_images cache
        (p.heap, setImageId p.atlas nid) p.atlas.images_to_add
      have hovR : (repackFold cache (p.heap, setImageId p.atlas nid)
          p.atlas.images_to_add).2.overflow = false := by
        have e : (bumpUploads (finishDirty (clearQueue (repackFold cache
            (p.heap, setImageId p.atlas nid) p.atlas.images_to_add).2))).overflow =
            (repackFold cache (p.heap, setImageId p.atlas nid)
              p.atlas.images_to_add).2.overflow := hfe.2.2.2.2.2.2.2.2.2.2
        rw [e] at hovU
        exact hovU
      have hcR := repackFold_core cache p.atlas.images_to_add
        (p.heap, setImageId p.atlas nid) ha1core hovR
      have himgF : (bumpUploads (finishDirty (clearQueue (repackFold cache
          (p.heap, setImageId p.atlas nid) p.atlas.images_to_add).2))).images =
          p.atlas.images := by
        have e : (bumpUploads (finishDirty (clearQueue (repackFold cache
            (p.heap, setImageId p.atlas nid) p.atlas.images_to_add).2))).images =
            (repackFold cache (p.heap, setImageId p.atlas nid)
              p.atlas.images_to_add).2.images := hfe.2.2.2.2.2.2.2.1
        rw [e, himgR]
        rfl
      have hcCQ : CoreInv (clearQueue (repackFold cache
          (p.heap, setImageId p.atlas nid) p.atlas.images_to_add).2) :=
        coreInv_of_eq (repackFold cache (p.heap, setImageId p.atlas nid)
            p.atlas.images_to_add).2
          (clearQueue (repackFold cache (p.heap, setImageId p.atlas nid)
            p.atlas.images_to_add).2) rfl rfl rfl rfl rfl rfl rfl hcR
      refine ⟨?_, ?_, ?_, ?_⟩
      · exact coreInv_of_eq _ _ hfe.1 hfe.2.1 hfe.2.2.1 hfe.2.2.2.1 hfe.2.2.2.2.1
          hfe.2.2.2.2.2.1 hfe.2.2.2.2.2.2.1 hcCQ
      · intro u t hl
        show t < p.nextTile
        rw [himgF] at hl
        exact hInv.tidBound u t hl
      · intro u1 u2 t h1 h2
        rw [himgF] at h1 h2
        exact hInv.tidInj u1 u2 t h1 h2
      · intro hfn url hnotin
        have hlR : linkAt (repackFold cache
            (p.heap, setImageId p.atlas nid) p.atlas.images_to_add).1
            (repackFold cache (p.heap, setImageId p.atlas nid)
              p.atlas.images_to_add).2 url := by
          refine repackFold_link cache p.atlas.images_to_add
            (p.heap, setImageId p.atlas nid) ha1core
            (fun u1 u2 t h1 h2 => hInv.tidInj u1 u2 t h1 h2) hrf2 hovR url ?_
          by_cases hq : url ∈ p.atlas.images_to_add
          · exact Or.inl hq
          · exact Or.inr (linkAt_transfer _ _ _ _ rfl rfl rfl rfl rfl
              (hInv.link hf2 url hq))
        exact linkAt_setAllTileIds _ _ _ _ _ (linkAt_transfer _ _ _ _
          hfe.2.2.2.2.2.2.2.1 hfe.2.2.2.2.2.1 hfe.1 hfe.2.1 hfe.2.2.1 hlR)

lemma AInv_step (p : APack) (op : AOp) (hInv : AInv p)
    (hov : (stepA p op).atlas.overflow = false) : AInv (stepA p op) := by
  cases op with
  | add url img => exact AInv_step_add p url img hInv hov
  | up cache nid => exact AInv_step_up p cache nid hInv hov

lemma AInv_init (tw th : Nat) (hov : (mkAtlas tw th).overflow = false) :
    AInv (initPack tw th) := by
  obtain ⟨hdw, hdh, _⟩ := mkAtlas_false_dims tw th hov
  refine ⟨⟨hdw, hdh, ⟨0, by simp [initPack, mkAtlas]⟩, ⟨0, by simp [initPack, mkAtlas]⟩,
    ?_, ?_, ?_, ?_, ?_⟩, ?_, ?_, ?_⟩
  · show 0 + tw ≤ (mkAtlas tw th).atlas_dimension
    unfold padding at hdw
    omega
  · intro r hr
    exact absurd hr (List.not_mem_nil r)
  · intro r hr
    exact absurd hr (List.not_mem_nil r)
  · exact List.Pairwise.nil
  · intro r hr
    exact absurd hr (List.not_mem_nil r)
  · intro u t hl
    exact absurd hl (by simp [alookup])
  · intro u1 u2 t h1 h2
    exact absurd h1 (by simp [alookup])
  · intro _ url _ tid hl
    exact absurd hl (by simp [alookup])

lemma AInv_run (p : APack) (ops : List AOp) (hInv : AInv p)
    (hov : (runA p ops).atlas.overflow = false) : AInv (runA p ops) := by
  induction ops generalizing p with
  | nil => exact hInv
  | cons op rest ih =>
    rw [runA_cons] at hov ⊢
    exact ih (stepA p op) (AInv_step p op hInv (runA_overflow_rev _ _ hov)) hov

lemma runA_tw (p : APack) (ops : List AOp) :
    (runA p ops).atlas.tile_width = p.atlas.tile_width := by
  induction ops generalizing p with
  | nil => rfl
  | cons op rest ih => rw [runA_cons, ih, stepA_tw]

lemma runA_th (p : APack) (ops : List AOp) :
    (runA p ops).atlas.tile_height = p.atlas.tile_height := by
  induction ops generalizing p with
  | nil => rfl
  | cons op rest ih => rw [runA_cons, ih, stepA_th]

/-- Two distinct grid cells give disjoint padded regions. -/
lemma aligned_regions_disjoint (tw th : Nat) (r1 r2 : Prec)
    (h1x : ∃ i, r1.px = i * (tw + padding)) (h1y : ∃ j, r1.py = j * (th + padding))
    (h2x : ∃ i, r2.px = i * (tw + padding)) (h2y : ∃ j, r2.py = j * (th + padding))
    (hne : (r1.py, r1.px) ≠ (r2.py, r2.px)) :
    ∀ u v : Nat,
      ¬((r1.px ≤ u ∧ u < r1.px + (tw + padding) ∧
         r1.py ≤ v ∧ v < r1.py + (th + padding)) ∧
        (r2.px ≤ u ∧ u < r2.px + (tw + padding) ∧
         r2.py ≤ v ∧ v < r2.py + (th + padding))) := by
  intro u v hcon
  obtain ⟨⟨a1, a2, a3, a4⟩, ⟨b1, b2, b3, b4⟩⟩ := hcon
  obtain ⟨i1, e1⟩ := h1x
  obtain ⟨j1, e2⟩ := h1y
  obtain ⟨i2, e3⟩ := h2x
  obtain ⟨j2, e4⟩ := h2y
  have hS : 0 < tw + padding := by unfold padding; omega
  have hT : 0 < th + padding := by unfold padding; omega
  have hieq : i1 = i2 := by
    by_contra hne2
    rcases Nat.lt_or_ge i1 i2 with hlt | hge
    · have : (i1 + 1) * (tw + padding) ≤ i2 * (tw + padding) :=
        Nat.mul_le_mul_right _ (by omega)
      have hx : i1 * (tw + padding) + (tw + padding) ≤ i2 * (tw + padding) := by
        calc i1 * (tw + padding) + (tw + padding) = (i1 + 1) * (tw + padding) := by ring
        _ ≤ i2 * (tw + padding) := this
      omega
    · have hlt2 : i2 < i1 := by omega
      have : (i2 + 1) * (tw + padding) ≤ i1 * (tw + padding) :=
        Nat.mul_le_mul_right _ (by omega)
      have hx : i2 * (tw + padding) + (tw + padding) ≤ i1 * (tw + padding) := by
        calc i2 * (tw + padding) + (tw + padding) = (i2 + 1) * (tw + padding) := by ring
        _ ≤ i1 * (tw + padding) := this
      omega
  have hjeq : j1 = j2 := by
    by_contra hne2
    rcases Nat.lt_or_ge j1 j2 with hlt | hge
    · have : (j1 + 1) * (th + padding) ≤ j2 * (th + padding) :=
        Nat.mul_le_mul_right _ (by omega)
      have hy : j1 * (th + padding) + (th + padding) ≤ j2 * (th + padding) := by
        calc j1 * (th + padding) + (th + padding) = (j1 + 1) * (th + padding) := by ring
        _ ≤ j2 * (th + padding) := this
      omega
    · have hlt2 : j2 < j1 := by omega
      have : (j2 + 1) * (th + padding) ≤ j1 * (th + padding) :=
        Nat.mul_le_mul_right _ (by omega)
      have hy : j2 * (th + padding) + (th + padding) ≤ j1 * (th + padding) := by
        calc j2 * (th + padding) + (th + padding) = (j2 + 1) * (th + padding) := by ring
        _ ≤ j1 * (th + padding) := this
      omega
  exact hne (by rw [Prod.ext_iff]; exact ⟨by rw [e2, e4, hjeq], by rw [e1, e3, hieq]⟩)

/-- Like `linkAt`, but additionally records that the backing placement holds
exactly the bytes of the image the given cache stores for the url. -/
def linkCache (cache : List (String × Image)) (h : Heap) (a : AtlasM)
    (url : String) : Prop :=
  ∀ tid, alookup a.images url = some tid →
    ∃ cimg, alookup cache url = some cimg ∧
    ∃ r ∈ a.placements, r.url = url ∧ r.bytes = cimg.data ∧
      ∃ t, alookup h tid = some t ∧
        uvMatch a.tile_width a.tile_height a.atlas_dimension r t

lemma linkCache_transfer (cache : List (String × Image)) (h : Heap) (a a2 : AtlasM)
    (url : String) (h1 : a2.images = a.images) (h2 : a2.placements = a.placements)
    (h3 : a2.tile_width = a.tile_width) (h4 : a2.tile_height = a.tile_height)
    (h5 : a2.atlas_dimension = a.atlas_dimension)
    (hl : linkCache cache h a url) : linkCache cache h a2 url := by
  intro tid hlook
  rw [h1] at hlook
  obtain ⟨cimg, hcl, r, hr, hru, hrb, t, htl, huv⟩ := hl tid hlook
  exact ⟨cimg, hcl, r, h2 ▸ hr, hru, hrb, t, htl, by rw [h3, h4, h5]; exact huv⟩

lemma linkCache_setAllTileIds (cache : List (String × Image)) (hh : Heap)
    (imgs : List (String × Nat)) (id : Nat) (a : AtlasM) (url : String)
    (hl : linkCache cache hh a url) :
    linkCache cache (setAllTileIds imgs id hh) a url := by
  intro tid hlook
  obtain ⟨cimg, hcl, r, hr, hru, hrb, t, htl, huv⟩ := hl tid hlook
  obtain ⟨t2, htl2, e1, e2, e3, e4⟩ := setAllTileIds_pres imgs id hh tid t htl
  refine ⟨cimg, hcl, r, hr, hru, hrb, t2, htl2, ?_⟩
  unfold uvMatch at huv ⊢
  rw [e1, e2, e3, e4]
  exact huv

/-- The repack fold establishes, for every queued url it processes, a placement
holding exactly the cached bytes of that url, and preserves such placements for
the other urls. -/
lemma repackFold_linkCache (cache : List (String × Image)) (q : List String) :
    ∀ hp : Heap × AtlasM, CoreInv hp.2 →
    (∀ u1 u2 t2, alookup hp.2.images u1 = some t2 →
      alookup hp.2.images u2 = some t2 → u1 = u2) →
    (repackFold cache hp q).2.fatal = none →
    (repackFold cache hp q).2.overflow = false →
    ∀ url, (url ∈ q ∨ linkCache cache hp.1 hp.2 url) →
      linkCache cache (repackFold cache hp q).1 (repackFold cache hp q).2 url := by
  induction q with
  | nil =>
    intro hp _ _ _ _ url hu
    rcases hu with hu | hu
    · exact absurd hu (List.not_mem_nil url)
    · exact hu
  | cons u rest ih =>
    intro hp hc htid hfat hov url hu
    rw [repackFold_cons] at hfat hov ⊢
    have hfat1 := repackFold_fatal_rev _ _ _ hfat
    have hov1 := repackFold_overflow_rev _ _ _ hov
    have hfat0 : hp.2.fatal = none := copy_to_data_fatal_rev _ _ _ _ _ hfat1
    obtain ⟨tidu, htidu⟩ : ∃ tidu, alookup hp.2.images u = some tidu := by
      cases hx : alookup hp.2.images u with
      | none =>
        rw [hx, copy_to_data_tid_none _ _ _ _ hfat0] at hfat1
        exact absurd hfat1 (by simp)
      | some tidu => exact ⟨tidu, rfl⟩
    obtain ⟨imgu, himgu⟩ : ∃ imgu, alookup cache u = some imgu := by
      cases hx : alookup cache u with
      | none =>
        rw [htidu, hx, copy_to_data_img_none _ _ _ _ hfat0] at hfat1
        exact absurd hfat1 (by simp)
      | some imgu => exact ⟨imgu, rfl⟩
    have hdims : imgu.width = hp.2.tile_width ∧ imgu.height = hp.2.tile_height := by
      by_cases hmis : imgu.width ≠ hp.2.tile_width ∨ imgu.height ≠ hp.2.tile_height
      · rw [htidu, himgu, copy_to_data_mismatch _ _ _ _ _ hfat0 hmis] at hfat1
        exact absurd hfat1 (by simp)
      · push_neg at hmis
        exact hmis
    have hov1e : (copy_to_data hp.1 hp.2 u (some tidu) (some imgu)).2.overflow =
        false := by rw [← htidu, ← himgu]; exact hov1
    have hcc := copy_core hp.1 hp.2 u tidu imgu hfat0 hdims.1 hdims.2 hov1e hc.dimW
      hc.dimH hc.curAX hc.curAY hc.curFit hc.plA hc.plLt hc.plOrd hc.content
    have hconst := copy_to_data_const hp.1 hp.2 u (some tidu) (some imgu)
    have hcs : CoreInv (copy_to_data hp.1 hp.2 u (alookup hp.2.images u)
        (alookup cache u)).2 := copy_any_core _ _ _ _ _ hov1 hc
    have himgeq : (copy_to_data hp.1 hp.2 u (alookup hp.2.images u)
        (alookup cache u)).2.images = hp.2.images := by
      rw [htidu, himgu]
      exact hconst.2.2.2.1
    have hestab : linkCache cache (copy_to_data hp.1 hp.2 u (alookup hp.2.images u)
        (alookup cache u)).1
        (copy_to_data hp.1 hp.2 u (alookup hp.2.images u) (alookup cache u)).2 u := by
      intro tid hlook
      rw [himgeq, htidu] at hlook
      have htideq : tid = tidu := by
        injection hlook with hh
        exact hh.symm
      subst htideq
      rw [htidu, himgu]
      refine ⟨imgu, rfl, ⟨u, hp.2.offset_x, hp.2.offset_y, imgu.data⟩, ?_, rfl,
        rfl, ?_⟩
      · rw [hcc.2.2.2.2.1]
        exact List.mem_cons_self _ _
      · refine ⟨⟨hp.2.atlas_image_id,
          (hp.2.offset_x : ℚ) / (hp.2.atlas_dimension : ℚ),
          (hp.2.offset_y : ℚ) / (hp.2.atlas_dimension : ℚ),
          ((hp.2.offset_x + hp.2.tile_width : Nat) : ℚ) / (hp.2.atlas_dimension : ℚ),
          ((hp.2.offset_y + hp.2.tile_height : Nat) : ℚ) /
            (hp.2.atlas_dimension : ℚ)⟩, ?_, ?_⟩
        · rw [hcc.2.2.2.2.2.1]
          exact alookup_assocSet_self _ _ _
        · rw [hconst.1, hconst.2.1, hconst.2.2.1]
          exact ⟨rfl, rfl, rfl, rfl⟩
    have hpres : ∀ url2, linkCache cache hp.1 hp.2 url2 →
        linkCache cache (copy_to_data hp.1 hp.2 u (alookup hp.2.images u)
          (alookup cache u)).1
          (copy_to_data hp.1 hp.2 u (alookup hp.2.images u) (alookup cache u)).2
          url2 := by
      intro url2 hl
      by_cases hu2 : url2 = u
      · subst hu2
        exact hestab
      intro tid hlook
      rw [himgeq] at hlook
      obtain ⟨cimg2, hcl2, r, hrmem, hrurl, hrb, t, htl, huv⟩ := hl tid hlook
      have htidne : tid ≠ tidu := by
        intro heqt
        exact hu2 (htid url2 u tidu (heqt ▸ hlook) htidu)
      refine ⟨cimg2, hcl2, r, ?_, hrurl, hrb, t, ?_, ?_⟩
      · rw [htidu, himgu, hcc.2.2.2.2.1]
        exact List.mem_cons_of_mem _ hrmem
      · rw [htidu, himgu, hcc.2.2.2.2.2.1, alookup_assocSet_ne _ _ _ _ htidne]
        exact htl
      · rw [htidu, himgu, hconst.1, hconst.2.1, hconst.2.2.1]
        exact huv
    refine ih _ hcs (by rw [himgeq]; exact htid) hfat hov url ?_
    rcases hu with hu | hu
    · rcases List.mem_cons.mp hu with hequ | hu2
      · subst hequ
        exact Or.inr hestab
      · exact Or.inl hu2
    · exact Or.inr (hpres url hu)

/-- An upload of a resized atlas leaves every queued url backed by a placement
holding exactly its cached bytes, and leaves the url-to-tile map unchanged. -/
lemma upload_resize_linkCache (p : APack) (cache : List (String × Image)) (nid : Nat)
    (hInv : AInv p) (hres : p.atlas.resized = true)
    (hfatF : (stepA p (AOp.up cache nid)).atlas.fatal = none)
    (hovF : (stepA p (AOp.up cache nid)).atlas.overflow = false)
    (url : String) (hq : url ∈ p.atlas.images_to_add) :
    linkCache cache (stepA p (AOp.up cache nid)).heap
      (stepA p (AOp.up cache nid)).atlas url ∧
    (stepA p (AOp.up cache nid)).atlas.images = p.atlas.images := by
  have hfatU : (upload p.heap p.atlas cache nid).2.1.fatal = none := hfatF
  have hovU : (upload p.heap p.atlas cache nid).2.1.overflow = false := hovF
  by_cases hf : p.atlas.fatal.isSome
  · exfalso
    rw [upload_eq_frozen _ _ _ _ hf] at hfatU
    rw [hfatU] at hf
    exact absurd hf (by simp)
  have hf2 : p.atlas.fatal = none := Option.not_isSome_iff_eq_none.mp hf
  by_cases hrf : (repackFold cache (p.heap, setImageId p.atlas nid)
      p.atlas.images_to_add).2.fatal.isSome
  · exfalso
    rw [upload_eq_resize_fatal _ _ _ _ hf2 hres hrf] at hfatU
    rw [hfatU] at hrf
    exact absurd hrf (by simp)
  have hrf2 : (repackFold cache (p.heap, setImageId p.atlas nid)
      p.atlas.images_to_add).2.fatal = none :=
    Option.not_isSome_iff_eq_none.mp hrf
  have ha1core : CoreInv (setImageId p.atlas nid) :=
    coreInv_of_eq p.atlas _ rfl rfl rfl rfl rfl rfl rfl hInv.core
  have hheapF : (stepA p (AOp.up cache nid)).heap =
      (upload p.heap p.atlas cache nid).1 := rfl
  have hatlF : (stepA p (AOp.up cache nid)).atlas =
      (upload p.heap p.atlas cache nid).2.1 := rfl
  rw [upload_eq_resize_ok _ _ _ _ hf2 hres hrf2] at hovU
  have hfe := finishDirty_eq (clearQueue (repackFold cache
    (p.heap, setImageId p.atlas nid) p.atlas.images_to_add).2)
  have hovR : (repackFold cache (p.heap, setImageId p.atlas nid)
      p.atlas.images_to_add).2.overflow = false := by
    have e : (bumpUploads (finishDirty (clearQueue (repackFold cache
        (p.heap, setImageId p.atlas nid) p.atlas.images_to_add).2))).overflow =
        (repackFold cache (p.heap, setImageId p.atlas nid)
          p.atlas.images_to_add).2.overflow := hfe.2.2.2.2.2.2.2.2.2.2
    rw [e] at hovU
    exact hovU
  have himgR := repackFold_images cache
    (p.heap, setImageId p.atlas nid) p.atlas.images_to_add
  have hlcR : linkCache cache (repackFold cache
      (p.heap, setImageId p.atlas nid) p.atlas.images_to_add).1
      (repackFold cache (p.heap, setImageId p.atlas nid)
        p.atlas.images_to_add).2 url :=
    repackFold_linkCache cache p.atlas.images_to_add
      (p.heap, setImageId p.atlas nid) ha1core
      (fun u1 u2 t h1 h2 => hInv.tidInj u1 u2 t h1 h2) hrf2 hovR url (Or.inl hq)
  constructor
  · rw [hheapF, hatlF, upload_eq_resize_ok _ _ _ _ hf2 hres hrf2]
    exact linkCache_setAllTileIds _ _ _ _ _ _ (linkCache_transfer _ _ _ _ _
      hfe.2.2.2.2.2.2.2.1 hfe.2.2.2.2.2.1 hfe.1 hfe.2.1 hfe.2.2.1 hlcR)
  · rw [hatlF, upload_eq_resize_ok _ _ _ _ hf2 hres hrf2]
    have e : (bumpUploads (finishDirty (clearQueue (repackFold cache
        (p.heap, setImageId p.atlas nid) p.atlas.images_to_add).2))).images =
        (repackFold cache (p.heap, setImageId p.atlas nid)
          p.atlas.images_to_add).2.images := hfe.2.2.2.2.2.2.2.1
    show (bumpUploads (finishDirty (clearQueue (repackFold cache
        (p.heap, setImageId p.atlas nid) p.atlas.images_to_add).2))).images =
      p.atlas.images
    rw [e, himgR]
    rfl

/-- A growth-triggering `add_tile` followed by an `upload` re-derives, for any
url already registered before the growth, a tile whose UV rectangle points at a
placement of the new buffer holding exactly the cached bytes of that url. -/
lemma grow_upload_content (p : APack) (u2 url : String) (img2 : Image)
    (cache : List (String × Image)) (nid tid : Nat) (cimg : Image)
    (hInv : AInv p)
    (hmem : alookup p.atlas.images url = some tid)
    (hu2 : u2 ≠ url)
    (hgrow : (stepA p (AOp.add u2 img2)).atlas.atlas_dimension ≠
      p.atlas.atlas_dimension)
    (hfatF : (stepA (stepA p (AOp.add u2 img2))
      (AOp.up cache nid)).atlas.fatal = none)
    (hovF : (stepA (stepA p (AOp.add u2 img2))
      (AOp.up cache nid)).atlas.overflow = false)
    (hcache : alookup cache url = some cimg) :
    ∃ npx npy : Nat, ∃ t2 : TileM,
      alookup (stepA (stepA p (AOp.add u2 img2)) (AOp.up cache nid)).heap tid =
        some t2 ∧
      t2.x1 = (npx : ℚ) / ((stepA (stepA p (AOp.add u2 img2))
        (AOp.up cache nid)).atlas.atlas_dimension : ℚ) ∧
      t2.y1 = (npy : ℚ) / ((stepA (stepA p (AOp.add u2 img2))
        (AOp.up cache nid)).atlas.atlas_dimension : ℚ) ∧
      t2.x2 = ((npx + p.atlas.tile_width : Nat) : ℚ) /
        ((stepA (stepA p (AOp.add u2 img2))
          (AOp.up cache nid)).atlas.atlas_dimension : ℚ) ∧
      t2.y2 = ((npy + p.atlas.tile_height : Nat) : ℚ) /
        ((stepA (stepA p (AOp.add u2 img2))
          (AOp.up cache nid)).atlas.atlas_dimension : ℚ) ∧
      ∀ x, x < p.atlas.tile_width → ∀ y, y < p.atlas.tile_height → ∀ c, c < 4 →
        (stepA (stepA p (AOp.add u2 img2)) (AOp.up cache nid)).atlas.data
            (atlasOffset (stepA (stepA p (AOp.add u2 img2))
              (AOp.up cache nid)).atlas.atlas_dimension npx npy x y + c) =
          cimg.data (tileOffset p.atlas.tile_width x y + c) := by
  have hovP1 : (stepA p (AOp.add u2 img2)).atlas.overflow = false :=
    stepA_overflow_rev _ _ hovF
  have hP1a : (stepA p (AOp.add u2 img2)).atlas =
      (add_tile (assocSet p.heap p.nextTile TileM.init) p.atlas u2
        p.nextTile img2).2 := rfl
  -- the upload did not start frozen
  have hfatU1 : (upload (stepA p (AOp.add u2 img2)).heap
      (stepA p (AOp.add u2 img2)).atlas cache nid).2.1.fatal = none := hfatF
  by_cases hf1 : (stepA p (AOp.add u2 img2)).atlas.fatal.isSome
  · exfalso
    rw [upload_eq_frozen _ _ _ _ hf1] at hfatU1
    rw [hfatU1] at hf1
    exact absurd hf1 (by simp)
  have hfat1 : (stepA p (AOp.add u2 img2)).atlas.fatal = none :=
    Option.not_isSome_iff_eq_none.mp hf1
  -- the add itself was not frozen
  by_cases hfP : p.atlas.fatal.isSome
  · exfalso
    have he : (stepA p (AOp.add u2 img2)).atlas = p.atlas := by
      rw [hP1a, add_tile_frozen _ _ _ _ _ hfP]
    rw [he] at hfat1
    rw [hfat1] at hfP
    exact absurd hfP (by simp)
  have hfatP : p.atlas.fatal = none := Option.not_isSome_iff_eq_none.mp hfP
  -- the add took the growth branch
  by_cases hg : growCond p.atlas
  case neg =>
    exfalso
    apply hgrow
    have he : (stepA p (AOp.add u2 img2)).atlas =
        (copy_to_data (assocSet p.heap p.nextTile TileM.init)
          (ungrownAtlas p.atlas u2 p.nextTile) u2 (some p.nextTile)
          (some img2)).2 := by
      rw [hP1a, add_tile_eq_nogrow _ _ _ _ _ hfatP hg]
    rw [he, (copy_to_data_const _ _ _ _ _).2.2.1]
    rfl
  case pos =>
  have hgeq : (stepA p (AOp.add u2 img2)).atlas =
      (copy_to_data (assocSet p.heap p.nextTile TileM.init)
        (grownAtlas p.atlas u2 p.nextTile) u2 (some p.nextTile) (some img2)).2 := by
    rw [hP1a, add_tile_eq_grow _ _ _ _ _ hfatP hg]
  have hres1 : (stepA p (AOp.add u2 img2)).atlas.resized = true := by
    rw [hgeq, (copy_to_data_const _ _ _ _ _).2.2.2.2.2.2.2]
    rfl
  have hq1 : url ∈ (stepA p (AOp.add u2 img2)).atlas.images_to_add := by
    rw [hgeq, (copy_to_data_const _ _ _ _ _).2.2.2.2.1]
    show url ∈ p.atlas.images_to_add ++ p.atlas.images.map Prod.fst
    exact List.mem_append_right _ (alookup_mem_keys _ _ _ hmem)
  have himgs1 : alookup (stepA p (AOp.add u2 img2)).atlas.images url = some tid := by
    rw [hP1a, add_tile_images _ _ _ _ _ hfatP,
      alookup_assocSet_ne _ _ _ _ (fun h => hu2 h.symm)]
    exact hmem
  have hInvP1 : AInv (stepA p (AOp.add u2 img2)) :=
    AInv_step p (AOp.add u2 img2) hInv hovP1
  obtain ⟨hlc, himgF⟩ := upload_resize_linkCache (stepA p (AOp.add u2 img2))
    cache nid hInvP1 hres1 hfatF hovF url hq1
  have himgsF : alookup (stepA (stepA p (AOp.add u2 img2))
      (AOp.up cache nid)).atlas.images url = some tid := by
    rw [himgF]
    exact himgs1
  obtain ⟨cimg2, hc2, r, hrmem, hrurl, hrb, t2, ht2, huv⟩ := hlc tid himgsF
  have hce : cimg = cimg2 := by
    have h3 : some cimg = some cimg2 := by rw [← hcache, hc2]
    exact Option.some.inj h3
  have hInvF : AInv (stepA (stepA p (AOp.add u2 img2)) (AOp.up cache nid)) :=
    AInv_step _ (AOp.up cache nid) hInvP1 hovF
  have hcont : ∀ x, x < (stepA (stepA p (AOp.add u2 img2))
      (AOp.up cache nid)).atlas.tile_width →
      ∀ y, y < (stepA (stepA p (AOp.add u2 img2))
        (AOp.up cache nid)).atlas.tile_height → ∀ c, c < 4 →
      (stepA (stepA p (AOp.add u2 img2)) (AOp.up cache nid)).atlas.data
          (atlasOffset (stepA (stepA p (AOp.add u2 img2))
            (AOp.up cache nid)).atlas.atlas_dimension r.px r.py x y + c) =
        r.bytes (tileOffset (stepA (stepA p (AOp.add u2 img2))
          (AOp.up cache nid)).atlas.tile_width x y + c) :=
    hInvF.core.content r hrmem
  have htwF : (stepA (stepA p (AOp.add u2 img2))
      (AOp.up cache nid)).atlas.tile_width = p.atlas.tile_width := by
    rw [stepA_tw, stepA_tw]
  have hthF : (stepA (stepA p (AOp.add u2 img2))
      (AOp.up cache nid)).atlas.tile_height = p.atlas.tile_height := by
    rw [stepA_th, stepA_th]
  rw [htwF, hthF] at huv hcont
  refine ⟨r.px, r.py, t2, ht2, huv.1, huv.2.1, huv.2.2.1, huv.2.2.2, ?_⟩
  intro x hx y hy c hc
  rw [hcont x hx y hy c hc, hrb, hce]

/-- C7: for a tile packed before a growth event (its url registered, its handle
carrying the UV numerators `opx`, `opy` over the pre-growth dimension), once the
growth-triggering `add_tile` and the `upload` that performs the queued
repacking complete without a fatal error or 32-bit overflow, the tile's
re-derived UV rectangle in the new atlas buffer samples byte-for-byte the
content its UV rectangle sampled before the growth, provided the upload's
image cache still holds for that url the bytes its rectangle sampled (in the
source this is an invariant: the cache entry was the immutable source of the
packed pixels). -/
theorem C7_repack_roundtrip
    (tw th : Nat) (ops : List AOp) (url u2 : String) (img2 : Image)
    (cache : List (String × Image)) (nid : Nat)
    (tid : Nat) (t : TileM) (cimg : Image) (opx opy : Nat)
    (hmem : alookup (runA (initPack tw th) ops).atlas.images url = some tid)
    (hnq : url ∉ (runA (initPack tw th) ops).atlas.images_to_add)
    (hu2 : u2 ≠ url)
    (ht : alookup (runA (initPack tw th) ops).heap tid = some t)
    (hx1 : t.x1 = (opx : ℚ) /
      ((runA (initPack tw th) ops).atlas.atlas_dimension : ℚ))
    (hy1 : t.y1 = (opy : ℚ) /
      ((runA (initPack tw th) ops).atlas.atlas_dimension : ℚ))
    (hgrow : (runA (initPack tw th) (ops ++ [AOp.add u2 img2])).atlas.atlas_dimension
      ≠ (runA (initPack tw th) ops).atlas.atlas_dimension)
    (hfatF : (runA (initPack tw th)
      (ops ++ [AOp.add u2 img2, AOp.up cache nid])).atlas.fatal = none)
    (hovF : (runA (initPack tw th)
      (ops ++ [AOp.add u2 img2, AOp.up cache nid])).atlas.overflow = false)
    (hcache : alookup cache url = some cimg)
    (hpre : ∀ x, x < tw → ∀ y, y < th → ∀ c, c < 4 →
      cimg.data (tileOffset tw x y + c) =
        (runA (initPack tw th) ops).atlas.data
          (atlasOffset (runA (initPack tw th) ops).atlas.atlas_dimension
            opx opy x y + c)) :
    ∃ npx npy : Nat, ∃ t2 : TileM,
      alookup (runA (initPack tw th)
        (ops ++ [AOp.add u2 img2, AOp.up cache nid])).heap tid = some t2 ∧
      t2.x1 = (npx : ℚ) / ((runA (initPack tw th)
        (ops ++ [AOp.add u2 img2, AOp.up cache nid])).atlas.atlas_dimension : ℚ) ∧
      t2.y1 = (npy : ℚ) / ((runA (initPack tw th)
        (ops ++ [AOp.add u2 img2, AOp.up cache nid])).atlas.atlas_dimension : ℚ) ∧
      t2.x2 = ((npx + tw : Nat) : ℚ) / ((runA (initPack tw th)
        (ops ++ [AOp.add u2 img2, AOp.up cache nid])).atlas.atlas_dimension : ℚ) ∧
      t2.y2 = ((npy + th : Nat) : ℚ) / ((runA (initPack tw th)
        (ops ++ [AOp.add u2 img2, AOp.up cache nid])).atlas.atlas_dimension : ℚ) ∧
      ∀ x, x < tw → ∀ y, y < th → ∀ c, c < 4 →
        (runA (initPack tw th)
            (ops ++ [AOp.add u2 img2, AOp.up cache nid])).atlas.data
            (atlasOffset (runA (initPack tw th)
              (ops ++ [AOp.add u2 img2, AOp.up cache nid])).atlas.atlas_dimension
              npx npy x y + c) =
          (runA (initPack tw th) ops).atlas.data
            (atlasOffset (runA (initPack tw th) ops).atlas.atlas_dimension
              opx opy x y + c) := by
  have hA2 : runA (initPack tw th) (ops ++ [AOp.add u2 img2, AOp.up cache nid]) =
      stepA (stepA (runA (initPack tw th) ops) (AOp.add u2 img2))
        (AOp.up cache nid) := by
    rw [runA_append]
    rfl
  have hA1 : runA (initPack tw th) (ops ++ [AOp.add u2 img2]) =
      stepA (runA (initPack tw th) ops) (AOp.add u2 img2) := by
    rw [runA_append]
    rfl
  rw [hA1] at hgrow
  rw [hA2] at hfatF hovF ⊢
  have hovP : (runA (initPack tw th) ops).atlas.overflow = false :=
    stepA_overflow_rev _ _ (stepA_overflow_rev _ _ hovF)
  have hInvP : AInv (runA (initPack tw th) ops) :=
    AInv_run _ ops (AInv_init tw th (runA_overflow_rev _ _ hovP)) hovP
  have htwP : (runA (initPack tw th) ops).atlas.tile_width = tw := runA_tw _ _
  have hthP : (runA (initPack tw th) ops).atlas.tile_height = th := runA_th _ _
  obtain ⟨npx, npy, t2, ht2, e1, e2, e3, e4, hbytes⟩ :=
    grow_upload_content (runA (initPack tw th) ops) u2 url img2 cache nid tid
      cimg hInvP hmem hu2 hgrow hfatF hovF hcache
  rw [htwP] at e3 hbytes
  rw [hthP] at e4 hbytes
  refine ⟨npx, npy, t2, ht2, e1, e2, e3, e4, ?_⟩
  intro x hx y hy c hc
  rw [hbytes x hx y hy c hc]
  exact hpre x hx y hy c hc

/-! ## Concrete material for counterexamples and witnesses -/

/-- A concrete all-zero image of the given size. -/
def constImg (w h : Nat) : Image := ⟨w, h, fun _ => 0⟩

/-! ## Claim C10 -/

/-- C10: `atlas_get_tile_id` is total over all inputs including the null
handle: called with a null tile pointer it returns 0 (the not-ready
sentinel) instead of crashing, and otherwise reads the tile's atlas id, so
readers may poll readiness through it without a null check. -/
theorem C10_get_tile_id_total :
    atlas_get_tile_id none = 0 ∧ ∀ t : TileM, atlas_get_tile_id (some t) = t.atlas_id :=
  ⟨rfl, fun _ => rfl⟩

/-! ## Claim C6 -/

/-- C6 counterexample: for 32×32 tiles the claim's schedule is wrong.  The
atlas dimension does start at 64 after the first `add_tile`, but a 64-pixel
row holds only ONE 36-pixel slot, so already the FIRST tile's cursor
advance wraps to offset_y = 36, and already the SECOND `add_tile` exceeds
the buffer and doubles the dimension to 128 — not the fifth. -/
theorem C6_counterexample :
    (runA (initPack 32 32) [AOp.add "t1" (constImg 32 32)]).atlas.atlas_dimension = 64 ∧
    (runA (initPack 32 32) [AOp.add "t1" (constImg 32 32)]).atlas.offset_y = 36 ∧
    (runA (initPack 32 32) [AOp.add "t1" (constImg 32 32),
      AOp.add "t2" (constImg 32 32)]).atlas.atlas_dimension = 128 := by
  decide

/-- C6 as amended: tile size 32×32 starts at dimension 64 (16 doubled until
≥ 32+4); the first tile is packed at (0,0) and the cursor immediately wraps
to the next row at offset_y = 36 (one 36-pixel slot per 64-pixel row); the
2nd added tile is the first that exceeds the buffer: it doubles the
dimension to 128, queues the previously packed tile for re-copying, and is
packed at (0,0) of the new buffer; at dimension 128 a row holds three
tiles, so the cursor wraps to a new row at offset_y = 36 after the 4th
added tile; the queued re-copy of tile 1 happens at the next `upload`. -/
theorem C6_amended :
    (mkAtlas 32 32).atlas_dimension = 64 ∧
    ((runA (initPack 32 32) [AOp.add "t1" (constImg 32 32)]).atlas.placements.map
      (fun r => (r.url, r.px, r.py))) = [("t1", 0, 0)] ∧
    (runA (initPack 32 32) [AOp.add "t1" (constImg 32 32)]).atlas.offset_x = 0 ∧
    (runA (initPack 32 32) [AOp.add "t1" (constImg 32 32)]).atlas.offset_y = 36 ∧
    (runA (initPack 32 32) [AOp.add "t1" (constImg 32 32),
      AOp.add "t2" (constImg 32 32)]).atlas.atlas_dimension = 128 ∧
    (runA (initPack 32 32) [AOp.add "t1" (constImg 32 32),
      AOp.add "t2" (constImg 32 32)]).atlas.resized = true ∧
    (runA (initPack 32 32) [AOp.add "t1" (constImg 32 32),
      AOp.add "t2" (constImg 32 32)]).atlas.images_to_add = ["t1"] ∧
    ((runA (initPack 32 32) [AOp.add "t1" (constImg 32 32),
      AOp.add "t2" (constImg 32 32)]).atlas.placements.map
      (fun r => (r.url, r.px, r.py))) = [("t2", 0, 0)] ∧
    (runA (initPack 32 32) [AOp.add "t1" (constImg 32 32), AOp.add "t2" (constImg 32 32),
      AOp.add "t3" (constImg 32 32), AOp.add "t4" (constImg 32 32)]).atlas.offset_x = 0 ∧
    (runA (initPack 32 32) [AOp.add "t1" (constImg 32 32), AOp.add "t2" (constImg 32 32),
      AOp.add "t3" (constImg 32 32), AOp.add "t4" (constImg 32 32)]).atlas.offset_y = 36 ∧
    ((runA (initPack 32 32) [AOp.add "t1" (constImg 32 32), AOp.add "t2" (constImg 32 32),
      AOp.up [("t1", constImg 32 32), ("t2", constImg 32 32)] 1]).atlas.placements.map
      (fun r => (r.url, r.px, r.py))) = [("t1", 36, 0), ("t2", 0, 0)] ∧
    (runA (initPack 32 32) [AOp.add "t1" (constImg 32 32), AOp.add "t2" (constImg 32 32),
      AOp.up [("t1", constImg 32 32), ("t2", constImg 32 32)] 1]).atlas.images_to_add = [] := by
  decide

/-! ## Claim C2 -/

/-- C2 counterexample: `atlas_t::has_tile` is a pure existence check on the
`images` map, so it is already true immediately after `add_tile` packs the
tile, with zero completed `upload()` calls — refuting "returns false until
... completed a successful upload()". -/
theorem C2_counterexample :
    has_tile (runA (initPack 32 32) [AOp.add "u" (constImg 32 32)]).atlas "u" = true ∧
    (runA (initPack 32 32) [AOp.add "u" (constImg 32 32)]).atlas.uploads = 0 := by
  decide

/-- `has_tile url` stays false across any step that is not an `add_tile` of
that very url: other urls' adds touch other `images` keys, and `upload`
never changes `images` at all. -/
lemma has_tile_stepA_false (p : APack) (op : AOp) (url : String)
    (hnot : ∀ i : Image, op ≠ AOp.add url i)
    (ht : has_tile p.atlas url = false) :
    has_tile (stepA p op).atlas url = false := by
  cases op with
  | add u2 img =>
    have hne : u2 ≠ url := by
      intro he
      exact hnot img (by rw [he])
    show has_tile (add_tile (assocSet p.heap p.nextTile TileM.init)
      p.atlas u2 p.nextTile img).2 url = false
    by_cases hfa : p.atlas.fatal.isSome
    · rw [add_tile_frozen _ _ _ _ _ hfa]
      exact ht
    · have hf2 : p.atlas.fatal = none := Option.not_isSome_iff_eq_none.mp hfa
      unfold has_tile at ht ⊢
      rw [add_tile_images _ _ _ _ _ hf2,
        alookup_assocSet_ne _ _ _ _ (fun hh => hne hh.symm)]
      exact ht
  | up cache nid =>
    unfold has_tile at ht ⊢
    show (alookup ((upload p.heap p.atlas cache nid).2.1).images url).isSome = false
    rw [upload_images]
    exact ht

/-- `has_tile url` stays false along any run that never packs that url. -/
lemma has_tile_false_runA (p : APack) (ops : List AOp) (url : String)
    (hno : ∀ i : Image, AOp.add url i ∉ ops)
    (ht : has_tile p.atlas url = false) :
    has_tile (runA p ops).atlas url = false := by
  induction ops generalizing p with
  | nil => exact ht
  | cons op rest ih =>
    rw [runA_cons]
    refine ih (stepA p op) (fun i hi => hno i (List.mem_cons_of_mem op hi)) ?_
    refine has_tile_stepA_false p op url ?_ ht
    intro i he
    exact hno i (he ▸ List.mem_cons_self op rest)

/-- C2 as amended: along any run that has not yet packed the key, `has_tile`
returns false; it becomes true as soon as `add_tile` has inserted the tile
key — no `upload()` required — and from then on never returns false again
(the `images` map never shrinks). -/
theorem C2_amended (tw th : Nat) (url : String) (h : Heap) (a : AtlasM) (tid : Nat)
    (img : Image) (p : APack) (ops rest : List AOp) (hf : a.fatal = none)
    (hno : ∀ i : Image, AOp.add url i ∉ ops) :
    has_tile (runA (initPack tw th) ops).atlas url = false ∧
    has_tile (add_tile h a url tid img).2 url = true ∧
    (has_tile p.atlas url = true → has_tile (runA p rest).atlas url = true) := by
  refine ⟨has_tile_false_runA (initPack tw th) ops url hno rfl, ?_,
    fun ht => has_tile_runA p rest url ht⟩
  unfold has_tile
  rw [add_tile_images h a url tid img hf, alookup_assocSet_self]
  rfl

theorem C2_amended_witness :
    (∀ i : Image, AOp.add "u" i ∉
      [AOp.add "v" (constImg 32 32), AOp.up ([] : List (String × Image)) 1]) ∧
    has_tile (runA (initPack 32 32)
      [AOp.add "v" (constImg 32 32),
       AOp.up ([] : List (String × Image)) 1]).atlas "u" = false ∧
    has_tile (add_tile [] (mkAtlas 32 32) "u" 0 (constImg 32 32)).2 "u" = true ∧
    (has_tile (initPack 32 32).atlas "u" = true →
      has_tile (runA (initPack 32 32) []).atlas "u" = true) :=
  have hno : ∀ i : Image, AOp.add "u" i ∉
      [AOp.add "v" (constImg 32 32), AOp.up ([] : List (String × Image)) 1] := by
    intro i hi
    rcases List.mem_cons.mp hi with he | hi2
    · injection he with h1 h2
      exact absurd h1 (by decide)
    · rcases List.mem_cons.mp hi2 with he2 | hi3
      · exact AOp.noConfusion he2
      · exact absurd hi3 (List.not_mem_nil _)
  have hmain := C2_amended 32 32 "u" [] (mkAtlas 32 32) 0 (constImg 32 32)
    (initPack 32 32)
    [AOp.add "v" (constImg 32 32), AOp.up ([] : List (String × Image)) 1] [] rfl hno
  ⟨hno, hmain.1, hmain.2.1, hmain.2.2⟩

/-! ## Claim C5 -/

/-- C5: the atlas dimension is always a power of two (16·2^k): at
construction it is the smallest such value that is at least tile dimension
plus padding (in both axes), and along any run every step either keeps the
dimension or multiplies it by exactly 2 — never more, never less, and never
shrinking — as long as no uint32 computation wrapped. -/
theorem C5_dimension_po2 (tw th : Nat) (ops : List AOp)
    (h1 : tw + padding ≤ 2 ^ 31) (h2 : th + padding ≤ 2 ^ 31)
    (hov : (runA (initPack tw th) ops).atlas.overflow = false) :
    ((∃ k, (mkAtlas tw th).atlas_dimension = 16 * 2 ^ k) ∧
     tw + padding ≤ (mkAtlas tw th).atlas_dimension ∧
     th + padding ≤ (mkAtlas tw th).atlas_dimension ∧
     (∀ m, (∃ i, m = 16 * 2 ^ i) → tw + padding ≤ m → th + padding ≤ m →
        (mkAtlas tw th).atlas_dimension ≤ m)) ∧
    (∃ k, (runA (initPack tw th) ops).atlas.atlas_dimension = 16 * 2 ^ k) ∧
    (∀ n, n < ops.length →
      ((runA (initPack tw th) (ops.take (n + 1))).atlas.atlas_dimension =
          (runA (initPack tw th) (ops.take n)).atlas.atlas_dimension ∨
        (runA (initPack tw th) (ops.take (n + 1))).atlas.atlas_dimension =
          2 * (runA (initPack tw th) (ops.take n)).atlas.atlas_dimension) ∧
      (runA (initPack tw th) (ops.take n)).atlas.atlas_dimension ≤
        (runA (initPack tw th) (ops.take (n + 1))).atlas.atlas_dimension) := by
  have hmk := mkAtlas_dim tw th h1 h2
  refine ⟨⟨hmk.2.1, hmk.2.2.1, hmk.2.2.2.1, hmk.2.2.2.2⟩, ?_, ?_⟩
  · exact runA_pow2 _ ops hmk.2.1 hov
  · intro n hn
    have htake : ops.take (n + 1) = ops.take n ++ [ops.get ⟨n, hn⟩] := by
      rw [List.take_succ]
      congr 1
      simp [List.getElem?_eq_getElem hn]
    have hstep : runA (initPack tw th) (ops.take (n + 1)) =
        stepA (runA (initPack tw th) (ops.take n)) (ops.get ⟨n, hn⟩) := by
      rw [htake, runA_append]
      rfl
    have hovn : (runA (initPack tw th) (ops.take (n + 1))).atlas.overflow = false := by
      have hsplit : ops = ops.take (n + 1) ++ ops.drop (n + 1) :=
        (List.take_append_drop _ _).symm
      rw [hsplit, runA_append] at hov
      exact runA_overflow_rev _ _ hov
    rw [hstep] at hovn ⊢
    rcases stepA_dim _ _ hovn with hd | hd
    · exact ⟨Or.inl hd, le_of_eq hd.symm⟩
    · exact ⟨Or.inr hd, by omega⟩

theorem C5_witness :
    (∃ k, (mkAtlas 32 32).atlas_dimension = 16 * 2 ^ k) ∧
    (mkAtlas 32 32).atlas_dimension = 64 :=
  ⟨(C5_dimension_po2 32 32 [] (by norm_num [padding]) (by norm_num [padding])
      (by decide)).1.1, by decide⟩

/-- C4: for every sequence of add_tile calls on one Atlas (interleaved with any
uploads, hence including the queued repacking performed after growth), no two
tiles' packed pixel regions, each extended by the fixed 4-pixel padding, overlap
in the atlas buffer (stated over the final recorded placements of a run that
stayed within 32-bit arithmetic). -/
theorem C4_no_overlap (tw th : Nat) (ops : List AOp)
    (hov : (runA (initPack tw th) ops).atlas.overflow = false) :
    (runA (initPack tw th) ops).atlas.placements.Pairwise (fun r1 r2 =>
      ∀ u v : Nat,
        ¬((r1.px ≤ u ∧ u < r1.px + (tw + padding) ∧
           r1.py ≤ v ∧ v < r1.py + (th + padding)) ∧
          (r2.px ≤ u ∧ u < r2.px + (tw + padding) ∧
           r2.py ≤ v ∧ v < r2.py + (th + padding)))) := by
  have hov0 : (mkAtlas tw th).overflow = false := runA_overflow_rev _ _ hov
  have hInv : AInv (runA (initPack tw th) ops) :=
    AInv_run _ ops (AInv_init tw th hov0) hov
  have htw : (runA (initPack tw th) ops).atlas.tile_width = tw := runA_tw _ _
  have hth : (runA (initPack tw th) ops).atlas.tile_height = th := runA_th _ _
  refine List.Pairwise.imp_of_mem ?_ hInv.core.plOrd
  intro r1 r2 h1 h2 hlex
  have ha1 := hInv.core.plA r1 h1
  have ha2 := hInv.core.plA r2 h2
  rw [alignedP, htw, hth] at ha1 ha2
  exact aligned_regions_disjoint tw th r1 r2 ha1.1 ha1.2.1 ha2.1 ha2.2.1
    (Ne.symm (lexLt_ne hlex))

theorem C4_witness :
    (runA (initPack 32 32)
        [AOp.add ("a") (constImg 32 32),
         AOp.add ("b") (constImg 32 32)]).atlas.overflow
      = false ∧
    (runA (initPack 32 32)
        [AOp.add ("a") (constImg 32 32),
         AOp.add ("b") (constImg 32 32)]).atlas.placements.Pairwise
      (fun r1 r2 => ∀ u v : Nat,
        ¬((r1.px ≤ u ∧ u < r1.px + (32 + padding) ∧
           r1.py ≤ v ∧ v < r1.py + (32 + padding)) ∧
          (r2.px ≤ u ∧ u < r2.px + (32 + padding) ∧
           r2.py ≤ v ∧ v < r2.py + (32 + padding)))) :=
  ⟨by decide, C4_no_overlap 32 32
    [AOp.add ("a") (constImg 32 32),
     AOp.add ("b") (constImg 32 32)] (by decide)⟩

def wImgA : Image := ⟨1, 1, fun _ => 7⟩

def wImgB : Image := ⟨1, 1, fun _ => 8⟩

def wImgC : Image := ⟨1, 1, fun _ => 9⟩

def wImgD : Image := ⟨1, 1, fun _ => 5⟩

def wOps : List AOp := [AOp.add "a" wImgA, AOp.add "b" wImgB, AOp.add "c" wImgC]

def wCache : List (String × Image) :=
  [("a", wImgA), ("b", wImgB), ("c", wImgC), ("d", wImgD)]

def wT : TileM := ⟨0, 0, 0, 1/16, 1/16⟩

theorem C7_witness :
    (alookup (runA (initPack 1 1) wOps).atlas.images "a" = some 0) ∧
    ("a" ∉ (runA (initPack 1 1) wOps).atlas.images_to_add) ∧
    ("d" ≠ "a") ∧
    (alookup (runA (initPack 1 1) wOps).heap 0 = some wT) ∧
    (wT.x1 = ((0 : Nat) : ℚ) /
      ((runA (initPack 1 1) wOps).atlas.atlas_dimension : ℚ)) ∧
    (wT.y1 = ((0 : Nat) : ℚ) /
      ((runA (initPack 1 1) wOps).atlas.atlas_dimension : ℚ)) ∧
    ((runA (initPack 1 1) (wOps ++ [AOp.add "d" wImgD])).atlas.atlas_dimension ≠
      (runA (initPack 1 1) wOps).atlas.atlas_dimension) ∧
    ((runA (initPack 1 1)
      (wOps ++ [AOp.add "d" wImgD, AOp.up wCache 3])).atlas.fatal = none) ∧
    ((runA (initPack 1 1)
      (wOps ++ [AOp.add "d" wImgD, AOp.up wCache 3])).atlas.overflow = false) ∧
    (alookup wCache "a" = some wImgA) ∧
    (∀ x, x < 1 → ∀ y, y < 1 → ∀ c, c < 4 →
      wImgA.data (tileOffset 1 x y + c) =
        (runA (initPack 1 1) wOps).atlas.data
          (atlasOffset (runA (initPack 1 1) wOps).atlas.atlas_dimension
            0 0 x y + c)) ∧
    (∃ npx npy : Nat, ∃ t2 : TileM,
      alookup (runA (initPack 1 1)
        (wOps ++ [AOp.add "d" wImgD, AOp.up wCache 3])).heap 0 = some t2 ∧
      t2.x1 = (npx : ℚ) / ((runA (initPack 1 1)
        (wOps ++ [AOp.add "d" wImgD, AOp.up wCache 3])).atlas.atlas_dimension : ℚ) ∧
      t2.y1 = (npy : ℚ) / ((runA (initPack 1 1)
        (wOps ++ [AOp.add "d" wImgD, AOp.up wCache 3])).atlas.atlas_dimension : ℚ) ∧
      t2.x2 = ((npx + 1 : Nat) : ℚ) / ((runA (initPack 1 1)
        (wOps ++ [AOp.add "d" wImgD, AOp.up wCache 3])).atlas.atlas_dimension : ℚ) ∧
      t2.y2 = ((npy + 1 : Nat) : ℚ) / ((runA (initPack 1 1)
        (wOps ++ [AOp.add "d" wImgD, AOp.up wCache 3])).atlas.atlas_dimension : ℚ) ∧
      ∀ x, x < 1 → ∀ y, y < 1 → ∀ c, c < 4 →
        (runA (initPack 1 1)
            (wOps ++ [AOp.add "d" wImgD, AOp.up wCache 3])).atlas.data
            (atlasOffset (runA (initPack 1 1)
              (wOps ++ [AOp.add "d" wImgD, AOp.up wCache 3])).atlas.atlas_dimension
              npx npy x y + c) =
          (runA (initPack 1 1) wOps).atlas.data
            (atlasOffset (runA (initPack 1 1) wOps).atlas.atlas_dimension
              0 0 x y + c)) :=
  ⟨by decide, by decide, by decide, by with_unfolding_all rfl,
   by with_unfolding_all rfl, by with_unfolding_all rfl, by decide, by decide,
   by decide, rfl, by decide,
   C7_repack_roundtrip 1 1 wOps "a" "d" wImgD wCache 3 0 wT wImgA 0 0
     (by decide) (by decide) (by decide) (by with_unfolding_all rfl)
     (by with_unfolding_all rfl) (by with_unfolding_all rfl) (by decide)
     (by decide) (by decide) rfl (by decide)⟩

/-! ## The map/system layer (atlas.cpp:263-404)

`atlas_map_t`, the global registries, `add_tile_from_url` with its download
callback, and `atlas_upload_all`.  Asynchronous completions are modelled as
explicit events: an `addUrl` whose url misses the cache appends an in-flight
request to `pending`; a `complete` event picks one by index and runs the
callback body with environment-chosen response bytes and decode result (the
decoder `stbi_load_from_memory` is external input to this code).  Ghost
fields `fetches`, `decodes`, `log`, `destroyed` count `https_request` issues,
decoder invocations, `printf` lines and `sg_destroy_image` calls. -/

/-- One in-flight `https_request` (atlas.cpp:293): the issuing map, the url,
and the heap id of the `atlas_tile_t` captured by the callback. -/
structure PendingReq where
  mapId : Nat
  url : String
  tileId : Nat

/-- `atlas_map_t`: the outstanding-request counter (`std::atomic_int`, so an
`Int`) and the tile-size-keyed atlases. -/
structure MapM where
  requests : Int
  atlases : List (Nat × AtlasM)

/-- The whole translation unit's state: the global registries and caches,
every map and tile object on the heap, and the ghost counters. -/
structure SysM where
  image_cache : List (String × Image)
  heap : Heap
  next_tile : Nat
  maps : List (Nat × MapM)
  next_map : Nat
  atlas_maps : List Nat
  images_to_delete : List Nat
  destroyed : List Nat
  pending : List PendingReq
  next_image_id : Nat
  log : List String
  fetches : Nat
  decodes : Nat
  fatal : Bool

/-- `get_atlas`'s map key (atlas.cpp:86): `tile_width << 16 | tile_height`
in uint32 arithmetic. -/
def atlasKey (w h : Nat) : Nat := Nat.lor (w * 65536 % U32) (h % U32)

def mapAdjust (maps : List (Nat × MapM)) (k : Nat) (f : MapM → MapM) :
    List (Nat × MapM) :=
  maps.map (fun p => if p.1 = k then (k, f p.2) else p)

/-- `atlas_map_t::upload_all` (atlas.cpp:343-348): upload every atlas of one
map in order, threading the tile heap and the fresh-image-id supply and
collecting the ids queued for destruction. -/
def uploadMapFold (l : List (Nat × AtlasM)) (h : Heap)
    (cache : List (String × Image)) (nid : Nat) :
    List (Nat × AtlasM) × Heap × List Nat × Nat :=
  match l with
  | [] => ([], h, [], nid)
  | (k, a) :: rest =>
    let u := upload h a cache nid
    let r := uploadMapFold rest u.1 cache u.2.2.2
    ((k, u.2.1) :: r.1, r.2.1, u.2.2.1 ++ r.2.2.1, r.2.2.2)

/-- The registry loop of `atlas_upload_all` (atlas.cpp:390-396): maps with
`requests > 0` are skipped, the others have all their atlases uploaded. -/
def uploadAllFold (ids : List Nat) (maps : List (Nat × MapM)) (h : Heap)
    (cache : List (String × Image)) (nid : Nat) :
    List (Nat × MapM) × Heap × List Nat × Nat :=
  match ids with
  | [] => (maps, h, [], nid)
  | id :: rest =>
    match alookup maps id with
    | none => uploadAllFold rest maps h cache nid
    | some m =>
      if 0 < m.requests then uploadAllFold rest maps h cache nid
      else
        let u := uploadMapFold m.atlases h cache nid
        let r := uploadAllFold rest (assocSet maps id { m with atlases := u.1 })
          u.2.1 cache u.2.2.2
        (r.1, r.2.1, u.2.2.1 ++ r.2.2.1, r.2.2.2)

/-- System events: `atlas_create_map`, `atlas_add_tile_from_url`, delivery of
one pending download (with its response bytes and decode outcome), and
`atlas_upload_all`. -/
inductive SOp where
  | createMap
  | addUrl (mapId : Nat) (url : String)
  | complete (idx : Nat) (bytes : List Nat) (dec : Option Image)
  | uploadAll

def stepS (s : SysM) : SOp → SysM
  | .createMap =>
    if s.fatal then s else
    { s with
      maps := assocSet s.maps s.next_map ⟨0, []⟩
      next_map := s.next_map + 1
      atlas_maps := s.atlas_maps ++ [s.next_map] }
  | .addUrl mapId url =>
    if s.fatal then s else
    match alookup s.maps mapId with
    | none => { s with fatal := true }
    | some m =>
      match alookup s.image_cache url with
      | some cimg =>
        let key := atlasKey cimg.width cimg.height
        let m1 := match alookup m.atlases key with
          | some _ => m
          | none =>
            { m with
              atlases := assocSet m.atlases key
                (mkAtlas cimg.width cimg.height) }
        let a := (alookup m1.atlases key).getD (mkAtlas cimg.width cimg.height)
        if has_tile a url then
          { s with maps := assocSet s.maps mapId m1 }
        else
          let tid := s.next_tile
          let r := add_tile (assocSet s.heap tid TileM.init) a url tid cimg
          { s with
            heap := r.1
            next_tile := tid + 1
            maps := assocSet s.maps mapId
              { m1 with atlases := assocSet m1.atlases key r.2 } }
      | none =>
        { s with
          heap := assocSet s.heap s.next_tile TileM.init
          next_tile := s.next_tile + 1
          maps := assocSet s.maps mapId { m with requests := m.requests + 1 }
          pending := s.pending ++ [⟨mapId, url, s.next_tile⟩]
          fetches := s.fetches + 1 }
  | .complete idx bytes dec =>
    if s.fatal then s else
    if hidx : idx < s.pending.length then
      let r := s.pending.get ⟨idx, hidx⟩
      let rest := s.pending.eraseIdx idx
      if bytes.isEmpty then
        { s with
          pending := rest
          log := s.log ++ ["Failed to download image for atlas"]
          heap := assocErase s.heap r.tileId
          maps := mapAdjust s.maps r.mapId
            (fun m => { m with requests := m.requests - 1 }) }
      else
        match dec with
        | none =>
          { s with
            pending := rest
            decodes := s.decodes + 1
            log := s.log ++ ["Failed to load image for atlas"]
            heap := assocErase s.heap r.tileId
            maps := mapAdjust s.maps r.mapId
              (fun m => { m with requests := m.requests - 1 }) }
        | some img =>
          match alookup s.maps r.mapId with
          | none => { s with pending := rest, decodes := s.decodes + 1 }
          | some m =>
            let key := atlasKey img.width img.height
            let m1 := match alookup m.atlases key with
              | some _ => m
              | none =>
              { m with
                atlases := assocSet m.atlases key
                  (mkAtlas img.width img.height) }
            let a := (alookup m1.atlases key).getD (mkAtlas img.width img.height)
            let rr := add_tile s.heap a r.url r.tileId img
            { s with
              pending := rest
              decodes := s.decodes + 1
              image_cache := assocSet s.image_cache r.url img
              heap := rr.1
              maps := assocSet s.maps r.mapId
                { m1 with
                  requests := m1.requests - 1
                  atlases := assocSet m1.atlases key rr.2 } }
    else s
  | .uploadAll =>
    if s.fatal then s else
    let u := uploadAllFold s.atlas_maps s.maps s.heap s.image_cache
      s.next_image_id
    { s with
      maps := u.1
      heap := u.2.1
      destroyed := s.destroyed ++ s.images_to_delete ++ u.2.2.1
      images_to_delete := []
      next_image_id := u.2.2.2 }

/-- The program's start state (empty globals; `sg_make_image` ids are
nonzero, 0 being `SG_INVALID_ID`). -/
def initSys : SysM :=
  { image_cache := [], heap := [], next_tile := 0, maps := [], next_map := 0
    atlas_maps := [], images_to_delete := [], destroyed := [], pending := []
    next_image_id := 1, log := [], fetches := 0, decodes := 0, fatal := false }

def runS (ops : List SOp) : SysM := ops.foldl stepS initSys

/-- How many in-flight requests belong to one map. -/
def pendingCount (l : List PendingReq) (id : Nat) : Nat :=
  l.countP (fun r => r.mapId == id)

lemma alookup_mapAdjust (maps : List (Nat × MapM)) (k : Nat) (f : MapM → MapM)
    (j : Nat) :
    alookup (mapAdjust maps k f) j =
      if j = k then (alookup maps k).map f else alookup maps j := by
  induction maps with
  | nil => simp [mapAdjust, alookup]
  | cons p r ih =>
    show alookup ((if p.1 = k then (k, f p.2) else p) :: mapAdjust r k f) j = _
    by_cases hp : p.1 = k <;> by_cases hj : j = k <;>
      simp_all [alookup_cons] <;> simp_all [eq_comm]

lemma alookup_assocSet_isSome_rev {α β : Type} [DecidableEq α]
    (l : List (α × β)) (k : α) (v : β) (j : α)
    (h : (alookup (assocSet l k v) j).isSome) :
    j = k ∨ (alookup l j).isSome := by
  by_cases hj : j = k
  · exact Or.inl hj
  · rw [alookup_assocSet_ne l k v j hj] at h
    exact Or.inr h

lemma countP_ge_one_of_mem (p : PendingReq → Bool) (l : List PendingReq)
    (r : PendingReq) (hr : r ∈ l) (hp : p r) : 1 ≤ l.countP p := by
  induction l with
  | nil => exact absurd hr (List.not_mem_nil r)
  | cons a t ih =>
    rw [List.countP_cons]
    rcases List.mem_cons.mp hr with he | ht
    · rw [← he, hp]
      simp
    · have := ih ht
      omega

lemma countP_eraseIdx (p : PendingReq → Bool) (l : List PendingReq) :
    ∀ i (h : i < l.length),
      (l.eraseIdx i).countP p =
        l.countP p - (if p (l.get ⟨i, h⟩) then 1 else 0) := by
  induction l with
  | nil => intro i h; exact absurd h (by simp)
  | cons a t ih =>
    intro i h
    cases i with
    | zero =>
      show t.countP p = (a :: t).countP p - (if p a then 1 else 0)
      rw [List.countP_cons]
      by_cases hp : p a
      · rw [if_pos hp]
        simp [hp]
      · rw [if_neg hp]
        simp [hp]
    | succ n =>
      have hn : n < t.length := by
        have := h
        simp at this
        omega
      show (a :: t.eraseIdx n).countP p = _
      rw [List.countP_cons, List.countP_cons, ih n hn]
      have hge : (if p (t.get ⟨n, hn⟩) = true then 1 else 0) ≤ t.countP p := by
        by_cases hp : p (t.get ⟨n, hn⟩)
        · rw [if_pos hp]
          exact countP_ge_one_of_mem p t _ (List.get_mem t n hn) hp
        · rw [if_neg hp]
          omega
      have hgetc : (a :: t).get ⟨n + 1, h⟩ = t.get ⟨n, hn⟩ := rfl
      rw [hgetc]
      omega

lemma uploadAllFold_requests (ids : List Nat) :
    ∀ (maps : List (Nat × MapM)) (h : Heap) (cache : List (String × Image))
      (nid : Nat) (id : Nat),
      Option.map MapM.requests (alookup (uploadAllFold ids maps h cache nid).1 id) =
        Option.map MapM.requests (alookup maps id) := by
  induction ids with
  | nil => intro maps h cache nid id; rfl
  | cons id0 rest ih =>
    intro maps h cache nid id
    show Option.map MapM.requests
      (alookup (match alookup maps id0 with
        | none => uploadAllFold rest maps h cache nid
        | some m =>
          if 0 < m.requests then uploadAllFold rest maps h cache nid
          else
            let u := uploadMapFold m.atlases h cache nid
            let r := uploadAllFold rest (assocSet maps id0 { m with atlases := u.1 })
              u.2.1 cache u.2.2.2
            (r.1, r.2.1, u.2.2.1 ++ r.2.2.1, r.2.2.2)).1 id) = _
    cases hm : alookup maps id0 with
    | none => exact ih maps h cache nid id
    | some m =>
      dsimp only
      by_cases hreq : 0 < m.requests
      · rw [if_pos hreq]
        exact ih maps h cache nid id
      · rw [if_neg hreq]
        dsimp only
        rw [ih]
        by_cases hid : id = id0
        · subst hid
          rw [alookup_assocSet_self, hm]
          rfl
        · rw [alookup_assocSet_ne _ _ _ _ hid]

/-- The request-accounting invariant: map ids are below the allocator, every
in-flight request belongs to a live map, and each map's `requests` counter
equals its number of in-flight requests. -/
structure SysInv (s : SysM) : Prop where
  keyBound : ∀ id, (alookup s.maps id).isSome = true → id < s.next_map
  pendValid : ∀ r ∈ s.pending, (alookup s.maps r.mapId).isSome = true
  reqCount : ∀ id m, alookup s.maps id = some m →
    m.requests = (pendingCount s.pending id : Int)

lemma SysInv_init : SysInv initSys := by
  refine ⟨?_, ?_, ?_⟩
  · intro id hid
    exact absurd hid (by simp [initSys, alookup])
  · intro r hr
    exact absurd hr (by simp [initSys])
  · intro id m hm
    exact absurd hm (by simp [initSys, alookup])

lemma SysInv_setSameReq (s : SysM) (mapId : Nat) (m M : MapM) (h : SysInv s)
    (hm : alookup s.maps mapId = some m) (hreq : M.requests = m.requests)
    (heap2 : Heap) (nt2 : Nat) :
    SysInv { s with
      maps := assocSet s.maps mapId M
      heap := heap2
      next_tile := nt2 } := by
  refine ⟨?_, ?_, ?_⟩
  · intro id hid
    show id < s.next_map
    have hid2 : (alookup (assocSet s.maps mapId M) id).isSome = true := hid
    rcases alookup_assocSet_isSome_rev _ _ _ _ hid2 with he | hs
    · rw [he]
      exact h.keyBound mapId (by rw [hm]; rfl)
    · exact h.keyBound id hs
  · intro r hr
    show (alookup (assocSet s.maps mapId M) r.mapId).isSome = true
    exact alookup_assocSet_isSome _ _ _ _ (h.pendValid r hr)
  · intro id m2 hm2
    show m2.requests = (pendingCount s.pending id : Int)
    have hm3 : alookup (assocSet s.maps mapId M) id = some m2 := hm2
    by_cases hid : id = mapId
    · rw [hid, alookup_assocSet_self] at hm3
      injection hm3 with he2
      rw [← he2, hreq, hid]
      exact h.reqCount mapId m hm
    · rw [alookup_assocSet_ne _ _ _ _ hid] at hm3
      exact h.reqCount id m2 hm3

lemma SysInv_createMap (s : SysM) (h : SysInv s) :
    SysInv (stepS s SOp.createMap) := by
  show SysInv (if s.fatal then s else _)
  by_cases hf : s.fatal
  · rw [if_pos hf]
    exact h
  rw [if_neg hf]
  refine ⟨?_, ?_, ?_⟩
  · intro id hid
    show id < s.next_map + 1
    have hid2 : (alookup (assocSet s.maps s.next_map ⟨0, []⟩) id).isSome = true := hid
    rcases alookup_assocSet_isSome_rev _ _ _ _ hid2 with he | hs
    · omega
    · have := h.keyBound id hs
      omega
  · intro r hr
    show (alookup (assocSet s.maps s.next_map ⟨0, []⟩) r.mapId).isSome = true
    exact alookup_assocSet_isSome _ _ _ _ (h.pendValid r hr)
  · intro id m hm
    show m.requests = (pendingCount s.pending id : Int)
    have hm2 : alookup (assocSet s.maps s.next_map ⟨0, []⟩) id = some m := hm
    by_cases hid : id = s.next_map
    · rw [hid, alookup_assocSet_self] at hm2
      injection hm2 with he2
      rw [← he2]
      have hz : pendingCount s.pending id = 0 := by
        rw [pendingCount, List.countP_eq_zero]
        intro r hr
        have h1 := h.pendValid r hr
        have h2 := h.keyBound r.mapId h1
        simp only [beq_iff_eq]
        omega
      rw [hz]
      rfl
    · rw [alookup_assocSet_ne _ _ _ _ hid] at hm2
      exact h.reqCount id m hm2

lemma SysInv_addUrl (s : SysM) (mapId : Nat) (url : String) (h : SysInv s) :
    SysInv (stepS s (SOp.addUrl mapId url)) := by
  show SysInv (if s.fatal then s else _)
  by_cases hf : s.fatal
  · rw [if_pos hf]
    exact h
  rw [if_neg hf]
  cases hm : alookup s.maps mapId with
  | none =>
    exact ⟨fun id hid => h.keyBound id hid, fun r hr => h.pendValid r hr,
      fun id m2 hm2 => h.reqCount id m2 hm2⟩
  | some m =>
    cases hc : alookup s.image_cache url with
    | some cimg =>
      dsimp only
      cases hma : alookup m.atlases (atlasKey cimg.width cimg.height) with
      | some a0 =>
        dsimp only
        split
        · refine SysInv_setSameReq s mapId m _ h hm ?_ _ _
          rfl
        · refine SysInv_setSameReq s mapId m _ h hm ?_ _ _
          rfl
      | none =>
        dsimp only
        split
        · refine SysInv_setSameReq s mapId m _ h hm ?_ _ _
          rfl
        · refine SysInv_setSameReq s mapId m _ h hm ?_ _ _
          rfl
    | none =>
      dsimp only
      refine ⟨?_, ?_, ?_⟩
      · intro id hid
        show id < s.next_map
        have hid2 : (alookup (assocSet s.maps mapId
            { m with requests := m.requests + 1 }) id).isSome = true := hid
        rcases alookup_assocSet_isSome_rev _ _ _ _ hid2 with he | hs
        · rw [he]
          exact h.keyBound mapId (by rw [hm]; rfl)
        · exact h.keyBound id hs
      · intro r hr
        show (alookup (assocSet s.maps mapId
          { m with requests := m.requests + 1 }) r.mapId).isSome = true
        have hr2 : r ∈ s.pending ++ [⟨mapId, url, s.next_tile⟩] := hr
        rcases List.mem_append.mp hr2 with hold | hnew
        · exact alookup_assocSet_isSome _ _ _ _ (h.pendValid r hold)
        · have he : r = ⟨mapId, url, s.next_tile⟩ := List.mem_singleton.mp hnew
          rw [he]
          show (alookup (assocSet s.maps mapId _) mapId).isSome = true
          rw [alookup_assocSet_self]
          rfl
      · intro id m2 hm2
        show m2.requests =
          (pendingCount (s.pending ++ [⟨mapId, url, s.next_tile⟩]) id : Int)
        have hm3 : alookup (assocSet s.maps mapId
            { m with requests := m.requests + 1 }) id = some m2 := hm2
        have hcnt : pendingCount (s.pending ++ [⟨mapId, url, s.next_tile⟩]) id =
            pendingCount s.pending id +
              (if mapId = id then 1 else 0) := by
          rw [pendingCount, pendingCount, List.countP_append]
          congr 1
          by_cases hme : mapId = id
          · rw [if_pos hme]
            simp [List.countP_cons, hme]
          · rw [if_neg hme]
            simp [List.countP_cons, hme]
        by_cases hid : id = mapId
        · rw [hid, alookup_assocSet_self] at hm3
          injection hm3 with he2
          have hpre := h.reqCount mapId m hm
          rw [← he2]
          show m.requests + 1 = _
          rw [hcnt, if_pos hid.symm, hpre, hid]
          push_cast
          ring
        · rw [alookup_assocSet_ne _ _ _ _ hid] at hm3
          have hpre := h.reqCount id m2 hm3
          rw [hcnt, if_neg (fun he => hid he.symm), hpre]
          push_cast
          ring

lemma pendingCount_eraseIdx (s : SysM) (idx : Nat) (hidx : idx < s.pending.length)
    (id : Nat) :
    pendingCount (s.pending.eraseIdx idx) id =
      pendingCount s.pending id -
        (if (s.pending.get ⟨idx, hidx⟩).mapId = id then 1 else 0) := by
  rw [pendingCount, pendingCount, countP_eraseIdx _ _ idx hidx]
  congr 1
  by_cases he : (s.pending.get ⟨idx, hidx⟩).mapId = id <;> simp [he]

lemma pendingCount_pos (s : SysM) (idx : Nat) (hidx : idx < s.pending.length)
    (id : Nat) (he : (s.pending.get ⟨idx, hidx⟩).mapId = id) :
    1 ≤ pendingCount s.pending id :=
  countP_ge_one_of_mem _ _ _ (List.get_mem s.pending idx hidx)
    (by simp only [beq_iff_eq]; exact he)

lemma isSome_map_opt {α β : Type} (f : α → β) (o : Option α) :
    (Option.map f o).isSome = o.isSome := by cases o <;> rfl

lemma SysInv_failPath (s : SysM) (idx : Nat) (hidx : idx < s.pending.length)
    (h : SysInv s) (log2 : List String) (dec2 : Nat) :
    SysInv { s with
      pending := s.pending.eraseIdx idx
      log := log2
      heap := assocErase s.heap (s.pending.get ⟨idx, hidx⟩).tileId
      decodes := dec2
      maps := mapAdjust s.maps (s.pending.get ⟨idx, hidx⟩).mapId
        (fun m => { m with requests := m.requests - 1 }) } := by
  refine ⟨?_, ?_, ?_⟩
  · intro id hid
    show id < s.next_map
    have hid2 : (alookup (mapAdjust s.maps (s.pending.get ⟨idx, hidx⟩).mapId
        (fun m => { m with requests := m.requests - 1 })) id).isSome = true := hid
    rw [alookup_mapAdjust] at hid2
    by_cases he : id = (s.pending.get ⟨idx, hidx⟩).mapId
    · rw [if_pos he, isSome_map_opt] at hid2
      exact h.keyBound id (by rw [he]; exact hid2)
    · rw [if_neg he] at hid2
      exact h.keyBound id hid2
  · intro r2 hr2
    show (alookup (mapAdjust s.maps (s.pending.get ⟨idx, hidx⟩).mapId
      (fun m => { m with requests := m.requests - 1 })) r2.mapId).isSome = true
    have hr3 : r2 ∈ s.pending := (List.eraseIdx_sublist s.pending idx).subset hr2
    have hv := h.pendValid r2 hr3
    rw [alookup_mapAdjust]
    by_cases he : r2.mapId = (s.pending.get ⟨idx, hidx⟩).mapId
    · rw [if_pos he, isSome_map_opt]
      rw [he] at hv
      exact hv
    · rw [if_neg he]
      exact hv
  · intro id m2 hm2
    show m2.requests = (pendingCount (s.pending.eraseIdx idx) id : Int)
    have hm3 : alookup (mapAdjust s.maps (s.pending.get ⟨idx, hidx⟩).mapId
        (fun m => { m with requests := m.requests - 1 })) id = some m2 := hm2
    rw [alookup_mapAdjust] at hm3
    rw [pendingCount_eraseIdx s idx hidx id]
    by_cases he : id = (s.pending.get ⟨idx, hidx⟩).mapId
    · rw [if_pos he] at hm3
      cases hm0 : alookup s.maps (s.pending.get ⟨idx, hidx⟩).mapId with
      | none =>
        rw [hm0] at hm3
        exact absurd hm3 (by simp)
      | some m0 =>
        rw [hm0, Option.map_some'] at hm3
        injection hm3 with he2
        rw [← he2]
        show m0.requests - 1 = _
        have hpre := h.reqCount _ m0 hm0
        have hone := pendingCount_pos s idx hidx id he.symm
        rw [if_pos he.symm, ← he] at *
        rw [hpre]
        omega
    · rw [if_neg he] at hm3
      have hpre := h.reqCount id m2 hm3
      rw [if_neg (fun hh => he hh.symm), hpre]
      omega

lemma SysInv_succPath (s : SysM) (idx : Nat) (hidx : idx < s.pending.length)
    (h : SysInv s) (m M : MapM)
    (hm : alookup s.maps (s.pending.get ⟨idx, hidx⟩).mapId = some m)
    (hreq : M.requests = m.requests - 1)
    (cache2 : List (String × Image)) (heap2 : Heap) (dec2 : Nat) :
    SysInv { s with
      pending := s.pending.eraseIdx idx
      decodes := dec2
      image_cache := cache2
      heap := heap2
      maps := assocSet s.maps (s.pending.get ⟨idx, hidx⟩).mapId M } := by
  refine ⟨?_, ?_, ?_⟩
  · intro id hid
    show id < s.next_map
    have hid2 : (alookup (assocSet s.maps (s.pending.get ⟨idx, hidx⟩).mapId M)
        id).isSome = true := hid
    rcases alookup_assocSet_isSome_rev _ _ _ _ hid2 with he | hs
    · rw [he]
      exact h.keyBound _ (by rw [hm]; rfl)
    · exact h.keyBound id hs
  · intro r2 hr2
    show (alookup (assocSet s.maps (s.pending.get ⟨idx, hidx⟩).mapId M)
      r2.mapId).isSome = true
    have hr3 : r2 ∈ s.pending := (List.eraseIdx_sublist s.pending idx).subset hr2
    exact alookup_assocSet_isSome _ _ _ _ (h.pendValid r2 hr3)
  · intro id m2 hm2
    show m2.requests = (pendingCount (s.pending.eraseIdx idx) id : Int)
    have hm3 : alookup (assocSet s.maps (s.pending.get ⟨idx, hidx⟩).mapId M)
        id = some m2 := hm2
    rw [pendingCount_eraseIdx s idx hidx id]
    by_cases he : id = (s.pending.get ⟨idx, hidx⟩).mapId
    · rw [he, alookup_assocSet_self] at hm3
      injection hm3 with he2
      rw [← he2, hreq]
      have hpre := h.reqCount _ m hm
      have hone := pendingCount_pos s idx hidx id he.symm
      rw [if_pos he.symm, ← he] at *
      rw [hpre]
      omega
    · rw [alookup_assocSet_ne _ _ _ _ he] at hm3
      have hpre := h.reqCount id m2 hm3
      rw [if_neg (fun hh => he hh.symm), hpre]
      omega

lemma SysInv_complete (s : SysM) (idx : Nat) (bytes : List Nat)
    (dec : Option Image) (h : SysInv s) :
    SysInv (stepS s (SOp.complete idx bytes dec)) := by
  show SysInv (if s.fatal then s else _)
  by_cases hf : s.fatal
  · rw [if_pos hf]
    exact h
  rw [if_neg hf]
  by_cases hidx : idx < s.pending.length
  · rw [dif_pos hidx]
    dsimp only
    by_cases hb : bytes.isEmpty
    · rw [if_pos hb]
      exact SysInv_failPath s idx hidx h _ _
    rw [if_neg hb]
    cases dec with
    | none => exact SysInv_failPath s idx hidx h _ _
    | some img =>
      dsimp only
      have hvalid := h.pendValid _ (List.get_mem s.pending idx hidx)
      cases hmm : alookup s.maps (s.pending.get ⟨idx, hidx⟩).mapId with
      | none =>
        rw [hmm] at hvalid
        exact absurd hvalid (by simp)
      | some m =>
        dsimp only
        cases hma : alookup m.atlases (atlasKey img.width img.height) with
        | some a0 =>
          dsimp only
          refine SysInv_succPath s idx hidx h m _ hmm ?_ _ _ _
          rfl
        | none =>
          dsimp only
          refine SysInv_succPath s idx hidx h m _ hmm ?_ _ _ _
          rfl
  · rw [dif_neg hidx]
    exact h

lemma SysInv_uploadAll (s : SysM) (h : SysInv s) :
    SysInv (stepS s SOp.uploadAll) := by
  show SysInv (if s.fatal then s else _)
  by_cases hf : s.fatal
  · rw [if_pos hf]
    exact h
  rw [if_neg hf]
  have hreq := uploadAllFold_requests s.atlas_maps s.maps s.heap s.image_cache
    s.next_image_id
  refine ⟨?_, ?_, ?_⟩
  · intro id hid
    show id < s.next_map
    have hid2 : (alookup (uploadAllFold s.atlas_maps s.maps s.heap
        s.image_cache s.next_image_id).1 id).isSome = true := hid
    have he := congrArg Option.isSome (hreq id)
    rw [isSome_map_opt, isSome_map_opt] at he
    exact h.keyBound id (by rw [← he]; exact hid2)
  · intro r hr
    show (alookup (uploadAllFold s.atlas_maps s.maps s.heap
      s.image_cache s.next_image_id).1 r.mapId).isSome = true
    have he := congrArg Option.isSome (hreq r.mapId)
    rw [isSome_map_opt, isSome_map_opt] at he
    rw [he]
    exact h.pendValid r hr
  · intro id m2 hm2
    show m2.requests = (pendingCount s.pending id : Int)
    have hm3 : alookup (uploadAllFold s.atlas_maps s.maps s.heap
        s.image_cache s.next_image_id).1 id = some m2 := hm2
    have heq := hreq id
    rw [hm3, Option.map_some'] at heq
    cases hx : alookup s.maps id with
    | none =>
      rw [hx] at heq
      exact absurd heq (by simp)
    | some m0 =>
      rw [hx, Option.map_some'] at heq
      injection heq with he2
      rw [he2]
      exact h.reqCount id m0 hx

lemma SysInv_step (s : SysM) (op : SOp) (h : SysInv s) : SysInv (stepS s op) := by
  cases op with
  | createMap => exact SysInv_createMap s h
  | addUrl mapId url => exact SysInv_addUrl s mapId url h
  | complete idx bytes dec => exact SysInv_complete s idx bytes dec h
  | uploadAll => exact SysInv_uploadAll s h

lemma SysInv_fold (ops : List SOp) : ∀ s, SysInv s → SysInv (ops.foldl stepS s) := by
  induction ops with
  | nil => exact fun s h => h
  | cons op rest ih => exact fun s h => ih (stepS s op) (SysInv_step s op h)

lemma SysInv_run (ops : List SOp) : SysInv (runS ops) :=
  SysInv_fold ops initSys SysInv_init

/-! ## Claim C8 -/

/-- C8: `add_tile_from_url` increments the map's outstanding-request counter
when (and only when) it issues asynchronous work, and every completion path
(fetch success, fetch failure, decode failure) decrements it exactly once: in
every reachable state each map's counter equals its number of in-flight
requests, and once all issued requests have settled (no request in flight)
the counter is zero. -/
theorem C8_request_counter (ops : List SOp) (id : Nat) (m : MapM)
    (hm : alookup (runS ops).maps id = some m) :
    m.requests = (pendingCount (runS ops).pending id : Int) ∧
    ((runS ops).pending = [] → m.requests = 0) := by
  have h := SysInv_run ops
  have h1 := h.reqCount id m hm
  refine ⟨h1, fun hp => ?_⟩
  rw [h1, hp]
  rfl

theorem C8_witness :
    alookup (runS [SOp.createMap, SOp.addUrl 0 "u"]).maps 0 = some ⟨1, []⟩ ∧
    (⟨1, []⟩ : MapM).requests =
      (pendingCount (runS [SOp.createMap, SOp.addUrl 0 "u"]).pending 0 : Int) ∧
    ((runS [SOp.createMap, SOp.addUrl 0 "u"]).pending = [] →
      (⟨1, []⟩ : MapM).requests = 0) :=
  ⟨by with_unfolding_all rfl,
   (C8_request_counter [SOp.createMap, SOp.addUrl 0 "u"] 0 ⟨1, []⟩
     (by with_unfolding_all rfl)).1,
   (C8_request_counter [SOp.createMap, SOp.addUrl 0 "u"] 0 ⟨1, []⟩
     (by with_unfolding_all rfl)).2⟩

/-! ## Claim C1 -/

/-- C1 counterexample: two `add_tile_from_url` calls with the same URL on the
same map, the second before the first fetch completes, issue TWO network
fetches (two `https_request` calls, two in-flight requests), not one — the
code has no in-flight deduplication, only post-completion deduplication via
`image_cache`. -/
theorem C1_counterexample :
    (runS [SOp.createMap, SOp.addUrl 0 "u", SOp.addUrl 0 "u"]).fetches = 2 ∧
    (runS [SOp.createMap, SOp.addUrl 0 "u", SOp.addUrl 0 "u"]).pending.length = 2 ∧
    (runS [SOp.createMap, SOp.addUrl 0 "u", SOp.addUrl 0 "u"]).fatal = false := by
  decide

/-- C1 (amended): deduplication happens only through the image cache, after a
fetch has completed and its decode succeeded: an `add_tile_from_url` whose
url is in `image_cache` at call time performs no fetch and no decode and
leaves the in-flight request list unchanged.  (A call whose url is not yet
cached always issues a new fetch, even if an identical fetch is in flight —
see the counterexample.) -/
theorem C1_amended (s : SysM) (mapId : Nat) (url : String) (img : Image)
    (hf : s.fatal = false)
    (hc : alookup s.image_cache url = some img) :
    (stepS s (SOp.addUrl mapId url)).fetches = s.fetches ∧
    (stepS s (SOp.addUrl mapId url)).decodes = s.decodes ∧
    (stepS s (SOp.addUrl mapId url)).pending = s.pending := by
  simp only [stepS]
  rw [hf]
  simp only [Bool.false_eq_true, if_false]
  cases hm : alookup s.maps mapId with
  | none => exact ⟨rfl, rfl, rfl⟩
  | some m =>
    rw [hc]
    dsimp only
    cases hma : alookup m.atlases (atlasKey img.width img.height) <;>
      dsimp only <;> split <;> exact ⟨rfl, rfl, rfl⟩

theorem C1_amended_witness :
    (runS [SOp.createMap, SOp.addUrl 0 "u",
      SOp.complete 0 [1] (some wImgA)]).fatal = false ∧
    alookup (runS [SOp.createMap, SOp.addUrl 0 "u",
      SOp.complete 0 [1] (some wImgA)]).image_cache "u" = some wImgA ∧
    ((stepS (runS [SOp.createMap, SOp.addUrl 0 "u",
        SOp.complete 0 [1] (some wImgA)]) (SOp.addUrl 0 "u")).fetches =
      (runS [SOp.createMap, SOp.addUrl 0 "u",
        SOp.complete 0 [1] (some wImgA)]).fetches ∧
      (stepS (runS [SOp.createMap, SOp.addUrl 0 "u",
        SOp.complete 0 [1] (some wImgA)]) (SOp.addUrl 0 "u")).decodes =
      (runS [SOp.createMap, SOp.addUrl 0 "u",
        SOp.complete 0 [1] (some wImgA)]).decodes ∧
      (stepS (runS [SOp.createMap, SOp.addUrl 0 "u",
        SOp.complete 0 [1] (some wImgA)]) (SOp.addUrl 0 "u")).pending =
      (runS [SOp.createMap, SOp.addUrl 0 "u",
        SOp.complete 0 [1] (some wImgA)]).pending) :=
  ⟨by decide, by with_unfolding_all rfl,
   C1_amended (runS [SOp.createMap, SOp.addUrl 0 "u",
       SOp.complete 0 [1] (some wImgA)]) 0 "u" wImgA
     (by decide) (by with_unfolding_all rfl)⟩

/-! ## Claim C3 -/

/-- C3: on a failed fetch (empty bytes) or failed decode the code does log
the stated line, inserts nothing into the image cache and does not crash —
but it does NOT leave the returned tile handle valid: both failure callbacks
`delete tile` the very handle `add_tile_from_url` already returned to the
caller (atlas.cpp:296, 310), so the handle dangles (its heap entry is gone)
instead of staying readable with atlas id 0 forever.  The handle was live
right after the call returned it. -/
theorem C3_tile_freed_on_failure :
    ((runS [SOp.createMap, SOp.addUrl 0 "u", SOp.complete 0 [] none]).log =
      ["Failed to download image for atlas"]) ∧
    ((alookup (runS [SOp.createMap, SOp.addUrl 0 "u",
      SOp.complete 0 [] none]).image_cache "u").isSome = false) ∧
    ((runS [SOp.createMap, SOp.addUrl 0 "u",
      SOp.complete 0 [] none]).fatal = false) ∧
    ((alookup (runS [SOp.createMap, SOp.addUrl 0 "u"]).heap 0).isSome = true) ∧
    ((alookup (runS [SOp.createMap, SOp.addUrl 0 "u",
      SOp.complete 0 [] none]).heap 0).isSome = false) ∧
    ((runS [SOp.createMap, SOp.addUrl 0 "u", SOp.complete 0 [1] none]).log =
      ["Failed to load image for atlas"]) ∧
    ((alookup (runS [SOp.createMap, SOp.addUrl 0 "u",
      SOp.complete 0 [1] none]).image_cache "u").isSome = false) ∧
    ((runS [SOp.createMap, SOp.addUrl 0 "u",
      SOp.complete 0 [1] none]).fatal = false) ∧
    ((alookup (runS [SOp.createMap, SOp.addUrl 0 "u",
      SOp.complete 0 [1] none]).heap 0).isSome = false) := by
  decide

/-! ## Claim C9 -/

lemma finishDirty_dirty (a : AtlasM) : (finishDirty a).dirty = false := by
  unfold finishDirty
  split <;> simp_all

lemma finishDirty_resized (a : AtlasM) : (finishDirty a).resized = a.resized := by
  unfold finishDirty
  split <;> rfl

lemma finishDirty_id (a : AtlasM) :
    (finishDirty a).atlas_image_id = a.atlas_image_id := by
  unfold finishDirty
  split <;> rfl

lemma repackFold_imageId (cache : List (String × Image)) (hp : Heap × AtlasM)
    (urls : List String) :
    (repackFold cache hp urls).2.atlas_image_id = hp.2.atlas_image_id := by
  unfold repackFold
  exact foldl_preserve _ (fun q => q.2.atlas_image_id = hp.2.atlas_image_id)
    (fun b u hb => ((copy_to_data_const b.1 b.2 u _ _).2.2.2.2.2.2.1).trans hb)
    urls hp rfl

lemma upload_nid (h : Heap) (a : AtlasM) (cache : List (String × Image))
    (nid : Nat) :
    (upload h a cache nid).2.2.2 = nid ∨ (upload h a cache nid).2.2.2 = nid + 1 := by
  unfold upload
  dsimp only
  split_ifs <;> simp

/-- Any completed (non-fatal) `upload` leaves the atlas clean: nothing left to
push to the GPU, no pending resize, and a valid (nonzero) texture id. -/
lemma upload_post (h : Heap) (a : AtlasM) (cache : List (String × Image))
    (nid : Nat) (hn : nid ≠ 0)
    (hfat : (upload h a cache nid).2.1.fatal = none) :
    (upload h a cache nid).2.1.dirty = false ∧
    (upload h a cache nid).2.1.resized = false ∧
    (upload h a cache nid).2.1.atlas_image_id ≠ 0 := by
  by_cases hf : a.fatal.isSome
  · exfalso
    rw [upload_eq_frozen _ _ _ _ hf] at hfat
    rw [hfat] at hf
    exact absurd hf (by simp)
  have hf2 : a.fatal = none := Option.not_isSome_iff_eq_none.mp hf
  cases hres : a.resized with
  | false =>
    by_cases hid : a.atlas_image_id = 0
    · rw [upload_eq_noresize_invalid _ _ _ _ hf2 hres hid]
      refine ⟨?_, ?_, ?_⟩
      · show (finishDirty (setImageId a nid)).dirty = false
        exact finishDirty_dirty _
      · show (finishDirty (setImageId a nid)).resized = false
        rw [finishDirty_resized]
        exact hres
      · show (finishDirty (setImageId a nid)).atlas_image_id ≠ 0
        rw [finishDirty_id]
        exact hn
    · rw [upload_eq_noresize_valid _ _ _ _ hf2 hres hid]
      refine ⟨?_, ?_, ?_⟩
      · show (finishDirty a).dirty = false
        exact finishDirty_dirty _
      · show (finishDirty a).resized = false
        rw [finishDirty_resized]
        exact hres
      · show (finishDirty a).atlas_image_id ≠ 0
        rw [finishDirty_id]
        exact hid
  | true =>
    by_cases hrf : (repackFold cache (h, setImageId a nid)
        a.images_to_add).2.fatal.isSome
    · exfalso
      rw [upload_eq_resize_fatal _ _ _ _ hf2 hres hrf] at hfat
      rw [hfat] at hrf
      exact absurd hrf (by simp)
    have hrf2 : (repackFold cache (h, setImageId a nid)
        a.images_to_add).2.fatal = none := Option.not_isSome_iff_eq_none.mp hrf
    rw [upload_eq_resize_ok _ _ _ _ hf2 hres hrf2]
    refine ⟨?_, ?_, ?_⟩
    · show (finishDirty (clearQueue (repackFold cache (h, setImageId a nid)
        a.images_to_add).2)).dirty = false
      exact finishDirty_dirty _
    · show (finishDirty (clearQueue (repackFold cache (h, setImageId a nid)
        a.images_to_add).2)).resized = false
      rw [finishDirty_resized]
      rfl
    · show (finishDirty (clearQueue (repackFold cache (h, setImageId a nid)
        a.images_to_add).2)).atlas_image_id ≠ 0
      rw [finishDirty_id]
      show (repackFold cache (h, setImageId a nid)
        a.images_to_add).2.atlas_image_id ≠ 0
      rw [repackFold_imageId]
      exact hn

lemma uploadMapFold_post (l : List (Nat × AtlasM)) :
    ∀ (h : Heap) (cache : List (String × Image)) (nid : Nat), nid ≠ 0 →
      (∀ p ∈ (uploadMapFold l h cache nid).1, p.2.fatal = none →
        p.2.dirty = false ∧ p.2.resized = false ∧ p.2.atlas_image_id ≠ 0) ∧
      (uploadMapFold l h cache nid).2.2.2 ≠ 0 := by
  induction l with
  | nil =>
    intro h cache nid hn
    exact ⟨fun p hp => absurd hp (List.not_mem_nil p), hn⟩
  | cons ka rest ih =>
    intro h cache nid hn
    obtain ⟨k, a⟩ := ka
    have hn2 : (upload h a cache nid).2.2.2 ≠ 0 := by
      rcases upload_nid h a cache nid with he | he <;> omega
    have hrec := ih (upload h a cache nid).1 cache (upload h a cache nid).2.2.2 hn2
    refine ⟨?_, hrec.2⟩
    intro p hp hpf
    rcases List.mem_cons.mp hp with he | ht
    · rw [he] at hpf ⊢
      exact upload_post h a cache nid hn hpf
    · exact hrec.1 p ht hpf

lemma uploadAllFold_notin (ids : List Nat) :
    ∀ (maps : List (Nat × MapM)) (h : Heap) (cache : List (String × Image))
      (nid id : Nat), id ∉ ids →
      alookup (uploadAllFold ids maps h cache nid).1 id = alookup maps id := by
  induction ids with
  | nil => intro maps h cache nid id _; rfl
  | cons id0 rest ih =>
    intro maps h cache nid id hid
    have hne : id ≠ id0 := fun he => hid (he ▸ List.mem_cons_self id0 rest)
    have hrest : id ∉ rest := fun he => hid (List.mem_cons_of_mem id0 he)
    show alookup (match alookup maps id0 with
      | none => uploadAllFold rest maps h cache nid
      | some m =>
        if 0 < m.requests then uploadAllFold rest maps h cache nid
        else
          let u := uploadMapFold m.atlases h cache nid
          let r := uploadAllFold rest (assocSet maps id0 { m with atlases := u.1 })
            u.2.1 cache u.2.2.2
          (r.1, r.2.1, u.2.2.1 ++ r.2.2.1, r.2.2.2)).1 id = _
    cases hm : alookup maps id0 with
    | none => exact ih maps h cache nid id hrest
    | some m =>
      dsimp only
      by_cases hreq : 0 < m.requests
      · rw [if_pos hreq]
        exact ih maps h cache nid id hrest
      · rw [if_neg hreq]
        dsimp only
        rw [ih _ _ _ _ _ hrest, alookup_assocSet_ne _ _ _ _ hne]

lemma uploadAllFold_pos (ids : List Nat) :
    ∀ (maps : List (Nat × MapM)) (h : Heap) (cache : List (String × Image))
      (nid id : Nat) (m : MapM), alookup maps id = some m → 0 < m.requests →
      alookup (uploadAllFold ids maps h cache nid).1 id = some m := by
  induction ids with
  | nil => intro maps h cache nid id m hm _; exact hm
  | cons id0 rest ih =>
    intro maps h cache nid id m hm hreq
    show alookup (match alookup maps id0 with
      | none => uploadAllFold rest maps h cache nid
      | some m =>
        if 0 < m.requests then uploadAllFold rest maps h cache nid
        else
          let u := uploadMapFold m.atlases h cache nid
          let r := uploadAllFold rest (assocSet maps id0 { m with atlases := u.1 })
            u.2.1 cache u.2.2.2
          (r.1, r.2.1, u.2.2.1 ++ r.2.2.1, r.2.2.2)).1 id = _
    cases hm0 : alookup maps id0 with
    | none => exact ih maps h cache nid id m hm hreq
    | some m0 =>
      dsimp only
      by_cases hreq0 : 0 < m0.requests
      · rw [if_pos hreq0]
        exact ih maps h cache nid id m hm hreq
      · rw [if_neg hreq0]
        dsimp only
        have hne : id ≠ id0 := by
          intro he
          rw [he, hm0] at hm
          injection hm with he2
          rw [← he2] at hreq
          exact hreq0 hreq
        refine ih _ _ _ _ _ m ?_ hreq
        rw [alookup_assocSet_ne _ _ _ _ hne]
        exact hm

lemma uploadAllFold_good (ids : List Nat) :
    ∀ (maps : List (Nat × MapM)) (h : Heap) (cache : List (String × Image))
      (nid id : Nat), nid ≠ 0 →
      ((∀ m2, alookup maps id = some m2 →
        ∀ p ∈ m2.atlases, p.2.fatal = none →
          p.2.dirty = false ∧ p.2.resized = false ∧ p.2.atlas_image_id ≠ 0) ∨
       (id ∈ ids ∧ ∃ m, alookup maps id = some m ∧ m.requests ≤ 0)) →
      ∀ m2, alookup (uploadAllFold ids maps h cache nid).1 id = some m2 →
        ∀ p ∈ m2.atlases, p.2.fatal = none →
          p.2.dirty = false ∧ p.2.resized = false ∧ p.2.atlas_image_id ≠ 0 := by
  induction ids with
  | nil =>
    intro maps h cache nid id _ hd m2 hm2
    rcases hd with hl | ⟨hmem, _⟩
    · exact hl m2 hm2
    · exact absurd hmem (List.not_mem_nil id)
  | cons id0 rest ih =>
    intro maps h cache nid id hn hd m2 hm2
    revert hm2
    show alookup (match alookup maps id0 with
      | none => uploadAllFold rest maps h cache nid
      | some m =>
        if 0 < m.requests then uploadAllFold rest maps h cache nid
        else
          let u := uploadMapFold m.atlases h cache nid
          let r := uploadAllFold rest (assocSet maps id0 { m with atlases := u.1 })
            u.2.1 cache u.2.2.2
          (r.1, r.2.1, u.2.2.1 ++ r.2.2.1, r.2.2.2)).1 id = some m2 → _
    cases hm0 : alookup maps id0 with
    | none =>
      intro hm2
      refine ih maps h cache nid id hn ?_ m2 hm2
      rcases hd with hl | ⟨hmem, m, hm, hr⟩
      · exact Or.inl hl
      · rcases List.mem_cons.mp hmem with he | ht
        · rw [he, hm0] at hm
          exact absurd hm (by simp)
        · exact Or.inr ⟨ht, m, hm, hr⟩
    | some m0 =>
      dsimp only
      by_cases hreq0 : 0 < m0.requests
      · rw [if_pos hreq0]
        intro hm2
        refine ih maps h cache nid id hn ?_ m2 hm2
        rcases hd with hl | ⟨hmem, m, hm, hr⟩
        · exact Or.inl hl
        · rcases List.mem_cons.mp hmem with he | ht
          · rw [he, hm0] at hm
            injection hm with he2
            rw [← he2] at hr
            omega
          · exact Or.inr ⟨ht, m, hm, hr⟩
      · rw [if_neg hreq0]
        dsimp only
        intro hm2
        have hnid2 : (uploadMapFold m0.atlases h cache nid).2.2.2 ≠ 0 :=
          (uploadMapFold_post m0.atlases h cache nid hn).2
        refine ih _ _ _ _ _ hnid2 ?_ m2 hm2
        by_cases hide : id = id0
        · refine Or.inl ?_
          intro m3 hm3
          rw [hide, alookup_assocSet_self] at hm3
          injection hm3 with he3
          rw [← he3]
          exact (uploadMapFold_post m0.atlases h cache nid hn).1
        · rcases hd with hl | ⟨hmem, m, hm, hr⟩
          · refine Or.inl ?_
            intro m3 hm3
            rw [alookup_assocSet_ne _ _ _ _ hide] at hm3
            exact hl m3 hm3
          · rcases List.mem_cons.mp hmem with he | ht
            · exact absurd he hide
            · refine Or.inr ⟨ht, m, ?_, hr⟩
              rw [alookup_assocSet_ne _ _ _ _ hide]
              exact hm

/-- C9: an `atlas_upload_all` pass uploads every atlas of exactly those live
registered maps whose outstanding-request counter is not positive at the time
of the pass — each such atlas ends clean (nothing dirty, no pending resize, a
valid nonzero texture id) unless its upload hit a fatal error — while maps
with a positive counter (and unregistered maps) are left untouched; then it
destroys every texture id in the global deletion queue and empties the
queue. -/
theorem C9_upload_all_pass (s : SysM) (hf : s.fatal = false)
    (hn : s.next_image_id ≠ 0) :
    (∀ id, id ∉ s.atlas_maps →
      alookup (stepS s SOp.uploadAll).maps id = alookup s.maps id) ∧
    (∀ id m, alookup s.maps id = some m → 0 < m.requests →
      alookup (stepS s SOp.uploadAll).maps id = some m) ∧
    (∀ id m, id ∈ s.atlas_maps → alookup s.maps id = some m → m.requests ≤ 0 →
      ∀ m2, alookup (stepS s SOp.uploadAll).maps id = some m2 →
        ∀ p ∈ m2.atlases, p.2.fatal = none →
          p.2.dirty = false ∧ p.2.resized = false ∧ p.2.atlas_image_id ≠ 0) ∧
    (∀ i, i ∈ s.images_to_delete → i ∈ (stepS s SOp.uploadAll).destroyed) ∧
    ((stepS s SOp.uploadAll).images_to_delete = []) := by
  have hstep : stepS s SOp.uploadAll = (if s.fatal then s else _) := rfl
  refine ⟨?_, ?_, ?_, ?_, ?_⟩
  · intro id hid
    show alookup ((if s.fatal then s else _ : SysM)).maps id = alookup s.maps id
    rw [hf]
    simp only [Bool.false_eq_true, if_false]
    exact uploadAllFold_notin s.atlas_maps s.maps s.heap s.image_cache
      s.next_image_id id hid
  · intro id m hm hreq
    show alookup ((if s.fatal then s else _ : SysM)).maps id = some m
    rw [hf]
    simp only [Bool.false_eq_true, if_false]
    exact uploadAllFold_pos s.atlas_maps s.maps s.heap s.image_cache
      s.next_image_id id m hm hreq
  · intro id m hmem hm hreq m2 hm2
    have hm3 : alookup (uploadAllFold s.atlas_maps s.maps s.heap s.image_cache
        s.next_image_id).1 id = some m2 := by
      have : alookup ((if s.fatal then s else _ : SysM)).maps id = some m2 := hm2
      rw [hf] at this
      simpa only [Bool.false_eq_true, if_false] using this
    exact uploadAllFold_good s.atlas_maps s.maps s.heap s.image_cache
      s.next_image_id id hn (Or.inr ⟨hmem, m, hm, hreq⟩) m2 hm3
  · intro i hi
    show i ∈ ((if s.fatal then s else _ : SysM)).destroyed
    rw [hf]
    simp only [Bool.false_eq_true, if_false]
    show i ∈ s.destroyed ++ s.images_to_delete ++ _
    exact List.mem_append_left _ (List.mem_append_right _ hi)
  · show ((if s.fatal then s else _ : SysM)).images_to_delete = []
    rw [hf]
    simp only [Bool.false_eq_true, if_false]

theorem C9_witness :
    (runS [SOp.createMap, SOp.addUrl 0 "u",
      SOp.complete 0 [1] (some wImgA)]).fatal = false ∧
    (runS [SOp.createMap, SOp.addUrl 0 "u",
      SOp.complete 0 [1] (some wImgA)]).next_image_id ≠ 0 ∧
    (∀ id m, id ∈ (runS [SOp.createMap, SOp.addUrl 0 "u",
        SOp.complete 0 [1] (some wImgA)]).atlas_maps →
      alookup (runS [SOp.createMap, SOp.addUrl 0 "u",
        SOp.complete 0 [1] (some wImgA)]).maps id = some m → m.requests ≤ 0 →
      ∀ m2, alookup (stepS (runS [SOp.createMap, SOp.addUrl 0 "u",
          SOp.complete 0 [1] (some wImgA)]) SOp.uploadAll).maps id = some m2 →
        ∀ p ∈ m2.atlases, p.2.fatal = none →
          p.2.dirty = false ∧ p.2.resized = false ∧ p.2.atlas_image_id ≠ 0) ∧
    (stepS (runS [SOp.createMap, SOp.addUrl 0 "u",
      SOp.complete 0 [1] (some wImgA)]) SOp.uploadAll).images_to_delete = [] :=
  ⟨by decide, by decide,
   (C9_upload_all_pass (runS [SOp.createMap, SOp.addUrl 0 "u",
     SOp.complete 0 [1] (some wImgA)]) (by decide) (by decide)).2.2.1,
   (C9_upload_all_pass (runS [SOp.createMap, SOp.addUrl 0 "u",
     SOp.complete 0 [1] (some wImgA)]) (by decide) (by decide)).2.2.2.2⟩

end AtlasModel
